import Mathlib

/-!
# Meeting session coordinator (`src/call.js`)

A shallow embedding of the server-side `Meeting` class and of the socket
handlers that drive it, followed by the properties proved about them.

Modelling conventions
* A JavaScript `Map` with string keys is an insertion-ordered association
  list (`JMap`); a JavaScript `Set` of strings is an insertion-ordered list
  (`JSet`).  `set` on a present key keeps the position, `set` on an absent key
  appends, `delete` removes the key.
* Objects stored in a `Map` and mutated in place (`participant.x = v`) are
  modelled by `JMap.modify`, which rewrites the record stored under the key
  and keeps its position.
* Connection identifiers are strings.  JavaScript truthiness is kept:
  `null` and the empty string are falsy (`jsTruthy`).
* `new Date()` reads the clock; the instant is passed as a parameter `now`.
* `process.env` is passed as a parameter (`TurnEnv`).
* Audio levels are rational numbers, the threshold `0.3` is `3 / 10`.
* The opaque payloads of `offer`, `answer` and `ice-candidate` are strings.
* `console.log` calls are omitted.
-/

namespace Call

/-! ## JavaScript containers -/

/-- Insertion-ordered association list standing for a JavaScript `Map` with
string keys. -/
abbrev JMap (α : Type) := List (String × α)

namespace JMap

variable {α : Type}

/-- Model of `Map.prototype.get`. -/
def get (m : JMap α) (k : String) : Option α :=
  (m.find? (fun e => e.1 == k)).map Prod.snd

/-- Model of `Map.prototype.has`. -/
def has (m : JMap α) (k : String) : Bool :=
  m.any (fun e => e.1 == k)

/-- Model of `Map.prototype.set`: overwrite in place, or append. -/
def set (m : JMap α) (k : String) (v : α) : JMap α :=
  if m.has k then m.map (fun e => if e.1 == k then (k, v) else e)
  else m ++ [(k, v)]

/-- Model of `Map.prototype.delete`. -/
def delete (m : JMap α) (k : String) : JMap α :=
  m.filter (fun e => e.1 != k)

/-- In-place mutation of the object stored under `k` (no effect when `k` is
absent): `const p = m.get(k); if (p) { p.field = ... }`. -/
def modify (m : JMap α) (k : String) (f : α → α) : JMap α :=
  m.map (fun e => if e.1 == k then (e.1, f e.2) else e)

/-- Model of `Array.from(m.values())`. -/
def values (m : JMap α) : List α := m.map Prod.snd

/-- Model of `Array.from(m.keys())`. -/
def keys (m : JMap α) : List String := m.map Prod.fst

end JMap

/-- Insertion-ordered list standing for a JavaScript `Set` of strings. -/
abbrev JSet := List String

namespace JSet

/-- Model of `Set.prototype.has`. -/
def has (s : JSet) (k : String) : Bool := s.contains k

/-- Model of `Set.prototype.add`. -/
def add (s : JSet) (k : String) : JSet :=
  if s.contains k then s else s ++ [k]

/-- Model of `Set.prototype.delete`. -/
def delete (s : JSet) (k : String) : JSet :=
  s.filter (fun x => x != k)

end JSet

/-- JavaScript truthiness of a value that is `null` or a string. -/
def jsTruthy : Option String → Bool
  | none => false
  | some s => s != ""

/-! ## Data model -/

/-- Participant record created by `addParticipant`. -/
structure Participant where
  socketId : String
  name : String
  isHost : Bool
  isCoHost : Bool
  isMuted : Bool
  isCameraOff : Bool
  isSpotlighted : Bool
  isScreenSharing : Bool
  audioLevel : ℚ
  joinedAt : Nat
  isReady : Bool
  handRaised : Bool
  connectionState : String
  deriving DecidableEq, Repr

/-- Entry of `screenShares`. -/
structure ScreenShare where
  streamId : String
  startedAt : Nat
  deriving DecidableEq, Repr

/-- Meeting feature toggles. -/
structure Permissions where
  chatEnabled : Bool
  fileSharing : Bool
  emojiReactions : Bool
  deriving DecidableEq, Repr

/-- Object passed to `updatePermissions`: each of the three keys is present
(`some`) or absent (`none`). -/
structure PermissionsPatch where
  chatEnabled : Option Bool
  fileSharing : Option Bool
  emojiReactions : Option Bool
  deriving DecidableEq, Repr

/-- ICE server descriptor. -/
structure IceServer where
  urls : String
  username : Option String
  credential : Option String
  deriving DecidableEq, Repr

/-- The three environment variables read by `getICEServers`. -/
structure TurnEnv where
  turnServerUrl : Option String
  turnUsername : Option String
  turnCredential : Option String
  deriving DecidableEq, Repr

/-- State of one `Meeting` object. -/
structure Meeting where
  id : String
  hostId : String
  hostName : String
  participants : JMap Participant
  coHosts : JSet
  spotlightedParticipant : Option String
  screenShares : JMap ScreenShare
  createdAt : Nat
  autoSpotlightEnabled : Bool
  manualSpotlight : Bool
  raisedHands : JSet
  iceServers : List IceServer
  isLocked : Bool
  permissions : Permissions
  deriving DecidableEq, Repr

/-! ## The `Meeting` class -/

/-- Descriptor with only a `urls` field. -/
def stun (u : String) : IceServer := ⟨u, none, none⟩

/-- Descriptor with `urls`, `username` and `credential`. -/
def turn (u n c : String) : IceServer := ⟨u, some n, some c⟩

/-- Model of `Meeting.getICEServers`. -/
def getICEServers (env : TurnEnv) : List IceServer :=
  let iceServers := [
    stun "stun:stun.l.google.com:19302",
    stun "stun:stun1.l.google.com:19302",
    stun "stun:stun2.l.google.com:19302",
    stun "stun:stun3.l.google.com:19302",
    stun "stun:stun4.l.google.com:19302",
    stun "stun:stun.stunprotocol.org:3478",
    stun "stun:stun.voiparound.com",
    stun "stun:stun.voipbuster.com",
    stun "stun:stun.voipstunt.com",
    stun "stun:stun.voxgratia.org",
    turn "turn:openrelay.metered.ca:80" "openrelayproject" "openrelayproject",
    turn "turn:openrelay.metered.ca:443" "openrelayproject" "openrelayproject",
    turn "turn:openrelay.metered.ca:443?transport=tcp" "openrelayproject" "openrelayproject"]
  if jsTruthy env.turnServerUrl && jsTruthy env.turnUsername && jsTruthy env.turnCredential then
    iceServers ++ [⟨env.turnServerUrl.getD "", env.turnUsername, env.turnCredential⟩]
  else iceServers

/-- Model of the `Meeting` constructor. -/
def Meeting.new (id hostId hostName : String) (now : Nat) (env : TurnEnv) : Meeting :=
  { id := id
    hostId := hostId
    hostName := hostName
    participants := []
    coHosts := []
    spotlightedParticipant := none
    screenShares := []
    createdAt := now
    autoSpotlightEnabled := true
    manualSpotlight := false
    raisedHands := []
    iceServers := getICEServers env
    isLocked := false
    permissions := { chatEnabled := true, fileSharing := true, emojiReactions := true } }

namespace Meeting

/-- Model of `Meeting.spotlightParticipant`. -/
def spotlightParticipant (m : Meeting) (socketId : String) : Meeting :=
  let m1 : Meeting :=
    if jsTruthy m.spotlightedParticipant then
      { m with
        participants :=
          m.participants.modify (m.spotlightedParticipant.getD "")
            (fun p => { p with isSpotlighted := false }) }
    else m
  match m1.participants.get socketId with
  | some _ =>
    { m1 with
      participants := m1.participants.modify socketId (fun p => { p with isSpotlighted := true })
      spotlightedParticipant := some socketId
      manualSpotlight := true }
  | none => m1

/-- Model of `Meeting.addParticipant`.  The returned record is the object
stored in the map, read after the whole call (the method returns the same
object that `spotlightParticipant` may have mutated). -/
def addParticipant (m : Meeting) (socketId name : String) (isHost : Bool) (now : Nat) :
    Meeting × Participant :=
  let participant : Participant :=
    { socketId := socketId
      name := name
      isHost := isHost
      isCoHost := false
      isMuted := false
      isCameraOff := false
      isSpotlighted := false
      isScreenSharing := false
      audioLevel := 0
      joinedAt := now
      isReady := false
      handRaised := false
      connectionState := "new" }
  let m1 : Meeting := { m with participants := m.participants.set socketId participant }
  let m2 : Meeting :=
    if isHost && !jsTruthy m1.spotlightedParticipant then m1.spotlightParticipant socketId
    else m1
  (m2, (m2.participants.get socketId).getD participant)

/-- Model of `Meeting.removeParticipant`. -/
def removeParticipant (m : Meeting) (socketId : String) : Meeting :=
  let m1 : Meeting :=
    { m with
      participants := m.participants.delete socketId
      coHosts := JSet.delete m.coHosts socketId
      screenShares := m.screenShares.delete socketId
      raisedHands := JSet.delete m.raisedHands socketId }
  if m1.spotlightedParticipant = some socketId then
    { m1 with spotlightedParticipant := none, manualSpotlight := false }
  else m1

/-- Model of `Meeting.setParticipantReady`. -/
def setParticipantReady (m : Meeting) (socketId : String) : Meeting :=
  { m with
    participants :=
      m.participants.modify socketId
        (fun p => { p with isReady := true, connectionState := "ready" }) }

/-- Model of `Meeting.updateParticipantConnectionState`. -/
def updateParticipantConnectionState (m : Meeting) (socketId state : String) : Meeting :=
  { m with
    participants :=
      m.participants.modify socketId (fun p => { p with connectionState := state }) }

/-- Model of `Meeting.getReadyParticipants`. -/
def getReadyParticipants (m : Meeting) : List Participant :=
  m.participants.values.filter (fun p => p.isReady)

/-- Model of `Meeting.makeCoHost`. -/
def makeCoHost (m : Meeting) (socketId : String) : Meeting :=
  match m.participants.get socketId with
  | some participant =>
    if !participant.isHost then
      { m with
        participants := m.participants.modify socketId (fun p => { p with isCoHost := true })
        coHosts := JSet.add m.coHosts socketId }
    else m
  | none => m

/-- Model of `Meeting.removeCoHost`. -/
def removeCoHost (m : Meeting) (socketId : String) : Meeting :=
  match m.participants.get socketId with
  | some _ =>
    { m with
      participants := m.participants.modify socketId (fun p => { p with isCoHost := false })
      coHosts := JSet.delete m.coHosts socketId }
  | none => m

/-- Model of `Meeting.removeSpotlight`. -/
def removeSpotlight (m : Meeting) : Meeting :=
  if jsTruthy m.spotlightedParticipant then
    { m with
      participants :=
        m.participants.modify (m.spotlightedParticipant.getD "")
          (fun p => { p with isSpotlighted := false })
      spotlightedParticipant := none
      manualSpotlight := false }
  else m

/-- Model of `Meeting.handleAudioActivity`; the Boolean is the return value. -/
def handleAudioActivity (m : Meeting) (socketId : String) (audioLevel : ℚ) : Meeting × Bool :=
  match m.participants.get socketId with
  | some _ =>
    let m1 : Meeting :=
      { m with
        participants :=
          m.participants.modify socketId (fun p => { p with audioLevel := audioLevel }) }
    if !m1.manualSpotlight && m1.autoSpotlightEnabled && decide (audioLevel > 3 / 10) then
      if m1.spotlightedParticipant ≠ some socketId then
        ({ m1.spotlightParticipant socketId with manualSpotlight := false }, true)
      else (m1, false)
    else (m1, false)
  | none => (m, false)

/-- Model of `Meeting.addScreenShare`. -/
def addScreenShare (m : Meeting) (socketId streamId : String) (now : Nat) : Meeting :=
  { m with
    screenShares := m.screenShares.set socketId { streamId := streamId, startedAt := now }
    participants := m.participants.modify socketId (fun p => { p with isScreenSharing := true }) }

/-- Model of `Meeting.removeScreenShare`. -/
def removeScreenShare (m : Meeting) (socketId : String) : Meeting :=
  { m with
    screenShares := m.screenShares.delete socketId
    participants := m.participants.modify socketId (fun p => { p with isScreenSharing := false }) }

/-- Model of `Meeting.raiseHand`. -/
def raiseHand (m : Meeting) (socketId : String) : Meeting :=
  { m with
    raisedHands := JSet.add m.raisedHands socketId
    participants := m.participants.modify socketId (fun p => { p with handRaised := true }) }

/-- Model of `Meeting.lowerHand`. -/
def lowerHand (m : Meeting) (socketId : String) : Meeting :=
  { m with
    raisedHands := JSet.delete m.raisedHands socketId
    participants := m.participants.modify socketId (fun p => { p with handRaised := false }) }

/-- Model of `Meeting.getRaisedHands`. -/
def getRaisedHands (m : Meeting) : List String := m.raisedHands

/-- Model of `Meeting.canPerformHostAction` (truthiness of the returned value). -/
def canPerformHostAction (m : Meeting) (socketId : String) : Bool :=
  match m.participants.get socketId with
  | some participant => participant.isHost || participant.isCoHost
  | none => false

/-- Model of `Meeting.canMakeCoHost` (truthiness of the returned value). -/
def canMakeCoHost (m : Meeting) (socketId : String) : Bool :=
  match m.participants.get socketId with
  | some participant => participant.isHost
  | none => false

/-- Model of `Meeting.lockMeeting`. -/
def lockMeeting (m : Meeting) : Meeting := { m with isLocked := true }

/-- Model of `Meeting.unlockMeeting`. -/
def unlockMeeting (m : Meeting) : Meeting := { m with isLocked := false }

/-- Model of `Meeting.updatePermissions`: object spread of the current
permissions and of the supplied object. -/
def updatePermissions (m : Meeting) (permissions : PermissionsPatch) : Meeting :=
  { m with
    permissions :=
      { chatEnabled := permissions.chatEnabled.getD m.permissions.chatEnabled
        fileSharing := permissions.fileSharing.getD m.permissions.fileSharing
        emojiReactions := permissions.emojiReactions.getD m.permissions.emojiReactions } }

/-- Model of `Meeting.getPermissions`. -/
def getPermissions (m : Meeting) : Permissions := m.permissions

/-- Model of `Meeting.isParticipantAllowed`. -/
def isParticipantAllowed (m : Meeting) (socketId : String) : Bool :=
  !m.isLocked || m.participants.has socketId

end Meeting

/-! ## Sequences of `Meeting` method calls -/

/-- A call of `addParticipant` or of `removeParticipant`. -/
inductive RosterOp where
  | add (socketId name : String) (isHost : Bool) (now : Nat)
  | remove (socketId : String)
  deriving DecidableEq, Repr

/-- Effect of one roster call on the meeting. -/
def RosterOp.apply (m : Meeting) : RosterOp → Meeting
  | .add socketId name isHost now => (m.addParticipant socketId name isHost now).1
  | .remove socketId => m.removeParticipant socketId

/-- Effect of a finite sequence of roster calls, first call first. -/
def runRoster (m : Meeting) (ops : List RosterOp) : Meeting :=
  ops.foldl RosterOp.apply m

/-- A call of `spotlightParticipant`, `removeSpotlight` or
`handleAudioActivity`. -/
inductive SpotlightOp where
  | spotlight (socketId : String)
  | removeSpotlight
  | audio (socketId : String) (audioLevel : ℚ)
  deriving DecidableEq, Repr

/-- Effect of one spotlight call on the meeting. -/
def SpotlightOp.apply (m : Meeting) : SpotlightOp → Meeting
  | .spotlight socketId => m.spotlightParticipant socketId
  | .removeSpotlight => m.removeSpotlight
  | .audio socketId audioLevel => (m.handleAudioActivity socketId audioLevel).1

/-- Effect of a finite sequence of spotlight calls, first call first. -/
def runSpotlight (m : Meeting) (ops : List SpotlightOp) : Meeting :=
  ops.foldl SpotlightOp.apply m

/-- Arguments of one `addParticipant` call. -/
structure AddCall where
  socketId : String
  name : String
  isHost : Bool
  now : Nat
  deriving DecidableEq, Repr

/-- Effect of a finite sequence of `addParticipant` calls, first call first. -/
def runAdds (m : Meeting) (calls : List AddCall) : Meeting :=
  calls.foldl (fun acc c => (acc.addParticipant c.socketId c.name c.isHost c.now).1) m

/-! ## Predicates on meeting states -/

/-- Cascade consistency: every id in `coHosts`, every key of `screenShares`,
every id in `raisedHands` and a non-null `spotlightedParticipant` is a key of
`participants`. -/
def CascadeInv (m : Meeting) : Prop :=
  (∀ c ∈ m.coHosts, m.participants.has c = true) ∧
  (∀ k ∈ m.screenShares.keys, m.participants.has k = true) ∧
  (∀ r ∈ m.raisedHands, m.participants.has r = true) ∧
  (∀ s ∈ m.spotlightedParticipant.toList, m.participants.has s = true)

instance (m : Meeting) : Decidable (CascadeInv m) := by
  unfold CascadeInv; infer_instance

/-- Number of participants whose `isSpotlighted` flag is true. -/
def spotlightedCount (m : Meeting) : Nat :=
  (m.participants.values.filter (fun p => p.isSpotlighted)).length

/-- Spotlight is single-valued: at most one participant is flagged, and a
flagged participant is stored under the id held in `spotlightedParticipant`. -/
def SingleSpotlight (m : Meeting) : Prop :=
  spotlightedCount m ≤ 1 ∧
  ∀ e ∈ m.participants, e.2.isSpotlighted = true → m.spotlightedParticipant = some e.1

instance (m : Meeting) : Decidable (SingleSpotlight m) := by
  unfold SingleSpotlight; infer_instance

/-- The `isSpotlighted` flag of every participant, in roster order. -/
def spotlightFlags (m : Meeting) : List (String × Bool) :=
  m.participants.map (fun e => (e.1, e.2.isSpotlighted))

/-- Invariant behind single-valued spotlighting: the roster has no duplicate
key, no key is the empty string, and every flagged participant is stored
under the id held in `spotlightedParticipant`. -/
def SpotInv (m : Meeting) : Prop :=
  m.participants.keys.Nodup ∧
  (∀ k ∈ m.participants.keys, k ≠ "") ∧
  (∀ e ∈ m.participants, e.2.isSpotlighted = true → m.spotlightedParticipant = some e.1)

/-- Roster after the first step of `spotlightParticipant` and of
`removeSpotlight`: the flag of the participant stored under a truthy
`spotlightedParticipant` is cleared. -/
def clearedRoster (m : Meeting) : JMap Participant :=
  if jsTruthy m.spotlightedParticipant then
    m.participants.modify (m.spotlightedParticipant.getD "")
      (fun p => { p with isSpotlighted := false })
  else m.participants

/-! ## Sample states -/

/-- Environment without TURN variables. -/
def noTurn : TurnEnv := ⟨none, none, none⟩

/-- A newly constructed meeting. -/
def freshMeeting : Meeting := Meeting.new "M" "h" "Host" 0 noTurn

/-- The meeting of host `h` after `a` and `b` joined. -/
def sampleMeeting : Meeting :=
  runAdds freshMeeting [⟨"h", "Host", true, 0⟩, ⟨"a", "Ann", false, 1⟩, ⟨"b", "Bob", false, 2⟩]

/-- A meeting in which `a` is co-host, shares a screen, has a raised hand and
holds the spotlight. -/
def busyMeeting : Meeting :=
  (((sampleMeeting.makeCoHost "a").addScreenShare "a" "s1" 3).raiseHand "a").spotlightParticipant "a"

/-- Roster after the first step of `handleAudioActivity` on a participant:
the reported level is stored. -/
def withAudioLevel (m : Meeting) (socketId : String) (audioLevel : ℚ) : Meeting :=
  { m with
    participants := m.participants.modify socketId (fun p => { p with audioLevel := audioLevel }) }

/-- Condition under which `handleAudioActivity` moves the spotlight. -/
def autoTrigger (m : Meeting) (socketId : String) (audioLevel : ℚ) : Prop :=
  m.participants.has socketId = true ∧ audioLevel > 3 / 10 ∧ m.autoSpotlightEnabled = true ∧
    m.manualSpotlight = false ∧ m.spotlightedParticipant ≠ some socketId

instance (m : Meeting) (socketId : String) (audioLevel : ℚ) :
    Decidable (autoTrigger m socketId audioLevel) := by
  unfold autoTrigger; infer_instance

/-- Record built by `addParticipant` before it is stored. -/
def newParticipant (socketId name : String) (isHost : Bool) (now : Nat) : Participant :=
  { socketId := socketId
    name := name
    isHost := isHost
    isCoHost := false
    isMuted := false
    isCameraOff := false
    isSpotlighted := false
    isScreenSharing := false
    audioLevel := 0
    joinedAt := now
    isReady := false
    handRaised := false
    connectionState := "new" }

/-- A meeting with the two guests `a` and `b`, nobody spotlighted. -/
def quietMeeting : Meeting :=
  runAdds freshMeeting [⟨"a", "Ann", false, 1⟩, ⟨"b", "Bob", false, 2⟩]

/-! ## Socket handlers

The module-level maps `meetings` and `participants` (the meeting directory
and the connection directory) and the set of connected sockets
(`io.sockets.sockets`) form the server state.  A handler returns the new
state and the notifications it emits, in emission order.  Room membership is
kept inside socket.io; a notification records the address it was emitted to.
A `Meeting` object is created by `join-as-host` only and stored under one
key, so mutating it in place is `JMap.modify` at that key. -/

/-- Entry of the connection directory. -/
structure ParticipantInfo where
  meetingId : String
  isHost : Bool
  deriving DecidableEq, Repr

/-- Destination of an emitted notification. -/
inductive Address where
  /-- Destination of `socket.emit`: the socket itself. -/
  | socket (id : String)
  /-- Destination of `io.to(name).emit`: every socket in the room. -/
  | room (name : String)
  /-- Destination of `socket.to(name).emit`: the room without the sender. -/
  | roomExcept (name sender : String)
  deriving DecidableEq, Repr

/-- Outbound events with their payloads. -/
inductive Event where
  | joinedMeeting (meetingId : String) (isHost : Bool) (participants : List Participant)
      (spotlightedParticipant : Option String)
      (screenShares : Option (List (String × ScreenShare))) (raisedHands : List String)
      (iceServers : List IceServer) (isLocked : Bool) (permissions : Permissions)
  | meetingError (message : String)
  | meetingLocked (message meetingId : String)
  | participantJoined (participant : Option Participant) (participants : List Participant)
  | actionError (message : String)
  | kickedFromMeeting
  | participantKicked (targetSocketId : String) (participants : List Participant)
  | meetingEnded
  | participantLeft (socketId : String) (participantName : Option String)
      (participants : List Participant)
  | screenShareStarted (participantId streamId : String) (participantName : Option String)
  | screenShareStopped (participantId : String)
  | meetingLockChanged (isLocked : Bool) (changedBy : Option String)
  | meetingPermissionsUpdated (permissions : Permissions) (changedBy : Option String)
  | initiateConnection (targetSocketId : String) (shouldCreateOffer : Bool)
      (iceServers : List IceServer)
  | peerConnectionState (fromSocketId state : String)
  | offer (offer sender : String)
  | answer (answer sender : String)
  | iceCandidate (candidate sender : String)
  | restartConnection (targetSocketId : String)
  | participantSpotlighted (spotlightedParticipant : Option String)
      (participants : List Participant) (reason : String)
  | spotlightRemoved (participants : List Participant)
  | reactionReceived (emoji participantName socketId : String) (timestamp : Nat)
  | handRaised (socketId participantName : String) (raisedHands : List String)
  | handLowered (socketId participantName : String) (raisedHands : List String)
  | participantPinned (pinnedParticipant : String)
  | forceMute (isMuted : Bool)
  | participantMuted (targetSocketId : String) (isMuted : Bool) (participants : List Participant)
  | madeCohost
  | cohostAssigned (targetSocketId : String) (participants : List Participant)
  | participantAudioChanged (socketId : String) (isMuted : Bool)
      (participants : List Participant)
  | participantVideoChanged (socketId : String) (isCameraOff : Bool)
      (participants : List Participant)
  deriving DecidableEq, Repr

/-- An emitted notification. -/
structure Notification where
  dest : Address
  event : Event
  deriving DecidableEq, Repr

/-- Server state. -/
structure ServerState where
  meetings : JMap Meeting
  participants : JMap ParticipantInfo
  sockets : List String
  deriving DecidableEq, Repr

/-- State of a freshly started server. -/
def ServerState.init : ServerState := { meetings := [], participants := [], sockets := [] }

/-- Model of `io.on('connection')`: the socket is registered. -/
def connect (st : ServerState) (sock : String) : ServerState :=
  { st with sockets := if st.sockets.contains sock then st.sockets else st.sockets ++ [sock] }

/-- Model of `socket.on('join-as-host')`. -/
def joinAsHost (st : ServerState) (sock meetingId hostName : String) (now : Nat)
    (env : TurnEnv) : ServerState × List Notification :=
  let meeting := Meeting.new meetingId sock hostName now env
  let st1 : ServerState := { st with meetings := st.meetings.set meetingId meeting }
  let meeting := (meeting.addParticipant sock hostName true now).1
  let st2 : ServerState := { st1 with meetings := st1.meetings.modify meetingId (fun _ => meeting) }
  let st3 : ServerState :=
    { st2 with participants := st2.participants.set sock { meetingId := meetingId, isHost := true } }
  (st3, [⟨.socket sock, .joinedMeeting meetingId true meeting.participants.values
      meeting.spotlightedParticipant none meeting.getRaisedHands meeting.iceServers
      meeting.isLocked meeting.getPermissions⟩])

/-- Model of `socket.on('join-meeting')`. -/
def joinMeeting (st : ServerState) (sock meetingId participantName : String) (now : Nat) :
    ServerState × List Notification :=
  match st.meetings.get meetingId with
  | none => (st, [⟨.socket sock, .meetingError "Meeting not found"⟩])
  | some meeting =>
    if meeting.isLocked && !meeting.participants.has sock then
      (st, [⟨.socket sock,
        .meetingLocked "The host disabled New Entries, Meeting Inaccessible" meetingId⟩])
    else
      let meeting := (meeting.addParticipant sock participantName false now).1
      let st1 : ServerState :=
        { st with meetings := st.meetings.modify meetingId (fun _ => meeting) }
      let st2 : ServerState :=
        { st1 with
          participants := st1.participants.set sock { meetingId := meetingId, isHost := false } }
      (st2, [
        ⟨.socket sock, .joinedMeeting meetingId false meeting.participants.values
          meeting.spotlightedParticipant (some meeting.screenShares) meeting.getRaisedHands
          meeting.iceServers meeting.isLocked meeting.getPermissions⟩,
        ⟨.roomExcept meetingId sock, .participantJoined (meeting.participants.get sock)
          meeting.participants.values⟩])

/-- Model of `socket.on('start-screen-share')`. -/
def startScreenShare (st : ServerState) (sock streamId : String) (now : Nat) :
    ServerState × List Notification :=
  match st.participants.get sock with
  | none => (st, [])
  | some participantInfo =>
    match st.meetings.get participantInfo.meetingId with
    | none => (st, [])
    | some meeting =>
      let meeting := meeting.addScreenShare sock streamId now
      let st1 : ServerState :=
        { st with meetings := st.meetings.modify participantInfo.meetingId (fun _ => meeting) }
      (st1, [⟨.roomExcept participantInfo.meetingId sock,
        .screenShareStarted sock streamId ((meeting.participants.get sock).map (·.name))⟩])

/-- Model of `socket.on('disconnect')`. -/
def onDisconnect (st : ServerState) (sock : String) : ServerState × List Notification :=
  match st.participants.get sock with
  | none => (st, [])
  | some participantInfo =>
    let r : ServerState × List Notification :=
      match st.meetings.get participantInfo.meetingId with
      | none => (st, [])
      | some meeting =>
        let participant := meeting.participants.get sock
        let meeting := meeting.removeParticipant sock
        let st1 : ServerState :=
          { st with meetings := st.meetings.modify participantInfo.meetingId (fun _ => meeting) }
        if participantInfo.isHost then
          ({ st1 with meetings := st1.meetings.delete participantInfo.meetingId },
            [⟨.roomExcept participantInfo.meetingId sock, .meetingEnded⟩])
        else
          (st1, [⟨.roomExcept participantInfo.meetingId sock,
            .participantLeft sock (participant.map (·.name)) meeting.participants.values⟩])
    ({ r.1 with participants := r.1.participants.delete sock }, r.2)

/-- A socket goes away: socket.io drops it from `io.sockets.sockets` and runs
its `disconnect` handler. -/
def socketDisconnect (st : ServerState) (sock : String) : ServerState × List Notification :=
  let r := onDisconnect { st with sockets := st.sockets.filter (fun s => s != sock) } sock
  r

/-- Model of `socket.on('kick-participant')`. -/
def kickParticipant (st : ServerState) (sock targetSocketId : String) :
    ServerState × List Notification :=
  match st.participants.get sock with
  | none => (st, [])
  | some participantInfo =>
    match st.meetings.get participantInfo.meetingId with
    | none => (st, [])
    | some meeting =>
      match meeting.participants.get sock, meeting.participants.get targetSocketId with
      | some requester, some target =>
        if !requester.isHost || target.isCoHost then
          (st, [⟨.socket sock, .actionError "Cannot kick this participant"⟩])
        else
          let meeting := meeting.removeParticipant targetSocketId
          let st1 : ServerState :=
            { st with
              meetings := st.meetings.modify participantInfo.meetingId (fun _ => meeting)
              participants := st.participants.delete targetSocketId }
          let out : List Notification := [
            ⟨.room targetSocketId, .kickedFromMeeting⟩,
            ⟨.roomExcept participantInfo.meetingId sock,
              .participantKicked targetSocketId meeting.participants.values⟩]
          if st1.sockets.contains targetSocketId then
            let r := socketDisconnect st1 targetSocketId
            (r.1, out ++ r.2)
          else (st1, out)
      | _, _ => (st, [])

/-- Model of `socket.on('toggle-meeting-lock')`. -/
def toggleMeetingLock (st : ServerState) (sock : String) (isLocked : Bool) :
    ServerState × List Notification :=
  match st.participants.get sock with
  | none => (st, [])
  | some participantInfo =>
    match st.meetings.get participantInfo.meetingId with
    | none => (st, [⟨.socket sock, .actionError "Only host can lock/unlock the meeting"⟩])
    | some meeting =>
      if !meeting.canPerformHostAction sock then
        (st, [⟨.socket sock, .actionError "Only host can lock/unlock the meeting"⟩])
      else
        let meeting := if isLocked then meeting.lockMeeting else meeting.unlockMeeting
        let st1 : ServerState :=
          { st with meetings := st.meetings.modify participantInfo.meetingId (fun _ => meeting) }
        (st1, [⟨.room participantInfo.meetingId,
          .meetingLockChanged meeting.isLocked ((meeting.participants.get sock).map (·.name))⟩])

/-- Model of `socket.on('update-meeting-permissions')`. -/
def updateMeetingPermissions (st : ServerState) (sock : String)
    (permissions : PermissionsPatch) : ServerState × List Notification :=
  match st.participants.get sock with
  | none => (st, [])
  | some participantInfo =>
    match st.meetings.get participantInfo.meetingId with
    | none => (st, [⟨.socket sock, .actionError "Only host can update meeting permissions"⟩])
    | some meeting =>
      if !meeting.canPerformHostAction sock then
        (st, [⟨.socket sock, .actionError "Only host can update meeting permissions"⟩])
      else
        let meeting := meeting.updatePermissions permissions
        let st1 : ServerState :=
          { st with meetings := st.meetings.modify participantInfo.meetingId (fun _ => meeting) }
        (st1, [⟨.room participantInfo.meetingId,
          .meetingPermissionsUpdated meeting.getPermissions
            ((meeting.participants.get sock).map (·.name))⟩])

/-- The two instructions emitted by `participant-ready` for one other ready
participant: to that participant (offer creator) and to the announcing
socket. -/
def initiatePair (sock : String) (iceServers : List IceServer) (participant : Participant) :
    List Notification :=
  [⟨.room participant.socketId, .initiateConnection sock true iceServers⟩,
   ⟨.socket sock, .initiateConnection participant.socketId false iceServers⟩]

/-- Model of `socket.on('participant-ready')`. -/
def participantReady (st : ServerState) (sock : String) : ServerState × List Notification :=
  match st.participants.get sock with
  | none => (st, [])
  | some participantInfo =>
    match st.meetings.get participantInfo.meetingId with
    | none => (st, [])
    | some meeting =>
      let meeting := meeting.setParticipantReady sock
      let st1 : ServerState :=
        { st with meetings := st.meetings.modify participantInfo.meetingId (fun _ => meeting) }
      let readyParticipants := meeting.getReadyParticipants
      (st1, (readyParticipants.filter (fun participant => participant.socketId != sock)).flatMap
        (initiatePair sock meeting.iceServers))

/-- Model of `socket.on('connection-state-change')`. -/
def connectionStateChange (st : ServerState) (sock targetSocketId state : String) :
    ServerState × List Notification :=
  match st.participants.get sock with
  | none => (st, [])
  | some participantInfo =>
    match st.meetings.get participantInfo.meetingId with
    | none => (st, [])
    | some meeting =>
      let meeting := meeting.updateParticipantConnectionState sock state
      let st1 : ServerState :=
        { st with meetings := st.meetings.modify participantInfo.meetingId (fun _ => meeting) }
      (st1, [⟨.room targetSocketId, .peerConnectionState sock state⟩])

/-- Model of `socket.on('offer')`. -/
def relayOffer (st : ServerState) (sock target offer : String) :
    ServerState × List Notification :=
  (st, [⟨.roomExcept target sock, .offer offer sock⟩])

/-- Model of `socket.on('answer')`. -/
def relayAnswer (st : ServerState) (sock target answer : String) :
    ServerState × List Notification :=
  (st, [⟨.roomExcept target sock, .answer answer sock⟩])

/-- Model of `socket.on('ice-candidate')`. -/
def relayIceCandidate (st : ServerState) (sock target candidate : String) :
    ServerState × List Notification :=
  (st, [⟨.roomExcept target sock, .iceCandidate candidate sock⟩])

/-- Model of `socket.on('connection-failed')`. -/
def connectionFailed (st : ServerState) (sock targetSocketId : String) :
    ServerState × List Notification :=
  (st, [⟨.socket sock, .restartConnection targetSocketId⟩,
    ⟨.roomExcept targetSocketId sock, .restartConnection sock⟩])

/-- Model of `socket.on('audio-level')`. -/
def onAudioLevel (st : ServerState) (sock : String) (level : ℚ) :
    ServerState × List Notification :=
  match st.participants.get sock with
  | none => (st, [])
  | some participantInfo =>
    match st.meetings.get participantInfo.meetingId with
    | none => (st, [])
    | some meeting =>
      let r := meeting.handleAudioActivity sock level
      let meeting := r.1
      let spotlightChanged := r.2
      let st1 : ServerState :=
        { st with meetings := st.meetings.modify participantInfo.meetingId (fun _ => meeting) }
      if spotlightChanged then
        (st1, [⟨.room participantInfo.meetingId,
          .participantSpotlighted meeting.spotlightedParticipant meeting.participants.values
            "audio-activity"⟩])
      else (st1, [])

/-- Model of `socket.on('send-reaction')`. -/
def sendReaction (st : ServerState) (sock emoji : String) (timestamp : Nat) :
    ServerState × List Notification :=
  match st.participants.get sock with
  | none => (st, [])
  | some participantInfo =>
    match st.meetings.get participantInfo.meetingId with
    | none => (st, [])
    | some meeting =>
      if !meeting.permissions.emojiReactions then
        (st, [⟨.socket sock, .actionError "Emoji reactions are disabled by the host"⟩])
      else
        match meeting.participants.get sock with
        | none => (st, [])
        | some participant =>
          (st, [⟨.room participantInfo.meetingId,
            .reactionReceived emoji participant.name sock timestamp⟩])

/-- Model of `socket.on('raise-hand')`. -/
def onRaiseHand (st : ServerState) (sock : String) : ServerState × List Notification :=
  match st.participants.get sock with
  | none => (st, [])
  | some participantInfo =>
    match st.meetings.get participantInfo.meetingId with
    | none => (st, [])
    | some meeting =>
      if !meeting.permissions.emojiReactions then
        (st, [⟨.socket sock, .actionError "Hand raising is disabled by the host"⟩])
      else
        match meeting.participants.get sock with
        | none => (st, [])
        | some participant =>
          let meeting := meeting.raiseHand sock
          let st1 : ServerState :=
            { st with
              meetings := st.meetings.modify participantInfo.meetingId (fun _ => meeting) }
          (st1, [⟨.room participantInfo.meetingId,
            .handRaised sock participant.name meeting.getRaisedHands⟩])

/-- Model of `socket.on('lower-hand')`. -/
def onLowerHand (st : ServerState) (sock : String) : ServerState × List Notification :=
  match st.participants.get sock with
  | none => (st, [])
  | some participantInfo =>
    match st.meetings.get participantInfo.meetingId with
    | none => (st, [])
    | some meeting =>
      match meeting.participants.get sock with
      | none => (st, [])
      | some participant =>
        let meeting := meeting.lowerHand sock
        let st1 : ServerState :=
          { st with meetings := st.meetings.modify participantInfo.meetingId (fun _ => meeting) }
        (st1, [⟨.room participantInfo.meetingId,
          .handLowered sock participant.name meeting.getRaisedHands⟩])

/-- Model of `socket.on('stop-screen-share')`. -/
def stopScreenShare (st : ServerState) (sock : String) : ServerState × List Notification :=
  match st.participants.get sock with
  | none => (st, [])
  | some participantInfo =>
    match st.meetings.get participantInfo.meetingId with
    | none => (st, [])
    | some meeting =>
      let meeting := meeting.removeScreenShare sock
      let st1 : ServerState :=
        { st with meetings := st.meetings.modify participantInfo.meetingId (fun _ => meeting) }
      (st1, [⟨.roomExcept participantInfo.meetingId sock, .screenShareStopped sock⟩])

/-- Model of `socket.on('spotlight-participant')`. -/
def onSpotlightParticipant (st : ServerState) (sock targetSocketId : String) :
    ServerState × List Notification :=
  match st.participants.get sock with
  | none => (st, [])
  | some participantInfo =>
    match st.meetings.get participantInfo.meetingId with
    | none => (st, [⟨.socket sock, .actionError "Insufficient permissions"⟩])
    | some meeting =>
      if !meeting.canPerformHostAction sock then
        (st, [⟨.socket sock, .actionError "Insufficient permissions"⟩])
      else
        let meeting := meeting.spotlightParticipant targetSocketId
        let st1 : ServerState :=
          { st with meetings := st.meetings.modify participantInfo.meetingId (fun _ => meeting) }
        (st1, [⟨.room participantInfo.meetingId,
          .participantSpotlighted (some targetSocketId) meeting.participants.values "manual"⟩])

/-- Model of `socket.on('remove-spotlight')`. -/
def onRemoveSpotlight (st : ServerState) (sock : String) : ServerState × List Notification :=
  match st.participants.get sock with
  | none => (st, [])
  | some participantInfo =>
    match st.meetings.get participantInfo.meetingId with
    | none => (st, [⟨.socket sock, .actionError "Insufficient permissions"⟩])
    | some meeting =>
      if !meeting.canPerformHostAction sock then
        (st, [⟨.socket sock, .actionError "Insufficient permissions"⟩])
      else
        let meeting := meeting.removeSpotlight
        let st1 : ServerState :=
          { st with meetings := st.meetings.modify participantInfo.meetingId (fun _ => meeting) }
        (st1, [⟨.room participantInfo.meetingId,
          .spotlightRemoved meeting.participants.values⟩])

/-- Model of `socket.on('pin-participant')`. -/
def pinParticipant (st : ServerState) (sock targetSocketId : String) :
    ServerState × List Notification :=
  match st.participants.get sock with
  | none => (st, [])
  | some _ => (st, [⟨.socket sock, .participantPinned targetSocketId⟩])

/-- Model of `socket.on('mute-participant')`. -/
def muteParticipant (st : ServerState) (sock targetSocketId : String) :
    ServerState × List Notification :=
  match st.participants.get sock with
  | none => (st, [])
  | some participantInfo =>
    match st.meetings.get participantInfo.meetingId with
    | none => (st, [⟨.socket sock, .actionError "Insufficient permissions"⟩])
    | some meeting =>
      if !meeting.canPerformHostAction sock then
        (st, [⟨.socket sock, .actionError "Insufficient permissions"⟩])
      else
        match meeting.participants.get targetSocketId with
        | none => (st, [])
        | some targetParticipant =>
          let meeting : Meeting :=
            { meeting with
              participants :=
                meeting.participants.modify targetSocketId
                  (fun p => { p with isMuted := !p.isMuted }) }
          let st1 : ServerState :=
            { st with
              meetings := st.meetings.modify participantInfo.meetingId (fun _ => meeting) }
          (st1, [
            ⟨.room targetSocketId, .forceMute (!targetParticipant.isMuted)⟩,
            ⟨.room participantInfo.meetingId,
              .participantMuted targetSocketId (!targetParticipant.isMuted)
                meeting.participants.values⟩])

/-- Model of `socket.on('make-cohost')`. -/
def makeCohost (st : ServerState) (sock targetSocketId : String) :
    ServerState × List Notification :=
  match st.participants.get sock with
  | none => (st, [])
  | some participantInfo =>
    match st.meetings.get participantInfo.meetingId with
    | none => (st, [⟨.socket sock, .actionError "Only host can make co-hosts"⟩])
    | some meeting =>
      if !meeting.canMakeCoHost sock then
        (st, [⟨.socket sock, .actionError "Only host can make co-hosts"⟩])
      else
        let meeting := meeting.makeCoHost targetSocketId
        let st1 : ServerState :=
          { st with meetings := st.meetings.modify participantInfo.meetingId (fun _ => meeting) }
        (st1, [
          ⟨.room targetSocketId, .madeCohost⟩,
          ⟨.room participantInfo.meetingId,
            .cohostAssigned targetSocketId meeting.participants.values⟩])

/-- Model of `socket.on('toggle-mic')`. -/
def toggleMic (st : ServerState) (sock : String) (isMuted : Bool) :
    ServerState × List Notification :=
  match st.participants.get sock with
  | none => (st, [])
  | some participantInfo =>
    match st.meetings.get participantInfo.meetingId with
    | none => (st, [])
    | some meeting =>
      match meeting.participants.get sock with
      | none => (st, [])
      | some _ =>
        let meeting : Meeting :=
          { meeting with
            participants :=
              meeting.participants.modify sock (fun p => { p with isMuted := isMuted }) }
        let st1 : ServerState :=
          { st with meetings := st.meetings.modify participantInfo.meetingId (fun _ => meeting) }
        (st1, [⟨.roomExcept participantInfo.meetingId sock,
          .participantAudioChanged sock isMuted meeting.participants.values⟩])

/-- Model of `socket.on('toggle-camera')`. -/
def toggleCamera (st : ServerState) (sock : String) (isCameraOff : Bool) :
    ServerState × List Notification :=
  match st.participants.get sock with
  | none => (st, [])
  | some participantInfo =>
    match st.meetings.get participantInfo.meetingId with
    | none => (st, [])
    | some meeting =>
      match meeting.participants.get sock with
      | none => (st, [])
      | some _ =>
        let meeting : Meeting :=
          { meeting with
            participants :=
              meeting.participants.modify sock (fun p => { p with isCameraOff := isCameraOff }) }
        let st1 : ServerState :=
          { st with meetings := st.meetings.modify participantInfo.meetingId (fun _ => meeting) }
        (st1, [⟨.roomExcept participantInfo.meetingId sock,
          .participantVideoChanged sock isCameraOff meeting.participants.values⟩])

/-! ## Inbound actions -/

/-- Inbound events of one socket, with their payloads. -/
inductive Action where
  | connect
  | joinAsHost (meetingId hostName : String) (now : Nat)
  | joinMeeting (meetingId participantName : String) (now : Nat)
  | toggleMeetingLock (isLocked : Bool)
  | updateMeetingPermissions (permissions : PermissionsPatch)
  | participantReady
  | connectionStateChange (targetSocketId state : String)
  | offer (target offer : String)
  | answer (target answer : String)
  | iceCandidate (target candidate : String)
  | connectionFailed (targetSocketId : String)
  | audioLevel (level : ℚ)
  | sendReaction (emoji : String) (timestamp : Nat)
  | raiseHand
  | lowerHand
  | startScreenShare (streamId : String) (now : Nat)
  | stopScreenShare
  | spotlightParticipant (targetSocketId : String)
  | removeSpotlight
  | pinParticipant (targetSocketId : String)
  | muteParticipant (targetSocketId : String)
  | makeCohost (targetSocketId : String)
  | kickParticipant (targetSocketId : String)
  | toggleMic (isMuted : Bool)
  | toggleCamera (isCameraOff : Bool)
  | disconnect
  deriving DecidableEq, Repr

/-- Dispatch of one inbound event of socket `sock` to its handler. -/
def handle (env : TurnEnv) (st : ServerState) (sock : String) :
    Action → ServerState × List Notification
  | .connect => (connect st sock, [])
  | .joinAsHost meetingId hostName now => joinAsHost st sock meetingId hostName now env
  | .joinMeeting meetingId participantName now => joinMeeting st sock meetingId participantName now
  | .toggleMeetingLock isLocked => toggleMeetingLock st sock isLocked
  | .updateMeetingPermissions permissions => updateMeetingPermissions st sock permissions
  | .participantReady => participantReady st sock
  | .connectionStateChange targetSocketId state =>
    connectionStateChange st sock targetSocketId state
  | .offer target offer => relayOffer st sock target offer
  | .answer target answer => relayAnswer st sock target answer
  | .iceCandidate target candidate => relayIceCandidate st sock target candidate
  | .connectionFailed targetSocketId => connectionFailed st sock targetSocketId
  | .audioLevel level => onAudioLevel st sock level
  | .sendReaction emoji timestamp => sendReaction st sock emoji timestamp
  | .raiseHand => onRaiseHand st sock
  | .lowerHand => onLowerHand st sock
  | .startScreenShare streamId now => startScreenShare st sock streamId now
  | .stopScreenShare => stopScreenShare st sock
  | .spotlightParticipant targetSocketId => onSpotlightParticipant st sock targetSocketId
  | .removeSpotlight => onRemoveSpotlight st sock
  | .pinParticipant targetSocketId => pinParticipant st sock targetSocketId
  | .muteParticipant targetSocketId => muteParticipant st sock targetSocketId
  | .makeCohost targetSocketId => makeCohost st sock targetSocketId
  | .kickParticipant targetSocketId => kickParticipant st sock targetSocketId
  | .toggleMic isMuted => toggleMic st sock isMuted
  | .toggleCamera isCameraOff => toggleCamera st sock isCameraOff
  | .disconnect => socketDisconnect st sock

/-- Handling a finite sequence of inbound events, first event first; the
notifications are collected in emission order. -/
def run (env : TurnEnv) (st : ServerState) : List (String × Action) →
    ServerState × List Notification
  | [] => (st, [])
  | (sock, a) :: rest =>
    let r := handle env st sock a
    let r' := run env r.1 rest
    (r'.1, r.2 ++ r'.2)

/-- States reachable from the freshly started server by handling inbound
events. -/
def Reachable (env : TurnEnv) (st : ServerState) : Prop :=
  ∃ events : List (String × Action), (run env ServerState.init events).1 = st

/-- Actions guarded by `!meeting || !meeting.canPerformHostAction(...)` or
`!meeting || !meeting.canMakeCoHost(...)`. -/
def Action.hostGated : Action → Bool
  | .toggleMeetingLock _ => true
  | .updateMeetingPermissions _ => true
  | .spotlightParticipant _ => true
  | .removeSpotlight => true
  | .muteParticipant _ => true
  | .makeCohost _ => true
  | _ => false

/-- Meeting-scoped actions guarded by `if (!meeting) return`. -/
def Action.memberScoped : Action → Bool
  | .participantReady => true
  | .connectionStateChange _ _ => true
  | .audioLevel _ => true
  | .sendReaction _ _ => true
  | .raiseHand => true
  | .lowerHand => true
  | .startScreenShare _ _ => true
  | .stopScreenShare => true
  | .kickParticipant _ => true
  | .toggleMic _ => true
  | .toggleCamera _ => true
  | _ => false

/-- Actions whose handler writes the connection directory. -/
def Action.writesDirectory : Action → Bool
  | .joinAsHost _ _ _ => true
  | .joinMeeting _ _ _ => true
  | .kickParticipant _ => true
  | .disconnect => true
  | _ => false

/-- Host `h` creates `M`, guest `a` joins, the host disconnects. -/
def endedEvents : List (String × Action) :=
  [("h", .connect), ("a", .connect), ("h", .joinAsHost "M" "Host" 0),
    ("a", .joinMeeting "M" "Ann" 1), ("h", .disconnect)]

/-- Server state after `endedEvents`. -/
def endedServer : ServerState := (run noTurn ServerState.init endedEvents).1

/-- Server on which `h` hosts meeting `M` and only `a` has joined. -/
def duoServer : ServerState :=
  (run noTurn ServerState.init
    [("h", .connect), ("a", .connect), ("h", .joinAsHost "M" "Host" 0),
      ("a", .joinMeeting "M" "Ann" 1)]).1

/-- The meeting `M` of `duoServer`. -/
def duoMeeting : Meeting :=
  runAdds freshMeeting [⟨"h", "Host", true, 0⟩, ⟨"a", "Ann", false, 1⟩]

/-! ## Readiness pairing -/

/-- The inbound events in which the sockets of `order` announce
participant-ready one after the other. -/
def readyAnnouncements (order : List String) : List (String × Action) :=
  order.map (fun c => (c, Action.participantReady))

/-- Name of the socket or room a notification is addressed to. -/
def Address.name : Address → String
  | .socket id => id
  | .room name => name
  | .roomExcept name _ => name

/-- An initiate-connection instruction sent to one of `x`, `y` and targeting
the other. -/
def isPairInstruction (x y : String) (n : Notification) : Bool :=
  match n.event with
  | .initiateConnection target _ _ =>
    (n.dest.name == x && target == y) || (n.dest.name == y && target == x)
  | _ => false

/-- An initiate-connection instruction with shouldCreateOffer true. -/
def isOffer (n : Notification) : Bool :=
  match n.event with
  | .initiateConnection _ shouldCreateOffer _ => shouldCreateOffer
  | _ => false

/-- Record after `setParticipantReady`. -/
def Participant.markReady (p : Participant) : Participant :=
  { p with isReady := true, connectionState := "ready" }

/-- Roster in which the participants stored under the ids of `S` have been
marked ready. -/
def markReady (S : List String) (l : JMap Participant) : JMap Participant :=
  l.map (fun e => if e.1 ∈ S then (e.1, e.2.markReady) else e)

/-- The two instructions for the pair of the announcing socket `sock` and the
already ready participant `other`. -/
def initiateFor (sock : String) (iceServers : List IceServer) (other : String) :
    List Notification :=
  [⟨.room other, .initiateConnection sock true iceServers⟩,
   ⟨.socket sock, .initiateConnection other false iceServers⟩]

/-- Instructions emitted when `y` announces readiness while the ids of `S`
are ready, the roster keys being `roster`. -/
def emitFor (roster : List String) (iceServers : List IceServer) (S : List String)
    (y : String) : List Notification :=
  (roster.filter (fun k => decide (k ∈ S) && k != y)).flatMap (initiateFor y iceServers)

/-- Instructions emitted when the sockets of the last argument announce
readiness in turn, the ids of `S` being ready at the start. -/
def readyOut (roster : List String) (iceServers : List IceServer) :
    List String → List String → List Notification
  | _, [] => []
  | S, y :: rest => emitFor roster iceServers S y ++ readyOut roster iceServers (y :: S) rest

/-- The sample server after the host disabled emoji reactions. -/
def reactionsOffEvents : List (String × Action) :=
  [("h", .connect), ("a", .connect), ("h", .joinAsHost "M" "Host" 0),
    ("a", .joinMeeting "M" "Ann" 1),
    ("h", .updateMeetingPermissions ⟨none, none, some false⟩)]

/-- Server state after `reactionsOffEvents`. -/
def reactionsOffServer : ServerState := (run noTurn ServerState.init reactionsOffEvents).1

/-- Server on which `h` hosts meeting `M` and `a`, `b` have joined. -/
def sampleServer : ServerState :=
  (joinMeeting
    (joinMeeting
      (joinAsHost (connect (connect (connect ServerState.init "h") "a") "b")
        "h" "M" "Host" 0 noTurn).1
      "a" "M" "Ann" 1).1
    "b" "M" "Bob" 2).1

/-- The sample server after the host locked the meeting. -/
def lockedServer : ServerState :=
  { sampleServer with meetings := sampleServer.meetings.modify "M" Meeting.lockMeeting }

/-! ## Meeting operations and handler effects -/

/-- A call of one state-changing method of `Meeting`. -/
inductive MeetingOp where
  | addParticipant (socketId name : String) (isHost : Bool) (now : Nat)
  | removeParticipant (socketId : String)
  | setParticipantReady (socketId : String)
  | updateParticipantConnectionState (socketId state : String)
  | makeCoHost (socketId : String)
  | removeCoHost (socketId : String)
  | spotlightParticipant (socketId : String)
  | removeSpotlight
  | handleAudioActivity (socketId : String) (audioLevel : ℚ)
  | addScreenShare (socketId streamId : String) (now : Nat)
  | removeScreenShare (socketId : String)
  | raiseHand (socketId : String)
  | lowerHand (socketId : String)
  | lockMeeting
  | unlockMeeting
  | updatePermissions (permissions : PermissionsPatch)
  deriving DecidableEq, Repr

/-- Effect of one method call on the meeting. -/
def MeetingOp.apply (m : Meeting) : MeetingOp → Meeting
  | .addParticipant socketId name isHost now => (m.addParticipant socketId name isHost now).1
  | .removeParticipant socketId => m.removeParticipant socketId
  | .setParticipantReady socketId => m.setParticipantReady socketId
  | .updateParticipantConnectionState socketId state =>
    m.updateParticipantConnectionState socketId state
  | .makeCoHost socketId => m.makeCoHost socketId
  | .removeCoHost socketId => m.removeCoHost socketId
  | .spotlightParticipant socketId => m.spotlightParticipant socketId
  | .removeSpotlight => m.removeSpotlight
  | .handleAudioActivity socketId audioLevel => (m.handleAudioActivity socketId audioLevel).1
  | .addScreenShare socketId streamId now => m.addScreenShare socketId streamId now
  | .removeScreenShare socketId => m.removeScreenShare socketId
  | .raiseHand socketId => m.raiseHand socketId
  | .lowerHand socketId => m.lowerHand socketId
  | .lockMeeting => m.lockMeeting
  | .unlockMeeting => m.unlockMeeting
  | .updatePermissions permissions => m.updatePermissions permissions

/-- Effect of a finite sequence of method calls, first call first. -/
def runOps (m : Meeting) (ops : List MeetingOp) : Meeting :=
  ops.foldl MeetingOp.apply m

/-- What a handler does to the meeting it found: a method call, or one of
the assignments to a participant field made in the handler itself
(`mute-participant`, `toggle-mic`, `toggle-camera`). -/
inductive Effect where
  | method (op : MeetingOp)
  | toggleMuted (socketId : String)
  | setMuted (socketId : String) (isMuted : Bool)
  | setCameraOff (socketId : String) (isCameraOff : Bool)
  deriving DecidableEq, Repr

/-- Meeting after a handler effect. -/
def Effect.apply (m : Meeting) : Effect → Meeting
  | .method op => op.apply m
  | .toggleMuted socketId =>
    { m with
      participants := m.participants.modify socketId (fun p => { p with isMuted := !p.isMuted }) }
  | .setMuted socketId isMuted =>
    { m with
      participants := m.participants.modify socketId (fun p => { p with isMuted := isMuted }) }
  | .setCameraOff socketId isCameraOff =>
    { m with
      participants :=
        m.participants.modify socketId (fun p => { p with isCameraOff := isCameraOff }) }

/-- Actions that join a meeting. -/
def Action.isJoin : Action → Bool
  | .joinAsHost _ _ _ => true
  | .joinMeeting _ _ _ => true
  | _ => false

/-- The effects a handler run by socket `sock` for action `a` can have on an
existing meeting: `addParticipant` is called on an existing meeting by
`join-meeting` only, for the socket itself and with isHost false. -/
def Effect.allowedFor (sock : String) (a : Action) : Effect → Prop
  | .method (.addParticipant socketId _ isHost _) =>
    socketId = sock ∧ isHost = false ∧ a.isJoin = true
  | _ => True

/-- Meeting registered under `k` after a handler, in terms of the state
before: unchanged, the result of an allowed effect on the meeting registered
before, or the meeting created by `join-as-host`. -/
def MeetingsStep (env : TurnEnv) (st : ServerState) (sock : String) (a : Action)
    (k : String) (m' : Meeting) : Prop :=
  st.meetings.get k = some m' ∨
  (∃ m eff, st.meetings.get k = some m ∧ m' = Effect.apply m eff ∧ eff.allowedFor sock a) ∨
  (∃ hostName now, a = .joinAsHost k hostName now ∧
    m' = ((Meeting.new k sock hostName now env).addParticipant sock hostName true now).1)

/-- The fields of a participant record that no operation reassigns are the
same in `p'` as in `p`, and `p'` is a co-host only if `p` was one or `p` is
not a host. -/
def Kept (p p' : Participant) : Prop :=
  p'.socketId = p.socketId ∧ p'.name = p.name ∧ p'.isHost = p.isHost ∧
    (p'.isCoHost = true → p.isCoHost = true ∨ p.isHost = false)

/-- Every record of roster `l'` continues a record of `l` stored under the
same key. -/
def RosterKept (l l' : JMap Participant) : Prop :=
  ∀ c p', l'.get c = some p' → ∃ p, l.get c = some p ∧ Kept p p'

/-- Roster keys are unique and every participant flagged isHost is stored
under the meeting's hostId. -/
def HostInv (m : Meeting) : Prop :=
  m.participants.keys.Nodup ∧
  ∀ c p, m.participants.get c = some p → p.isHost = true → c = m.hostId

/-- Roster keys are unique and no participant is both host and co-host. -/
def RoleInv (m : Meeting) : Prop :=
  m.participants.keys.Nodup ∧
  ∀ c p, m.participants.get c = some p → ¬ (p.isHost = true ∧ p.isCoHost = true)

/-! ## Client grid pagination (`src/meetingJoin.js`) -/

/-- The module-level pagination variables of the client. -/
structure GridState where
  currentGridPage : Int
  totalGridPages : Int
  deriving DecidableEq, Repr

/-- The constant `participantsPerPage`. -/
def participantsPerPage : Int := 25

/-- Model of `Math.ceil(totalParticipants / participantsPerPage)` for a
participant count. -/
def ceilPages (totalParticipants : Nat) : Int :=
  ((totalParticipants : Int) + (participantsPerPage - 1)) / participantsPerPage

/-- Model of the pagination update in `renderVideoGrid`;
`sectionPresent` is the truthiness of `secondaryVideosSection`. -/
def renderVideoGrid (s : GridState) (sectionPresent : Bool) (totalParticipants : Nat) :
    GridState :=
  if !sectionPresent then s
  else
    let totalGridPages := ceilPages totalParticipants
    { totalGridPages := totalGridPages
      currentGridPage := min s.currentGridPage (totalGridPages - 1) }

/-- Model of the pagination part of `toggleView`. -/
def toggleView (s : GridState) (sectionPresent : Bool) (totalParticipants : Nat) : GridState :=
  renderVideoGrid { s with currentGridPage := 0 } sectionPresent totalParticipants

/-- Bounds of the slice taken by `renderGridView`. -/
def startIndex (s : GridState) : Int := s.currentGridPage * participantsPerPage

/-- End bound of the slice taken by `renderGridView`. -/
def endIndex (s : GridState) (totalParticipants : Nat) : Int :=
  min (startIndex s + participantsPerPage) totalParticipants

/-- Pagination variables at page load. -/
def GridState.init : GridState := { currentGridPage := 0, totalGridPages := 1 }

/-- The sample server after the host made `a` a co-host. -/
def coHostServer : ServerState := (handle noTurn sampleServer "h" (.makeCohost "a")).1

/-- Host `h` creates `M`, guest `a` joins as Ann. -/
def duoEvents : List (String × Action) :=
  [("h", .connect), ("a", .connect), ("h", .joinAsHost "M" "Host" 0),
    ("a", .joinMeeting "M" "Ann" 1)]

/-! ## Facts about the containers -/

namespace JMap

variable {α : Type}

theorem get_cons (e : String × α) (t : JMap α) (k : String) :
    get (e :: t) k = if e.1 = k then some e.2 else get t k := by
  by_cases h : e.1 = k <;> simp [get, List.find?_cons, h]

theorem has_cons (e : String × α) (t : JMap α) (k : String) :
    has (e :: t) k = (decide (e.1 = k) || has t k) := by
  by_cases h : e.1 = k <;> simp [has, List.any_cons, h]

theorem modify_cons (e : String × α) (t : JMap α) (k : String) (f : α → α) :
    modify (e :: t) k f = (if e.1 = k then (e.1, f e.2) else e) :: modify t k f := by
  simp [modify]

theorem delete_cons (e : String × α) (t : JMap α) (k : String) :
    delete (e :: t) k = if e.1 = k then delete t k else e :: delete t k := by
  by_cases h : e.1 = k <;> simp [delete, List.filter_cons, h]

theorem has_eq_true_iff (m : JMap α) (k : String) :
    m.has k = true ↔ ∃ e ∈ m, e.1 = k := by
  simp [has, List.any_eq_true]

theorem has_eq_false_iff (m : JMap α) (k : String) :
    m.has k = false ↔ ∀ e ∈ m, e.1 ≠ k := by
  simp [has, List.any_eq_false]

theorem has_eq_isSome_get (m : JMap α) (k : String) : m.has k = (m.get k).isSome := by
  induction m with
  | nil => rfl
  | cons e t ih =>
    rw [has_cons, get_cons, ih]
    by_cases h : e.1 = k <;> simp [h]

theorem get_eq_none_iff (m : JMap α) (k : String) : m.get k = none ↔ m.has k = false := by
  rw [has_eq_isSome_get]; cases m.get k <;> simp

theorem has_of_get (m : JMap α) (k : String) (v : α) (h : m.get k = some v) :
    m.has k = true := by
  rw [has_eq_isSome_get, h]; rfl

theorem mem_of_get (m : JMap α) (k : String) (v : α) (h : m.get k = some v) :
    (k, v) ∈ m := by
  induction m with
  | nil => simp [get] at h
  | cons e t ih =>
    rw [get_cons] at h
    by_cases hk : e.1 = k
    · simp only [hk, if_true, Option.some.injEq] at h
      have : e = (k, v) := Prod.ext hk h
      simp [this]
    · simp only [hk, if_false] at h
      exact List.mem_cons_of_mem _ (ih h)

theorem keys_modify (m : JMap α) (k : String) (f : α → α) :
    JMap.keys (m.modify k f) = m.keys := by
  induction m with
  | nil => rfl
  | cons e t ih =>
    rw [modify_cons]
    simp only [keys, List.map_cons] at ih ⊢
    rw [ih]; congr 1; split <;> rfl

theorem has_eq_keys (m : JMap α) (k : String) : m.has k = decide (k ∈ m.keys) := by
  induction m with
  | nil => simp [has, keys]
  | cons e t ih =>
    rw [has_cons, ih]
    by_cases h : e.1 = k
    · simp [keys, h]
    · simp [keys, h, Ne.symm h]

theorem has_modify (m : JMap α) (k k' : String) (f : α → α) :
    JMap.has (m.modify k f) k' = m.has k' := by
  rw [has_eq_keys, has_eq_keys, keys_modify]

theorem get_modify (m : JMap α) (k k' : String) (f : α → α) :
    JMap.get (m.modify k f) k' = if k' = k then (m.get k').map f else m.get k' := by
  induction m with
  | nil => simp [modify, get]
  | cons e t ih =>
    rw [modify_cons, get_cons, get_cons, ih]
    by_cases h1 : e.1 = k <;> by_cases h2 : e.1 = k' <;> by_cases h3 : k' = k <;>
      simp_all

theorem get_modify_self (m : JMap α) (k : String) (f : α → α) :
    JMap.get (m.modify k f) k = (m.get k).map f := by
  rw [get_modify]; simp

theorem get_modify_ne (m : JMap α) (k k' : String) (f : α → α) (h : k' ≠ k) :
    JMap.get (m.modify k f) k' = m.get k' := by
  rw [get_modify]; simp [h]

theorem set_of_has (m : JMap α) (k : String) (v : α) (h : m.has k = true) :
    m.set k v = m.modify k (fun _ => v) := by
  unfold set modify
  rw [if_pos h]
  apply List.map_congr_left
  intro e _
  by_cases he : e.1 = k <;> simp [he]

theorem set_of_not_has (m : JMap α) (k : String) (v : α) (h : m.has k = false) :
    m.set k v = m ++ [(k, v)] := by
  unfold set
  rw [if_neg (by simp [h])]

theorem keys_set (m : JMap α) (k : String) (v : α) :
    JMap.keys (m.set k v) = if m.has k then m.keys else m.keys ++ [k] := by
  by_cases h : m.has k = true
  · rw [set_of_has m k v h, keys_modify]; simp [h]
  · have h' : m.has k = false := by simpa using h
    rw [set_of_not_has m k v h']; simp [h', keys]

theorem has_set (m : JMap α) (k k' : String) (v : α) :
    JMap.has (m.set k v) k' = (decide (k' = k) || m.has k') := by
  rw [has_eq_keys, keys_set]
  by_cases h : m.has k = true
  · rw [if_pos h, ← has_eq_keys]
    by_cases hk : k' = k
    · subst hk; simp [h]
    · simp [hk]
  · rw [if_neg h, has_eq_keys m k']
    by_cases hk : k' = k <;> simp [hk]

theorem get_append_single (m : JMap α) (k k' : String) (v : α) :
    JMap.get (m ++ [(k, v)]) k' =
      if m.has k' then m.get k' else if k = k' then some v else none := by
  induction m with
  | nil => simp [get, has, List.find?_cons]; split <;> simp_all
  | cons e t ih =>
    rw [List.cons_append, get_cons, has_cons, get_cons, ih]
    by_cases h : e.1 = k' <;> simp [h]

theorem get_set_self (m : JMap α) (k : String) (v : α) :
    JMap.get (m.set k v) k = some v := by
  by_cases h : m.has k = true
  · rw [set_of_has m k v h, get_modify_self]
    rw [has_eq_isSome_get] at h
    cases hg : m.get k with
    | none => rw [hg] at h; simp at h
    | some x => rfl
  · have h' : m.has k = false := by simpa using h
    rw [set_of_not_has m k v h', get_append_single]
    simp [h']

theorem get_set_ne (m : JMap α) (k k' : String) (v : α) (h : k' ≠ k) :
    JMap.get (m.set k v) k' = m.get k' := by
  by_cases hk : m.has k = true
  · rw [set_of_has m k v hk, get_modify_ne _ _ _ _ h]
  · have h' : m.has k = false := by simpa using hk
    rw [set_of_not_has m k v h', get_append_single]
    by_cases h2 : m.has k' = true
    · simp [h2]
    · have h2' : m.has k' = false := by simpa using h2
      have : m.get k' = none := (get_eq_none_iff m k').2 h2'
      simp [h2', this, Ne.symm h]

theorem keys_delete (m : JMap α) (k : String) :
    JMap.keys (m.delete k) = m.keys.filter (fun x => x != k) := by
  induction m with
  | nil => rfl
  | cons e t ih =>
    rw [delete_cons]
    simp only [keys, List.map_cons] at ih ⊢
    by_cases h : e.1 = k
    · simp [h, ih, List.filter_cons]
    · simp [h, ih, List.filter_cons]

theorem has_delete (m : JMap α) (k k' : String) :
    JMap.has (m.delete k) k' = (!decide (k' = k) && m.has k') := by
  rw [has_eq_keys, keys_delete, has_eq_keys]
  by_cases h : k' = k <;> simp [h]

theorem get_delete (m : JMap α) (k k' : String) :
    JMap.get (m.delete k) k' = if k' = k then none else m.get k' := by
  induction m with
  | nil => simp [delete, get]
  | cons e t ih =>
    rw [delete_cons, get_cons]
    by_cases h1 : e.1 = k
    · rw [if_pos h1, ih]
      by_cases h3 : k' = k
      · simp [h3]
      · have : e.1 ≠ k' := fun h => h3 (h ▸ h1)
        simp [h3, this]
    · rw [if_neg h1, get_cons, ih]
      by_cases h2 : e.1 = k'
      · have : k' ≠ k := fun h => h1 (h2.trans h)
        simp [h2, this]
      · simp [h2]

end JMap

namespace JSet

theorem mem_add (s : JSet) (k x : String) : x ∈ add s k ↔ x = k ∨ x ∈ s := by
  unfold add
  split
  · next h =>
    have : k ∈ s := by simpa using h
    constructor
    · exact Or.inr
    · rintro (rfl | h) <;> assumption
  · simp [or_comm]

theorem mem_delete (s : JSet) (k x : String) : x ∈ delete s k ↔ x ≠ k ∧ x ∈ s := by
  simp [delete, and_comm]

end JSet

/-! ## Facts about the `Meeting` methods -/

namespace Meeting

theorem spotlightParticipant_has (m : Meeting) (s k : String) :
    (m.spotlightParticipant s).participants.has k = m.participants.has k := by
  unfold spotlightParticipant
  by_cases h : jsTruthy m.spotlightedParticipant = true <;>
    simp only [h, if_true, if_false] <;> split <;> simp [JMap.has_modify]

theorem spotlightParticipant_keys (m : Meeting) (s : String) :
    JMap.keys (m.spotlightParticipant s).participants = m.participants.keys := by
  unfold spotlightParticipant
  by_cases h : jsTruthy m.spotlightedParticipant = true <;>
    simp only [h, if_true, if_false] <;> split <;> simp [JMap.keys_modify]

theorem spotlightParticipant_frame (m : Meeting) (s : String) :
    (m.spotlightParticipant s).coHosts = m.coHosts ∧
    (m.spotlightParticipant s).screenShares = m.screenShares ∧
    (m.spotlightParticipant s).raisedHands = m.raisedHands ∧
    (m.spotlightParticipant s).isLocked = m.isLocked ∧
    (m.spotlightParticipant s).permissions = m.permissions ∧
    (m.spotlightParticipant s).autoSpotlightEnabled = m.autoSpotlightEnabled := by
  unfold spotlightParticipant
  by_cases h : jsTruthy m.spotlightedParticipant = true <;>
    simp only [h, if_true, if_false] <;> split <;> simp

theorem spotlightParticipant_spotlighted (m : Meeting) (s : String) :
    (m.spotlightParticipant s).spotlightedParticipant =
      if m.participants.has s then some s else m.spotlightedParticipant := by
  unfold spotlightParticipant
  by_cases h : jsTruthy m.spotlightedParticipant = true <;>
    simp only [h, if_true, if_false] <;> split <;>
    simp_all [JMap.has_eq_isSome_get, JMap.get_modify] <;> split_ifs at * <;> simp_all

theorem cascadeInv_spotlightParticipant (m : Meeting) (s : String) (h : CascadeInv m) :
    CascadeInv (m.spotlightParticipant s) := by
  obtain ⟨h1, h2, h3, h4⟩ := h
  obtain ⟨e1, e2, e3, -⟩ := spotlightParticipant_frame m s
  refine ⟨?_, ?_, ?_, ?_⟩
  · intro c hc; rw [spotlightParticipant_has]; exact h1 c (e1 ▸ hc)
  · intro c hc; rw [spotlightParticipant_has]; exact h2 c (e2 ▸ hc)
  · intro c hc; rw [spotlightParticipant_has]; exact h3 c (e3 ▸ hc)
  · intro c hc
    rw [spotlightParticipant_has]
    rw [spotlightParticipant_spotlighted] at hc
    by_cases hs : m.participants.has s = true
    · simp only [hs, if_true, Option.toList, List.mem_singleton] at hc
      rw [hc]; exact hs
    · simp only [hs] at hc
      exact h4 c hc

theorem cascadeInv_new (id hostId hostName : String) (now : Nat) (env : TurnEnv) :
    CascadeInv (Meeting.new id hostId hostName now env) := by
  simp [CascadeInv, Meeting.new, JMap.keys]

theorem cascadeInv_addParticipant (m : Meeting) (socketId name : String) (isHost : Bool)
    (now : Nat) (h : CascadeInv m) :
    CascadeInv (m.addParticipant socketId name isHost now).1 := by
  have key : ∀ p : Participant,
      CascadeInv { m with participants := m.participants.set socketId p } := by
    intro p
    obtain ⟨h1, h2, h3, h4⟩ := h
    refine ⟨?_, ?_, ?_, ?_⟩ <;> intro c hc <;> simp only [JMap.has_set, Bool.or_eq_true]
    · exact Or.inr (h1 c hc)
    · exact Or.inr (h2 c hc)
    · exact Or.inr (h3 c hc)
    · exact Or.inr (h4 c hc)
  unfold addParticipant
  simp only
  split
  · exact cascadeInv_spotlightParticipant _ _ (key _)
  · exact key _

theorem cascadeInv_removeParticipant (m : Meeting) (socketId : String) (h : CascadeInv m) :
    CascadeInv (m.removeParticipant socketId) := by
  obtain ⟨h1, h2, h3, h4⟩ := h
  unfold removeParticipant
  simp only
  split
  · refine ⟨?_, ?_, ?_, ?_⟩
    · intro c hc
      have := (JSet.mem_delete _ _ _).1 hc
      simp [JMap.has_delete, this.1, h1 c this.2]
    · intro c hc
      simp only [JMap.keys_delete, List.mem_filter, bne_iff_ne, ne_eq] at hc
      simp [JMap.has_delete, hc.2, h2 c hc.1]
    · intro c hc
      have := (JSet.mem_delete _ _ _).1 hc
      simp [JMap.has_delete, this.1, h3 c this.2]
    · intro c hc; simp at hc
  · next hne =>
    refine ⟨?_, ?_, ?_, ?_⟩
    · intro c hc
      have := (JSet.mem_delete _ _ _).1 hc
      simp [JMap.has_delete, this.1, h1 c this.2]
    · intro c hc
      simp only [JMap.keys_delete, List.mem_filter, bne_iff_ne, ne_eq] at hc
      simp [JMap.has_delete, hc.2, h2 c hc.1]
    · intro c hc
      have := (JSet.mem_delete _ _ _).1 hc
      simp [JMap.has_delete, this.1, h3 c this.2]
    · intro c hc
      have hc' : m.spotlightedParticipant = some c := by
        simpa [Option.mem_toList] using hc
      have hcs : c ≠ socketId := by
        intro e; apply hne; simp [hc', e]
      simp [JMap.has_delete, hcs, h4 c (by simp [hc'])]

end Meeting

theorem cascadeInv_runRoster (ops : List RosterOp) :
    ∀ m : Meeting, CascadeInv m → CascadeInv (runRoster m ops) := by
  induction ops with
  | nil => intro m h; exact h
  | cons op t ih =>
    intro m h
    simp only [runRoster, List.foldl_cons]
    apply ih
    cases op with
    | add socketId name isHost now => exact Meeting.cascadeInv_addParticipant m _ _ _ _ h
    | remove socketId => exact Meeting.cascadeInv_removeParticipant m _ h

/-! ## Single-valued spotlight -/

namespace JMap

variable {α : Type}

theorem mem_modify (m : JMap α) (k : String) (f : α → α) (e : String × α) :
    e ∈ m.modify k f ↔ ∃ e0 ∈ m, (if e0.1 = k then (e0.1, f e0.2) else e0) = e := by
  simp [modify, List.mem_map]

theorem mem_keys_of_mem (m : JMap α) (e : String × α) (h : e ∈ m) : e.1 ∈ m.keys :=
  List.mem_map_of_mem _ h

theorem mem_set (m : JMap α) (k : String) (v : α) (e : String × α) (h : e ∈ m.set k v) :
    e = (k, v) ∨ (e ∈ m ∧ e.1 ≠ k) := by
  by_cases hk : m.has k = true
  · rw [set_of_has m k v hk, mem_modify] at h
    obtain ⟨e0, he0, rfl⟩ := h
    by_cases h1 : e0.1 = k
    · left; simp [h1]
    · right; simp [h1, he0]
  · have hk' : m.has k = false := by simpa using hk
    rw [set_of_not_has m k v hk', List.mem_append, List.mem_singleton] at h
    rcases h with h | h
    · right; exact ⟨h, (has_eq_false_iff m k).1 hk' e h⟩
    · left; exact h

theorem nodup_keys_set (m : JMap α) (k : String) (v : α) (h : m.keys.Nodup) :
    (JMap.keys (m.set k v)).Nodup := by
  rw [keys_set]
  by_cases hk : m.has k = true
  · simpa [hk] using h
  · have hk' : m.has k = false := by simpa using hk
    have hnot : k ∉ m.keys := by
      intro hmem
      rw [has_eq_keys] at hk'
      simp [hmem] at hk'
    simp only [hk', Bool.false_eq_true, if_false]
    exact List.Nodup.append h (List.nodup_singleton k) (by
      intro x hx hx'
      rw [List.mem_singleton] at hx'
      exact hnot (hx' ▸ hx))

theorem filter_values_length_le_one (m : JMap α) (P : α → Bool) (k : String)
    (hn : m.keys.Nodup) (hk : ∀ e ∈ m, P e.2 = true → e.1 = k) :
    ((JMap.values m).filter P).length ≤ 1 := by
  induction m with
  | nil => simp [values]
  | cons e t ih =>
    have hn' : (JMap.keys t).Nodup := by
      simp only [keys, List.map_cons, List.nodup_cons] at hn; exact hn.2
    have hnot : e.1 ∉ JMap.keys t := by
      simp only [keys, List.map_cons, List.nodup_cons] at hn; exact hn.1
    have iht := ih hn' (fun e' he' => hk e' (List.mem_cons_of_mem _ he'))
    by_cases hp : P e.2 = true
    · have hek : e.1 = k := hk e (List.mem_cons_self _ _) hp
      have hnone : (JMap.values t).filter P = [] := by
        rw [List.filter_eq_nil_iff]
        intro a ha
        simp only [values, List.mem_map] at ha
        obtain ⟨e', he', rfl⟩ := ha
        intro hpa
        have : e'.1 = k := hk e' (List.mem_cons_of_mem _ he') hpa
        exact hnot (by rw [hek, ← this]; exact mem_keys_of_mem t e' he')
      simp only [values, List.map_cons, List.filter_cons, hp, if_true, List.length_cons]
      simp only [values] at hnone
      simp [hnone]
    · simp only [values, List.map_cons, List.filter_cons, hp]
      simpa [values] using iht

end JMap

namespace Meeting

theorem has_clearedRoster (m : Meeting) (k : String) :
    JMap.has (clearedRoster m) k = m.participants.has k := by
  unfold clearedRoster
  split
  · rw [JMap.has_modify]
  · rfl

theorem keys_clearedRoster (m : Meeting) :
    JMap.keys (clearedRoster m) = m.participants.keys := by
  unfold clearedRoster
  split
  · rw [JMap.keys_modify]
  · rfl

/-- Closed form of `spotlightParticipant`. -/
theorem spotlightParticipant_eq (m : Meeting) (s : String) :
    m.spotlightParticipant s =
      if m.participants.has s = true then
        { m with
          participants :=
            JMap.modify (clearedRoster m) s (fun p => { p with isSpotlighted := true })
          spotlightedParticipant := some s
          manualSpotlight := true }
      else { m with participants := clearedRoster m } := by
  have hh := has_clearedRoster m s
  rw [JMap.has_eq_isSome_get] at hh
  unfold spotlightParticipant
  unfold clearedRoster at hh ⊢
  by_cases ht : jsTruthy m.spotlightedParticipant = true
  · simp only [ht, if_true] at hh ⊢
    split
    · next x hx => rw [hx] at hh; simp [← hh]
    · next hx => rw [hx] at hh; simp [← hh]
  · have ht' : jsTruthy m.spotlightedParticipant = false := by simpa using ht
    simp only [ht', Bool.false_eq_true, if_false] at hh ⊢
    split
    · next x hx => rw [hx] at hh; simp [← hh]
    · next hx => rw [hx] at hh; simp [← hh]

/-- Closed form of `removeSpotlight`. -/
theorem removeSpotlight_eq (m : Meeting) :
    m.removeSpotlight =
      if jsTruthy m.spotlightedParticipant = true then
        { m with
          participants := clearedRoster m
          spotlightedParticipant := none
          manualSpotlight := false }
      else m := by
  unfold removeSpotlight clearedRoster
  split <;> rfl

theorem cleared_no_flag (m : Meeting) (h : SpotInv m) :
    ∀ e ∈ clearedRoster m, e.2.isSpotlighted = false := by
  obtain ⟨_, h2, h3⟩ := h
  intro e he
  unfold clearedRoster at he
  by_cases ht : jsTruthy m.spotlightedParticipant = true
  · rw [if_pos ht, JMap.mem_modify] at he
    obtain ⟨e0, he0, rfl⟩ := he
    by_cases hk : e0.1 = m.spotlightedParticipant.getD ""
    · simp [hk]
    · rw [if_neg hk]
      cases hf : e0.2.isSpotlighted with
      | false => rfl
      | true =>
        exfalso; apply hk
        rw [h3 e0 he0 hf]; rfl
  · rw [if_neg ht] at he
    cases hf : e.2.isSpotlighted with
    | false => rfl
    | true =>
      exfalso; apply ht
      have hne : e.1 ≠ "" := h2 _ (JMap.mem_keys_of_mem _ e he)
      rw [h3 e he hf]
      simp [jsTruthy, hne]

theorem spotInv_new (id hostId hostName : String) (now : Nat) (env : TurnEnv) :
    SpotInv (Meeting.new id hostId hostName now env) := by
  simp [SpotInv, Meeting.new, JMap.keys]

theorem spotInv_spotlightParticipant (m : Meeting) (s : String) (h : SpotInv m) :
    SpotInv (m.spotlightParticipant s) := by
  have hc := cleared_no_flag m h
  refine ⟨?_, ?_, ?_⟩
  · rw [spotlightParticipant_keys]; exact h.1
  · rw [spotlightParticipant_keys]; exact h.2.1
  · rw [spotlightParticipant_eq]
    split
    · intro e he hf
      dsimp only at he
      obtain ⟨e0, he0, rfl⟩ := (JMap.mem_modify _ _ _ _).1 he
      by_cases hk : e0.1 = s
      · simp [hk]
      · rw [if_neg hk] at hf
        have := hc e0 he0
        rw [this] at hf; exact absurd hf (by simp)
    · intro e he hf
      have := hc e he
      rw [this] at hf; exact absurd hf (by simp)

theorem spotInv_removeSpotlight (m : Meeting) (h : SpotInv m) :
    SpotInv m.removeSpotlight := by
  have hc := cleared_no_flag m h
  rw [removeSpotlight_eq]
  split
  · refine ⟨?_, ?_, ?_⟩
    · show (JMap.keys (clearedRoster m)).Nodup
      rw [keys_clearedRoster]; exact h.1
    · show ∀ k ∈ JMap.keys (clearedRoster m), k ≠ ""
      rw [keys_clearedRoster]; exact h.2.1
    · intro e he hf
      have := hc e he
      rw [this] at hf; exact absurd hf (by simp)
  · exact h

theorem spotInv_setManual (m : Meeting) (b : Bool) (h : SpotInv m) :
    SpotInv { m with manualSpotlight := b } := h

theorem spotInv_handleAudioActivity (m : Meeting) (s : String) (v : ℚ) (h : SpotInv m) :
    SpotInv (m.handleAudioActivity s v).1 := by
  have h1 : SpotInv
      { m with
        participants := m.participants.modify s (fun p => { p with audioLevel := v }) } := by
    refine ⟨?_, ?_, ?_⟩
    · simp only [JMap.keys_modify]; exact h.1
    · simp only [JMap.keys_modify]; exact h.2.1
    · intro e he hf
      dsimp only at he
      obtain ⟨e0, he0, rfl⟩ := (JMap.mem_modify _ _ _ _).1 he
      by_cases hk : e0.1 = s
      · rw [if_pos hk] at hf ⊢
        exact h.2.2 e0 he0 hf
      · rw [if_neg hk] at hf ⊢
        exact h.2.2 e0 he0 hf
  unfold handleAudioActivity
  split
  · simp only
    split
    · split
      · exact spotInv_setManual _ _ (spotInv_spotlightParticipant _ _ h1)
      · exact h1
    · exact h1
  · exact h

theorem spotInv_addParticipant (m : Meeting) (socketId name : String) (isHost : Bool)
    (now : Nat) (hid : socketId ≠ "") (h : SpotInv m) :
    SpotInv (m.addParticipant socketId name isHost now).1 := by
  have key : ∀ p : Participant, p.isSpotlighted = false →
      SpotInv { m with participants := m.participants.set socketId p } := by
    intro p hp
    refine ⟨JMap.nodup_keys_set _ _ _ h.1, ?_, ?_⟩
    · intro k hk
      simp only [JMap.keys_set] at hk
      split at hk
      · exact h.2.1 k hk
      · rw [List.mem_append, List.mem_singleton] at hk
        rcases hk with hk | hk
        · exact h.2.1 k hk
        · rw [hk]; exact hid
    · intro e he hf
      rcases JMap.mem_set _ _ _ _ he with rfl | ⟨hm, _⟩
      · simp only at hf; rw [hp] at hf; exact absurd hf (by simp)
      · exact h.2.2 e hm hf
  unfold addParticipant
  simp only
  split
  · exact spotInv_spotlightParticipant _ _ (key _ rfl)
  · exact key _ rfl

end Meeting

theorem spotInv_runAdds (calls : List AddCall) :
    ∀ m : Meeting, (∀ a ∈ calls, a.socketId ≠ "") → SpotInv m → SpotInv (runAdds m calls) := by
  induction calls with
  | nil => intro m _ h; exact h
  | cons a t ih =>
    intro m hids h
    simp only [runAdds, List.foldl_cons]
    exact ih _ (fun a' ha' => hids a' (List.mem_cons_of_mem _ ha'))
      (Meeting.spotInv_addParticipant m _ _ _ _ (hids a (List.mem_cons_self _ _)) h)

theorem spotInv_runSpotlight (ops : List SpotlightOp) :
    ∀ m : Meeting, SpotInv m → SpotInv (runSpotlight m ops) := by
  induction ops with
  | nil => intro m h; exact h
  | cons op t ih =>
    intro m h
    simp only [runSpotlight, List.foldl_cons]
    apply ih
    cases op with
    | spotlight socketId => exact Meeting.spotInv_spotlightParticipant m _ h
    | removeSpotlight => exact Meeting.spotInv_removeSpotlight m h
    | audio socketId audioLevel => exact Meeting.spotInv_handleAudioActivity m _ _ h

theorem singleSpotlight_of_spotInv (m : Meeting) (h : SpotInv m) : SingleSpotlight m := by
  refine ⟨?_, h.2.2⟩
  unfold spotlightedCount
  apply JMap.filter_values_length_le_one m.participants (fun p => p.isSpotlighted)
    (m.spotlightedParticipant.getD "") h.1
  intro e he hf
  rw [h.2.2 e he hf]; rfl

/-! ## Properties of the roster and of the spotlight -/

/-- C1: starting from a newly constructed Meeting, or from any Meeting state
in which every id in coHosts, every key of screenShares, every id in
raisedHands and a non-null spotlightedParticipant is a key of participants,
after every finite sequence of addParticipant and removeParticipant calls
with arbitrary ids, names and isHost flags the same holds again. -/
theorem cascade_consistency_roster (id hostId hostName : String) (now : Nat) (env : TurnEnv)
    (ops : List RosterOp) :
    CascadeInv (runRoster (Meeting.new id hostId hostName now env) ops) ∧
    ∀ m : Meeting, CascadeInv m → CascadeInv (runRoster m ops) :=
  ⟨cascadeInv_runRoster ops _ (Meeting.cascadeInv_new id hostId hostName now env),
    cascadeInv_runRoster ops⟩

theorem cascade_consistency_roster_witness :
    CascadeInv busyMeeting ∧
    CascadeInv (runRoster busyMeeting
      [.add "c" "Cy" false 4, .remove "a", .add "a" "Ann" true 5, .remove "zz"]) :=
  ⟨by decide,
    (cascade_consistency_roster "M" "h" "Host" 0 noTurn
      [.add "c" "Cy" false 4, .remove "a", .add "a" "Ann" true 5, .remove "zz"]).2
      busyMeeting (by decide)⟩

/-- C2: the cascade-consistency invariant is not preserved by every method.
`raiseHand` and `addScreenShare` insert the id before looking the participant
up, so a call with an id that is not a participant breaks it; through the
handlers, a guest whose directory entry outlives the meeting of a host who
left and created the meeting again reaches `addScreenShare` that way. -/
theorem cascade_broken_by_unknown_id :
    CascadeInv freshMeeting ∧
    ¬ CascadeInv (freshMeeting.raiseHand "ghost") ∧
    ¬ CascadeInv (freshMeeting.addScreenShare "ghost" "s1" 1) ∧
    CascadeInv sampleMeeting ∧
    ¬ CascadeInv (sampleMeeting.raiseHand "ghost") ∧
    ((startScreenShare
        (joinAsHost
          (socketDisconnect
            (joinMeeting (joinAsHost ServerState.init "h" "M" "Host" 0 noTurn).1
              "a" "M" "Ann" 1).1
            "h").1
          "h2" "M" "Host" 2 noTurn).1
        "a" "s1" 3).1.meetings.get "M").map (fun m => decide (CascadeInv m)) = some false := by
  decide

/-- C3: after removeParticipant(c), c is not a key of participants or
screenShares and not a member of coHosts or raisedHands; if
spotlightedParticipant was c it is now null and manualSpotlight is false,
otherwise both are unchanged; every other participant's record, every other
entry of coHosts, screenShares and raisedHands, isLocked and permissions are
unchanged. -/
theorem removeParticipant_frame (m : Meeting) (c : String) :
    (m.removeParticipant c).participants.has c = false ∧
    (m.removeParticipant c).screenShares.has c = false ∧
    c ∉ (m.removeParticipant c).coHosts ∧
    c ∉ (m.removeParticipant c).raisedHands ∧
    (m.spotlightedParticipant = some c →
      (m.removeParticipant c).spotlightedParticipant = none ∧
      (m.removeParticipant c).manualSpotlight = false) ∧
    (m.spotlightedParticipant ≠ some c →
      (m.removeParticipant c).spotlightedParticipant = m.spotlightedParticipant ∧
      (m.removeParticipant c).manualSpotlight = m.manualSpotlight) ∧
    (∀ k, k ≠ c → (m.removeParticipant c).participants.get k = m.participants.get k) ∧
    (∀ k, k ≠ c → (k ∈ (m.removeParticipant c).coHosts ↔ k ∈ m.coHosts)) ∧
    (∀ k, k ≠ c → (m.removeParticipant c).screenShares.get k = m.screenShares.get k) ∧
    (∀ k, k ≠ c → (k ∈ (m.removeParticipant c).raisedHands ↔ k ∈ m.raisedHands)) ∧
    (m.removeParticipant c).isLocked = m.isLocked ∧
    (m.removeParticipant c).permissions = m.permissions := by
  unfold Meeting.removeParticipant
  by_cases h : m.spotlightedParticipant = some c
  · simp [h, JMap.has_delete, JMap.get_delete, JSet.mem_delete]
    exact ⟨fun k h1 h2 => absurd h2 h1, fun k h1 _ => h1, fun k h1 h2 => absurd h2 h1,
      fun k h1 _ => h1⟩
  · simp [h, JMap.has_delete, JMap.get_delete, JSet.mem_delete]
    exact ⟨fun k h1 h2 => absurd h2 h1, fun k h1 _ => h1, fun k h1 h2 => absurd h2 h1,
      fun k h1 _ => h1⟩

theorem removeParticipant_frame_witness :
    ((busyMeeting.removeParticipant "a").spotlightedParticipant = none ∧
      (busyMeeting.removeParticipant "a").manualSpotlight = false) ∧
    ((busyMeeting.removeParticipant "b").spotlightedParticipant =
        busyMeeting.spotlightedParticipant ∧
      (busyMeeting.removeParticipant "b").manualSpotlight = busyMeeting.manualSpotlight) ∧
    (busyMeeting.removeParticipant "a").participants.get "b" = busyMeeting.participants.get "b" ∧
    ("a" ∈ (busyMeeting.removeParticipant "b").coHosts ↔ "a" ∈ busyMeeting.coHosts) ∧
    (busyMeeting.removeParticipant "b").screenShares.get "a" = busyMeeting.screenShares.get "a" ∧
    ("a" ∈ (busyMeeting.removeParticipant "b").raisedHands ↔ "a" ∈ busyMeeting.raisedHands) :=
  ⟨(removeParticipant_frame busyMeeting "a").2.2.2.2.1 (by decide),
    (removeParticipant_frame busyMeeting "b").2.2.2.2.2.1 (by decide),
    (removeParticipant_frame busyMeeting "a").2.2.2.2.2.2.1 "b" (by decide),
    (removeParticipant_frame busyMeeting "b").2.2.2.2.2.2.2.1 "a" (by decide),
    (removeParticipant_frame busyMeeting "b").2.2.2.2.2.2.2.2.1 "a" (by decide),
    (removeParticipant_frame busyMeeting "b").2.2.2.2.2.2.2.2.2.1 "a" (by decide)⟩

/-- C4 does not hold for every id: the methods test spotlightedParticipant by
truthiness, so the empty string counts as no spotlight.  After
addParticipant with the empty id as host and addParticipant of `a`,
spotlightParticipant for `a` does not clear the flag of the empty id: two
participants have isSpotlighted true, and one of them is not stored under
spotlightedParticipant. -/
theorem empty_id_two_spotlighted :
    spotlightedCount (runSpotlight
      (runAdds (Meeting.new "M" "" "Host" 0 noTurn)
        [⟨"", "Host", true, 0⟩, ⟨"a", "Ann", false, 1⟩])
      [.spotlight "a"]) = 2 ∧
    (runSpotlight
      (runAdds (Meeting.new "M" "" "Host" 0 noTurn)
        [⟨"", "Host", true, 0⟩, ⟨"a", "Ann", false, 1⟩])
      [.spotlight "a"]).spotlightedParticipant = some "a" ∧
    spotlightFlags (runSpotlight
      (runAdds (Meeting.new "M" "" "Host" 0 noTurn)
        [⟨"", "Host", true, 0⟩, ⟨"a", "Ann", false, 1⟩])
      [.spotlight "a"]) = [("", true), ("a", true)] ∧
    ¬ SingleSpotlight (runSpotlight
      (runAdds (Meeting.new "M" "" "Host" 0 noTurn)
        [⟨"", "Host", true, 0⟩, ⟨"a", "Ann", false, 1⟩])
      [.spotlight "a"]) := by
  decide

/-- C4, amended: for every Meeting built by addParticipant calls whose
connection ids are all non-empty strings, and every subsequent finite
sequence of spotlightParticipant(id) with arbitrary id (possibly unknown or
empty), removeSpotlight() and handleAudioActivity(id, level) calls, at most
one participant has isSpotlighted true, and if one does its connection id
equals spotlightedParticipant. -/
theorem spotlight_single_valued (id hostId hostName : String) (now : Nat) (env : TurnEnv)
    (adds : List AddCall) (ops : List SpotlightOp)
    (hids : ∀ a ∈ adds, a.socketId ≠ "") :
    SingleSpotlight (runSpotlight (runAdds (Meeting.new id hostId hostName now env) adds) ops) :=
  singleSpotlight_of_spotInv _
    (spotInv_runSpotlight ops _
      (spotInv_runAdds adds _ hids (Meeting.spotInv_new id hostId hostName now env)))

theorem spotlight_single_valued_witness :
    SingleSpotlight (runSpotlight
      (runAdds (Meeting.new "M" "h" "Host" 0 noTurn)
        [⟨"h", "Host", true, 0⟩, ⟨"a", "Ann", false, 1⟩, ⟨"h", "Host", true, 2⟩])
      [.spotlight "a", .spotlight "ghost", .removeSpotlight, .audio "h" (1 / 2)]) :=
  spotlight_single_valued "M" "h" "Host" 0 noTurn
    [⟨"h", "Host", true, 0⟩, ⟨"a", "Ann", false, 1⟩, ⟨"h", "Host", true, 2⟩]
    [.spotlight "a", .spotlight "ghost", .removeSpotlight, .audio "h" (1 / 2)]
    (by decide)

/-- C8: isParticipantAllowed(c) is true if and only if isLocked is false or c
is a key of participants; on a locked meeting it is true for every
already-joined connection and false for every connection that is not a
participant. -/
theorem isParticipantAllowed_iff (m : Meeting) (c : String) :
    (m.isParticipantAllowed c = true ↔ (m.isLocked = false ∨ m.participants.has c = true)) ∧
    (m.isLocked = true → m.participants.has c = true → m.isParticipantAllowed c = true) ∧
    (m.isLocked = true → m.participants.has c = false → m.isParticipantAllowed c = false) := by
  unfold Meeting.isParticipantAllowed
  cases m.isLocked <;> cases m.participants.has c <;> simp

theorem isParticipantAllowed_iff_witness :
    sampleMeeting.lockMeeting.isParticipantAllowed "a" = true ∧
    sampleMeeting.lockMeeting.isParticipantAllowed "carol" = false :=
  ⟨(isParticipantAllowed_iff sampleMeeting.lockMeeting "a").2.1 (by decide) (by decide),
    (isParticipantAllowed_iff sampleMeeting.lockMeeting "carol").2.2 (by decide) (by decide)⟩

/-! ## Automatic spotlight -/

namespace Meeting

/-- Closed form of `handleAudioActivity`. -/
theorem handleAudioActivity_eq (m : Meeting) (c : String) (v : ℚ) :
    m.handleAudioActivity c v =
      if autoTrigger m c v then
        ({ (withAudioLevel m c v).spotlightParticipant c with manualSpotlight := false }, true)
      else if m.participants.has c = true then (withAudioLevel m c v, false)
      else (m, false) := by
  cases hg : m.participants.get c with
  | none =>
    have hh : m.participants.has c = false := (JMap.get_eq_none_iff _ _).1 hg
    simp [handleAudioActivity, autoTrigger, hg, hh]
  | some p =>
    have hh : m.participants.has c = true := JMap.has_of_get _ _ _ hg
    simp only [handleAudioActivity, autoTrigger, withAudioLevel, hg, hh]
    by_cases h1 : m.manualSpotlight = true <;> by_cases h2 : m.autoSpotlightEnabled = true <;>
      by_cases h3 : v > 3 / 10 <;> by_cases h4 : m.spotlightedParticipant = some c <;>
      simp [h1, h2, h3, h4]

theorem spotlightFlags_withAudioLevel (m : Meeting) (c : String) (v : ℚ) :
    spotlightFlags (withAudioLevel m c v) = spotlightFlags m := by
  unfold spotlightFlags withAudioLevel JMap.modify
  simp only [List.map_map]
  apply List.map_congr_left
  intro e _
  simp only [Function.comp]
  split <;> rfl

theorem handleAudioActivity_true_iff (m : Meeting) (c : String) (v : ℚ) :
    (m.handleAudioActivity c v).2 = true ↔ autoTrigger m c v := by
  rw [handleAudioActivity_eq]
  by_cases h : autoTrigger m c v
  · simp [h]
  · simp only [h, if_false]
    split <;> simp

theorem handleAudioActivity_of_trigger (m : Meeting) (c : String) (v : ℚ)
    (h : autoTrigger m c v) :
    (m.handleAudioActivity c v).1.spotlightedParticipant = some c ∧
    (m.handleAudioActivity c v).1.manualSpotlight = false ∧
    (m.handleAudioActivity c v).1.autoSpotlightEnabled = true ∧
    ∀ k, (m.handleAudioActivity c v).1.participants.has k = m.participants.has k := by
  rw [handleAudioActivity_eq, if_pos h]
  obtain ⟨hc, _, ha, _, _⟩ := h
  refine ⟨?_, rfl, ?_, ?_⟩
  · show ((withAudioLevel m c v).spotlightParticipant c).spotlightedParticipant = some c
    rw [spotlightParticipant_spotlighted]
    simp [withAudioLevel, JMap.has_modify, hc]
  · show ((withAudioLevel m c v).spotlightParticipant c).autoSpotlightEnabled = true
    rw [(spotlightParticipant_frame _ _).2.2.2.2.2]
    exact ha
  · intro k
    show ((withAudioLevel m c v).spotlightParticipant c).participants.has k = _
    rw [spotlightParticipant_has]
    simp [withAudioLevel, JMap.has_modify]

theorem handleAudioActivity_of_not_trigger (m : Meeting) (c : String) (v : ℚ)
    (h : ¬ autoTrigger m c v) :
    (m.handleAudioActivity c v).1.spotlightedParticipant = m.spotlightedParticipant ∧
    (m.handleAudioActivity c v).1.manualSpotlight = m.manualSpotlight ∧
    spotlightFlags (m.handleAudioActivity c v).1 = spotlightFlags m := by
  rw [handleAudioActivity_eq, if_neg h]
  split
  · exact ⟨rfl, rfl, spotlightFlags_withAudioLevel m c v⟩
  · exact ⟨rfl, rfl, rfl⟩

end Meeting

/-- C5: handleAudioActivity(c, v) changes the spotlight, and returns true, if
and only if c is a participant, v > 0.3, autoSpotlightEnabled is true,
manualSpotlight is false and c is not already the spotlighted participant;
in that case spotlightedParticipant becomes c.  While manualSpotlight is true
every call returns false and leaves spotlightedParticipant, manualSpotlight
and every isSpotlighted flag unchanged. -/
theorem handleAudioActivity_spec (m : Meeting) (c : String) (v : ℚ) :
    ((m.handleAudioActivity c v).2 = true ↔
      (m.participants.has c = true ∧ v > 3 / 10 ∧ m.autoSpotlightEnabled = true ∧
        m.manualSpotlight = false ∧ m.spotlightedParticipant ≠ some c)) ∧
    ((m.handleAudioActivity c v).1.spotlightedParticipant ≠ m.spotlightedParticipant ↔
      (m.handleAudioActivity c v).2 = true) ∧
    ((m.handleAudioActivity c v).2 = true →
      (m.handleAudioActivity c v).1.spotlightedParticipant = some c) ∧
    (m.handleAudioActivity c (3 / 10)).2 = false ∧
    (m.manualSpotlight = true →
      (m.handleAudioActivity c v).2 = false ∧
      (m.handleAudioActivity c v).1.spotlightedParticipant = m.spotlightedParticipant ∧
      (m.handleAudioActivity c v).1.manualSpotlight = true ∧
      spotlightFlags (m.handleAudioActivity c v).1 = spotlightFlags m) := by
  have hiff := Meeting.handleAudioActivity_true_iff m c v
  refine ⟨hiff, ?_, ?_, ?_, ?_⟩
  rotate_left 2
  · cases hr : (m.handleAudioActivity c (3 / 10)).2 with
    | false => rfl
    | true =>
      have := ((Meeting.handleAudioActivity_true_iff m c (3 / 10)).1 hr).2.1
      exact absurd this (lt_irrefl _)
  rotate_left 1
  · by_cases h : autoTrigger m c v
    · have h1 := (Meeting.handleAudioActivity_of_trigger m c v h).1
      constructor
      · intro _; exact hiff.2 h
      · intro _; rw [h1]; exact fun e => h.2.2.2.2 e.symm
    · have h1 := (Meeting.handleAudioActivity_of_not_trigger m c v h).1
      constructor
      · intro hne; exact absurd h1 hne
      · intro ht; exact absurd (hiff.1 ht) h
  · intro ht
    exact (Meeting.handleAudioActivity_of_trigger m c v (hiff.1 ht)).1
  · intro hm
    have h : ¬ autoTrigger m c v := by
      intro ha; rw [ha.2.2.2.1] at hm; exact absurd hm (by simp)
    obtain ⟨h1, h2, h3⟩ := Meeting.handleAudioActivity_of_not_trigger m c v h
    refine ⟨?_, h1, h2.trans hm, h3⟩
    cases hr : (m.handleAudioActivity c v).2 with
    | false => rfl
    | true => exact absurd (hiff.1 hr) h

theorem handleAudioActivity_spec_witness :
    (sampleMeeting.removeSpotlight.handleAudioActivity "a" (1 / 2)).1.spotlightedParticipant =
      some "a" ∧
    ((sampleMeeting.handleAudioActivity "a" (1 / 2)).2 = false ∧
      (sampleMeeting.handleAudioActivity "a" (1 / 2)).1.spotlightedParticipant =
        sampleMeeting.spotlightedParticipant ∧
      (sampleMeeting.handleAudioActivity "a" (1 / 2)).1.manualSpotlight = true ∧
      spotlightFlags (sampleMeeting.handleAudioActivity "a" (1 / 2)).1 =
        spotlightFlags sampleMeeting) :=
  ⟨(handleAudioActivity_spec sampleMeeting.removeSpotlight "a" (1 / 2)).2.2.1
      ((Meeting.handleAudioActivity_true_iff _ _ _).2
        ⟨by decide, by norm_num, by decide, by decide, by decide⟩),
    (handleAudioActivity_spec sampleMeeting "a" (1 / 2)).2.2.2.2 (by decide)⟩

/-! ## Cascade consistency under the other methods -/

/-- Transfer of the cascade invariant to a state with the same roster keys
whose tracked ids are old ones or participants. -/
theorem cascadeInv_transfer (m m' : Meeting) (h : CascadeInv m)
    (hp : ∀ k, m'.participants.has k = m.participants.has k)
    (hc : ∀ c ∈ m'.coHosts, c ∈ m.coHosts ∨ m.participants.has c = true)
    (hs : ∀ c ∈ m'.screenShares.keys, c ∈ m.screenShares.keys ∨ m.participants.has c = true)
    (hr : ∀ c ∈ m'.raisedHands, c ∈ m.raisedHands ∨ m.participants.has c = true)
    (hsp : ∀ c ∈ m'.spotlightedParticipant.toList,
      c ∈ m.spotlightedParticipant.toList ∨ m.participants.has c = true) :
    CascadeInv m' := by
  obtain ⟨h1, h2, h3, h4⟩ := h
  refine ⟨?_, ?_, ?_, ?_⟩
  · intro c hm; rw [hp]; rcases hc c hm with x | x
    · exact h1 c x
    · exact x
  · intro c hm; rw [hp]; rcases hs c hm with x | x
    · exact h2 c x
    · exact x
  · intro c hm; rw [hp]; rcases hr c hm with x | x
    · exact h3 c x
    · exact x
  · intro c hm; rw [hp]; rcases hsp c hm with x | x
    · exact h4 c x
    · exact x

namespace Meeting

theorem cascadeInv_makeCoHost (m : Meeting) (s : String) (h : CascadeInv m) :
    CascadeInv (m.makeCoHost s) := by
  unfold makeCoHost
  split
  · next p hp =>
    split
    · apply cascadeInv_transfer m _ h
      · intro k; simp only [JMap.has_modify]
      · intro c hc
        rcases (JSet.mem_add _ _ _).1 hc with rfl | hc
        · exact Or.inr (JMap.has_of_get _ _ _ hp)
        · exact Or.inl hc
      · intro c hc; exact Or.inl hc
      · intro c hc; exact Or.inl hc
      · intro c hc; exact Or.inl hc
    · exact h
  · exact h

theorem cascadeInv_removeCoHost (m : Meeting) (s : String) (h : CascadeInv m) :
    CascadeInv (m.removeCoHost s) := by
  unfold removeCoHost
  split
  · apply cascadeInv_transfer m _ h
    · intro k; simp only [JMap.has_modify]
    · intro c hc; exact Or.inl ((JSet.mem_delete _ _ _).1 hc).2
    · intro c hc; exact Or.inl hc
    · intro c hc; exact Or.inl hc
    · intro c hc; exact Or.inl hc
  · exact h

theorem cascadeInv_removeSpotlight (m : Meeting) (h : CascadeInv m) :
    CascadeInv m.removeSpotlight := by
  rw [removeSpotlight_eq]
  split
  · apply cascadeInv_transfer m _ h
    · intro k; exact has_clearedRoster m k
    · intro c hc; exact Or.inl hc
    · intro c hc; exact Or.inl hc
    · intro c hc; exact Or.inl hc
    · intro c hc; simp at hc
  · exact h

theorem cascadeInv_withAudioLevel (m : Meeting) (s : String) (v : ℚ) (h : CascadeInv m) :
    CascadeInv (withAudioLevel m s v) := by
  apply cascadeInv_transfer m _ h
  · intro k; simp only [withAudioLevel, JMap.has_modify]
  · intro c hc; exact Or.inl hc
  · intro c hc; exact Or.inl hc
  · intro c hc; exact Or.inl hc
  · intro c hc; exact Or.inl hc

theorem cascadeInv_handleAudioActivity (m : Meeting) (s : String) (v : ℚ) (h : CascadeInv m) :
    CascadeInv (m.handleAudioActivity s v).1 := by
  rw [handleAudioActivity_eq]
  split
  · exact cascadeInv_spotlightParticipant _ _ (cascadeInv_withAudioLevel m s v h)
  · split
    · exact cascadeInv_withAudioLevel m s v h
    · exact h

theorem cascadeInv_removeScreenShare (m : Meeting) (s : String) (h : CascadeInv m) :
    CascadeInv (m.removeScreenShare s) := by
  apply cascadeInv_transfer m _ h
  · intro k; simp only [removeScreenShare, JMap.has_modify]
  · intro c hc; exact Or.inl hc
  · intro c hc
    simp only [removeScreenShare, JMap.keys_delete, List.mem_filter] at hc
    exact Or.inl hc.1
  · intro c hc; exact Or.inl hc
  · intro c hc; exact Or.inl hc

theorem cascadeInv_lowerHand (m : Meeting) (s : String) (h : CascadeInv m) :
    CascadeInv (m.lowerHand s) := by
  apply cascadeInv_transfer m _ h
  · intro k; simp only [lowerHand, JMap.has_modify]
  · intro c hc; exact Or.inl hc
  · intro c hc; exact Or.inl hc
  · intro c hc; exact Or.inl ((JSet.mem_delete _ _ _).1 hc).2
  · intro c hc; exact Or.inl hc

/-- The method `raiseHand` keeps the cascade invariant when the id is a participant. -/
theorem cascadeInv_raiseHand (m : Meeting) (s : String) (hs : m.participants.has s = true)
    (h : CascadeInv m) : CascadeInv (m.raiseHand s) := by
  apply cascadeInv_transfer m _ h
  · intro k; simp only [raiseHand, JMap.has_modify]
  · intro c hc; exact Or.inl hc
  · intro c hc; exact Or.inl hc
  · intro c hc
    rcases (JSet.mem_add _ _ _).1 hc with rfl | hc
    · exact Or.inr hs
    · exact Or.inl hc
  · intro c hc; exact Or.inl hc

/-- The method `addScreenShare` keeps the cascade invariant when the id is a
participant. -/
theorem cascadeInv_addScreenShare (m : Meeting) (s streamId : String) (now : Nat)
    (hs : m.participants.has s = true) (h : CascadeInv m) :
    CascadeInv (m.addScreenShare s streamId now) := by
  apply cascadeInv_transfer m _ h
  · intro k; simp only [addScreenShare, JMap.has_modify]
  · intro c hc; exact Or.inl hc
  · intro c hc
    simp only [addScreenShare, JMap.keys_set] at hc
    split at hc
    · exact Or.inl hc
    · rw [List.mem_append, List.mem_singleton] at hc
      rcases hc with hc | rfl
      · exact Or.inl hc
      · exact Or.inr hs
  · intro c hc; exact Or.inl hc
  · intro c hc; exact Or.inl hc

end Meeting

/-- C6 does not hold: after an automatic trigger `manualSpotlight` is false,
and a later level above the threshold from another participant moves the
spotlight again. -/
theorem auto_trigger_not_pinned :
    (quietMeeting.handleAudioActivity "a" (1 / 2)).2 = true ∧
    (quietMeeting.handleAudioActivity "a" (1 / 2)).1.spotlightedParticipant = some "a" ∧
    (quietMeeting.handleAudioActivity "a" (1 / 2)).1.manualSpotlight = false ∧
    ((quietMeeting.handleAudioActivity "a" (1 / 2)).1.handleAudioActivity "b" (1 / 2)).2 = true ∧
    ((quietMeeting.handleAudioActivity "a" (1 / 2)).1.handleAudioActivity "b"
      (1 / 2)).1.spotlightedParticipant = some "b" := by
  have h1 : autoTrigger quietMeeting "a" (1 / 2) :=
    ⟨by decide, by norm_num, by decide, by decide, by decide⟩
  obtain ⟨e1, e2, e3, e4⟩ := Meeting.handleAudioActivity_of_trigger _ _ _ h1
  have h2 : autoTrigger (quietMeeting.handleAudioActivity "a" (1 / 2)).1 "b" (1 / 2) := by
    refine ⟨?_, by norm_num, e3, e2, ?_⟩
    · rw [e4]; decide
    · rw [e1]; decide
  exact ⟨(Meeting.handleAudioActivity_true_iff _ _ _).2 h1, e1, e2,
    (Meeting.handleAudioActivity_true_iff _ _ _).2 h2,
    (Meeting.handleAudioActivity_of_trigger _ _ _ h2).1⟩

/-- C6, amended: whenever handleAudioActivity(c, v) changes the spotlight to
c, manualSpotlight is false afterwards, so a later handleAudioActivity(d, w)
from a different participant d with w > 0.3 reassigns the spotlight to d. -/
theorem auto_trigger_leaves_manual_false (m : Meeting) (c : String) (v : ℚ)
    (h : (m.handleAudioActivity c v).2 = true) :
    (m.handleAudioActivity c v).1.spotlightedParticipant = some c ∧
    (m.handleAudioActivity c v).1.manualSpotlight = false ∧
    ∀ (d : String) (w : ℚ), d ≠ c → m.participants.has d = true → w > 3 / 10 →
      ((m.handleAudioActivity c v).1.handleAudioActivity d w).2 = true ∧
      ((m.handleAudioActivity c v).1.handleAudioActivity d w).1.spotlightedParticipant =
        some d := by
  have h1 := (Meeting.handleAudioActivity_true_iff m c v).1 h
  obtain ⟨e1, e2, e3, e4⟩ := Meeting.handleAudioActivity_of_trigger m c v h1
  refine ⟨e1, e2, ?_⟩
  intro d w hd hp hw
  have h2 : autoTrigger (m.handleAudioActivity c v).1 d w := by
    refine ⟨?_, hw, e3, e2, ?_⟩
    · rw [e4]; exact hp
    · rw [e1]; intro e; exact hd (Option.some.inj e).symm
  exact ⟨(Meeting.handleAudioActivity_true_iff _ _ _).2 h2,
    (Meeting.handleAudioActivity_of_trigger _ _ _ h2).1⟩

theorem auto_trigger_leaves_manual_false_witness :
    (quietMeeting.handleAudioActivity "a" (2 / 5)).1.manualSpotlight = false ∧
    (((quietMeeting.handleAudioActivity "a" (2 / 5)).1.handleAudioActivity "b" (7 / 10)).2 = true ∧
      ((quietMeeting.handleAudioActivity "a" (2 / 5)).1.handleAudioActivity "b"
        (7 / 10)).1.spotlightedParticipant = some "b") :=
  ⟨(auto_trigger_leaves_manual_false quietMeeting "a" (2 / 5)
      ((Meeting.handleAudioActivity_true_iff _ _ _).2
        ⟨by decide, by norm_num, by decide, by decide, by decide⟩)).2.1,
    (auto_trigger_leaves_manual_false quietMeeting "a" (2 / 5)
      ((Meeting.handleAudioActivity_true_iff _ _ _).2
        ⟨by decide, by norm_num, by decide, by decide, by decide⟩)).2.2
      "b" (7 / 10) (by decide) (by decide) (by norm_num)⟩

/-! ## Joining -/

namespace Meeting

theorem addParticipant_eq (m : Meeting) (socketId name : String) (isHost : Bool) (now : Nat) :
    m.addParticipant socketId name isHost now =
      if isHost = true ∧ jsTruthy m.spotlightedParticipant = false then
        ({ m with
            participants :=
              JMap.modify (m.participants.set socketId (newParticipant socketId name isHost now))
                socketId (fun p => { p with isSpotlighted := true })
            spotlightedParticipant := some socketId
            manualSpotlight := true },
          { newParticipant socketId name isHost now with isSpotlighted := true })
      else
        ({ m with
            participants :=
              m.participants.set socketId (newParticipant socketId name isHost now) },
          newParticipant socketId name isHost now) := by
  unfold addParticipant
  simp only
  by_cases hc : isHost = true ∧ jsTruthy m.spotlightedParticipant = false
  · obtain ⟨h1, h2⟩ := hc
    simp only [h1, h2, Bool.not_false, Bool.and_self, if_true, and_self]
    rw [spotlightParticipant_eq]
    have hh : JMap.has (m.participants.set socketId (newParticipant socketId name isHost now))
        socketId = true := by simp [JMap.has_set]
    simp only [newParticipant, h1] at hh
    simp only [hh, if_true, clearedRoster, h2, Bool.false_eq_true, if_false]
    simp [JMap.get_modify_self, JMap.get_set_self, newParticipant, h1]
  · rw [if_neg hc]
    have : (isHost && !jsTruthy m.spotlightedParticipant) = false := by
      cases isHost <;> cases hj : jsTruthy m.spotlightedParticipant <;> simp_all
    simp only [this, Bool.false_eq_true, if_false]
    simp [JMap.get_set_self, newParticipant]

end Meeting

/-- C7 does not hold: a first participant who is not the host is not
spotlighted, and a host who joins a non-empty meeting without spotlight is. -/
theorem first_participant_not_spotlighted :
    freshMeeting.participants = [] ∧ freshMeeting.spotlightedParticipant = none ∧
    (freshMeeting.addParticipant "a" "Ann" false 1).1.spotlightedParticipant = none ∧
    (freshMeeting.addParticipant "a" "Ann" false 1).2.isSpotlighted = false ∧
    quietMeeting.participants.keys = ["a", "b"] ∧ quietMeeting.spotlightedParticipant = none ∧
    (quietMeeting.addParticipant "h" "Host" true 3).1.spotlightedParticipant = some "h" ∧
    (quietMeeting.addParticipant "h" "Host" true 3).2.isSpotlighted = true := by
  decide

/-- C7, amended: addParticipant(id, name, isHost) makes the new participant
the spotlighted one (spotlightedParticipant = id and its isSpotlighted true)
if and only if isHost is true and spotlightedParticipant was unset (null or
the empty string) before the call; in every case it stores and returns a
record with the given id, name and isHost and with isCoHost, isMuted,
isCameraOff, isScreenSharing, isReady and handRaised all false. -/
theorem addParticipant_spec (m : Meeting) (id name : String) (isHost : Bool) (now : Nat) :
    (((m.addParticipant id name isHost now).1.spotlightedParticipant = some id ∧
        (m.addParticipant id name isHost now).2.isSpotlighted = true) ↔
      (isHost = true ∧ jsTruthy m.spotlightedParticipant = false)) ∧
    (m.addParticipant id name isHost now).1.participants.get id =
      some (m.addParticipant id name isHost now).2 ∧
    (m.addParticipant id name isHost now).2.socketId = id ∧
    (m.addParticipant id name isHost now).2.name = name ∧
    (m.addParticipant id name isHost now).2.isHost = isHost ∧
    (m.addParticipant id name isHost now).2.isCoHost = false ∧
    (m.addParticipant id name isHost now).2.isMuted = false ∧
    (m.addParticipant id name isHost now).2.isCameraOff = false ∧
    (m.addParticipant id name isHost now).2.isScreenSharing = false ∧
    (m.addParticipant id name isHost now).2.isReady = false ∧
    (m.addParticipant id name isHost now).2.handRaised = false := by
  rw [Meeting.addParticipant_eq]
  by_cases hc : isHost = true ∧ jsTruthy m.spotlightedParticipant = false
  · rw [if_pos hc]
    simp [hc, JMap.get_modify_self, JMap.get_set_self, newParticipant]
  · rw [if_neg hc]
    simp [hc, JMap.get_set_self, newParticipant]

/-! ## Handlers -/

namespace Meeting

theorem addParticipant_has (m : Meeting) (socketId name : String) (isHost : Bool) (now : Nat)
    (k : String) :
    (m.addParticipant socketId name isHost now).1.participants.has k =
      (decide (k = socketId) || m.participants.has k) := by
  rw [addParticipant_eq]
  split
  · simp only [JMap.has_modify, JMap.has_set]
  · simp only [JMap.has_set]

theorem removeParticipant_has (m : Meeting) (c k : String) :
    (m.removeParticipant c).participants.has k = (!decide (k = c) && m.participants.has k) := by
  unfold removeParticipant
  simp only
  split <;> simp only [JMap.has_delete]

end Meeting

theorem onDisconnect_of_absent (st : ServerState) (sock : String)
    (h : st.participants.get sock = none) : onDisconnect st sock = (st, []) := by
  unfold onDisconnect
  rw [h]

theorem socketDisconnect_of_absent (st : ServerState) (sock : String)
    (h : st.participants.get sock = none) :
    socketDisconnect st sock =
      ({ st with sockets := st.sockets.filter (fun s => s != sock) }, []) := by
  unfold socketDisconnect
  exact onDisconnect_of_absent _ _ h

/-- C9: for every existing meeting and every connection c, the join-meeting
handler admits c (c is a participant afterwards and the connection directory
records it) if and only if the meeting is unlocked or c is already a
participant; when the meeting is locked and c is not a participant, the only
notification emitted is meeting-locked to c and the state does not change. -/
theorem joinMeeting_admits_iff (st : ServerState) (sock meetingId participantName : String)
    (now : Nat) (meeting : Meeting) (hm : st.meetings.get meetingId = some meeting) :
    (((∃ m', (joinMeeting st sock meetingId participantName now).1.meetings.get meetingId =
            some m' ∧ m'.participants.has sock = true) ∧
        (joinMeeting st sock meetingId participantName now).1.participants.get sock =
          some ⟨meetingId, false⟩) ↔
      (meeting.isLocked = false ∨ meeting.participants.has sock = true)) ∧
    ((meeting.isLocked = false ∨ meeting.participants.has sock = true) →
      (joinMeeting st sock meetingId participantName now).1.meetings.get meetingId =
        some (meeting.addParticipant sock participantName false now).1) ∧
    (meeting.isLocked = true → meeting.participants.has sock = false →
      joinMeeting st sock meetingId participantName now =
        (st, [⟨.socket sock,
          .meetingLocked "The host disabled New Entries, Meeting Inaccessible" meetingId⟩])) := by
  have hlocked : meeting.isLocked = true → meeting.participants.has sock = false →
      joinMeeting st sock meetingId participantName now =
        (st, [⟨.socket sock,
          .meetingLocked "The host disabled New Entries, Meeting Inaccessible" meetingId⟩]) := by
    intro h1 h2
    unfold joinMeeting
    simp only [hm, h1, h2, Bool.not_false, Bool.and_self, if_true]
  have hopen : (meeting.isLocked = false ∨ meeting.participants.has sock = true) →
      (joinMeeting st sock meetingId participantName now).1.meetings.get meetingId =
        some (meeting.addParticipant sock participantName false now).1 ∧
      (joinMeeting st sock meetingId participantName now).1.participants.get sock =
        some ⟨meetingId, false⟩ := by
    intro hc
    have hif : (meeting.isLocked && !meeting.participants.has sock) = false := by
      rcases hc with h | h <;> simp [h]
    unfold joinMeeting
    simp only [hm, hif, Bool.false_eq_true, if_false, JMap.get_modify_self, Option.map_some',
      JMap.get_set_self, and_self]
  refine ⟨?_, fun hc => (hopen hc).1, hlocked⟩
  by_cases hc : meeting.isLocked = false ∨ meeting.participants.has sock = true
  · refine ⟨fun _ => hc, fun _ => ⟨⟨_, (hopen hc).1, ?_⟩, (hopen hc).2⟩⟩
    rw [Meeting.addParticipant_has]; simp
  · have h1 : meeting.isLocked = true := by
      cases h : meeting.isLocked
      · exact absurd (Or.inl h) hc
      · rfl
    have h2 : meeting.participants.has sock = false := by
      cases h : meeting.participants.has sock
      · rfl
      · exact absurd (Or.inr h) hc
    refine ⟨?_, fun h => absurd h hc⟩
    rintro ⟨⟨m', hm', hp⟩, _⟩
    rw [hlocked h1 h2] at hm'
    simp only [hm, Option.some.injEq] at hm'
    rw [← hm', h2] at hp
    exact absurd hp (by simp)

theorem joinMeeting_admits_iff_witness :
    joinMeeting lockedServer "carol" "M" "Carol" 3 =
      (lockedServer, [⟨.socket "carol",
        .meetingLocked "The host disabled New Entries, Meeting Inaccessible" "M"⟩]) ∧
    (joinMeeting sampleServer "carol" "M" "Carol" 3).1.meetings.get "M" =
      some (sampleMeeting.addParticipant "carol" "Carol" false 3).1 :=
  ⟨(joinMeeting_admits_iff lockedServer "carol" "M" "Carol" 3 sampleMeeting.lockMeeting
      (by decide)).2.2 (by decide) (by decide),
    (joinMeeting_admits_iff sampleServer "carol" "M" "Carol" 3 sampleMeeting
      (by decide)).2.1 (Or.inl (by decide))⟩

/-- C10: for every meeting in which requester r and target t are both
participants, the kick-participant handler removes t if and only if r.isHost
is true and t.isCoHost is false; otherwise the whole server state is
unchanged and the only notification is action-error to r. -/
theorem kickParticipant_spec (st : ServerState) (sock targetSocketId : String)
    (info : ParticipantInfo) (meeting : Meeting) (requester target : Participant)
    (h1 : st.participants.get sock = some info)
    (h2 : st.meetings.get info.meetingId = some meeting)
    (h3 : meeting.participants.get sock = some requester)
    (h4 : meeting.participants.get targetSocketId = some target) :
    ((∃ m', (kickParticipant st sock targetSocketId).1.meetings.get info.meetingId = some m' ∧
        m'.participants.has targetSocketId = false) ↔
      (requester.isHost = true ∧ target.isCoHost = false)) ∧
    ((requester.isHost = true ∧ target.isCoHost = false) →
      (kickParticipant st sock targetSocketId).1.meetings.get info.meetingId =
        some (meeting.removeParticipant targetSocketId) ∧
      (kickParticipant st sock targetSocketId).1.participants =
        st.participants.delete targetSocketId) ∧
    (¬ (requester.isHost = true ∧ target.isCoHost = false) →
      kickParticipant st sock targetSocketId =
        (st, [⟨.socket sock, .actionError "Cannot kick this participant"⟩])) := by
  have hdeny : ¬ (requester.isHost = true ∧ target.isCoHost = false) →
      kickParticipant st sock targetSocketId =
        (st, [⟨.socket sock, .actionError "Cannot kick this participant"⟩]) := by
    intro hc
    have hif : (!requester.isHost || target.isCoHost) = true := by
      cases hr : requester.isHost <;> cases ht : target.isCoHost <;> simp_all
    unfold kickParticipant
    simp only [h1, h2, h3, h4, hif, if_true]
  have hkick : (requester.isHost = true ∧ target.isCoHost = false) →
      (kickParticipant st sock targetSocketId).1.meetings.get info.meetingId =
        some (meeting.removeParticipant targetSocketId) ∧
      (kickParticipant st sock targetSocketId).1.participants =
        st.participants.delete targetSocketId := by
    rintro ⟨hr, ht⟩
    have hif : (!requester.isHost || target.isCoHost) = false := by simp [hr, ht]
    unfold kickParticipant
    simp only [h1, h2, h3, h4, hif, Bool.false_eq_true, if_false]
    split
    · rw [socketDisconnect_of_absent _ _ (by simp [JMap.get_delete])]
      simp [JMap.get_modify_self, h2]
    · simp [JMap.get_modify_self, h2]
  refine ⟨?_, hkick, hdeny⟩
  by_cases hc : requester.isHost = true ∧ target.isCoHost = false
  · refine ⟨fun _ => hc, fun _ => ⟨_, (hkick hc).1, ?_⟩⟩
    rw [Meeting.removeParticipant_has]; simp
  · refine ⟨?_, fun h => absurd h hc⟩
    rintro ⟨m', hm', hp⟩
    rw [hdeny hc] at hm'
    simp only [h2, Option.some.injEq] at hm'
    rw [← hm', JMap.has_of_get _ _ _ h4] at hp
    exact absurd hp (by simp)

theorem kickParticipant_spec_witness :
    ((kickParticipant sampleServer "h" "a").1.meetings.get "M" =
        some (sampleMeeting.removeParticipant "a") ∧
      (kickParticipant sampleServer "h" "a").1.participants =
        sampleServer.participants.delete "a") ∧
    kickParticipant sampleServer "a" "b" =
      (sampleServer, [⟨.socket "a", .actionError "Cannot kick this participant"⟩]) :=
  ⟨(kickParticipant_spec sampleServer "h" "a" ⟨"M", true⟩ sampleMeeting
      { newParticipant "h" "Host" true 0 with isSpotlighted := true }
      (newParticipant "a" "Ann" false 1)
      (by decide) (by decide) (by decide) (by decide)).2.1 ⟨by decide, by decide⟩,
    (kickParticipant_spec sampleServer "a" "b" ⟨"M", false⟩ sampleMeeting
      (newParticipant "a" "Ann" false 1) (newParticipant "b" "Bob" false 2)
      (by decide) (by decide) (by decide) (by decide)).2.2 (by decide)⟩

/-! ## Kick, host departure and the directories -/

namespace JMap

variable {α : Type}

theorem length_delete_of_nodup (m : JMap α) (k : String) (hn : m.keys.Nodup)
    (hk : m.has k = true) : (m.delete k).length + 1 = m.length := by
  induction m with
  | nil => simp [has] at hk
  | cons e t ih =>
    have hn' : (JMap.keys t).Nodup := by
      simp only [keys, List.map_cons, List.nodup_cons] at hn; exact hn.2
    have hnot : e.1 ∉ JMap.keys t := by
      simp only [keys, List.map_cons, List.nodup_cons] at hn; exact hn.1
    rw [delete_cons]
    by_cases h : e.1 = k
    · rw [if_pos h]
      have hfalse : has t k = false := by
        rw [has_eq_keys]; rw [h] at hnot; simp [hnot]
      have : delete t k = t := by
        unfold delete
        rw [List.filter_eq_self]
        intro a ha
        have := (has_eq_false_iff t k).1 hfalse a ha
        simpa using this
      rw [this]; rfl
    · rw [if_neg h]
      have ht : has t k = true := by
        rw [has_cons] at hk; simpa [h] using hk
      simp only [List.length_cons]
      rw [ih hn' ht]

theorem get_modify_set (m : JMap α) (k : String) (v : α) (f : α → α) :
    JMap.get (JMap.modify (m.set k v) k f) k = some (f v) := by
  rw [get_modify_self, get_set_self]; rfl

end JMap

theorem onDisconnect_sockets (st : ServerState) (sock : String) :
    (onDisconnect st sock).1.sockets = st.sockets := by
  unfold onDisconnect
  split
  · rfl
  · simp only
    split
    · rfl
    · split <;> rfl

theorem onDisconnect_directory (st : ServerState) (sock : String) :
    (onDisconnect st sock).1.participants = st.participants.delete sock := by
  unfold onDisconnect
  split
  · next h =>
    have hf : st.participants.has sock = false := (JMap.get_eq_none_iff _ _).1 h
    have := (JMap.has_eq_false_iff _ _).1 hf
    unfold JMap.delete
    rw [List.filter_eq_self.2]
    intro a ha
    simpa using this a ha
  · simp only
    split
    · rfl
    · split <;> rfl

theorem socketDisconnect_directory (st : ServerState) (sock : String) :
    (socketDisconnect st sock).1.participants = st.participants.delete sock := by
  unfold socketDisconnect
  exact onDisconnect_directory _ _

theorem socketDisconnect_sockets (st : ServerState) (sock : String) :
    (socketDisconnect st sock).1.sockets = st.sockets.filter (fun s => s != sock) := by
  unfold socketDisconnect
  exact onDisconnect_sockets _ _

/-- Closed form of a successful `kick-participant`. -/
theorem kickParticipant_of_allowed (st : ServerState) (sock targetSocketId : String)
    (info : ParticipantInfo) (meeting : Meeting) (requester target : Participant)
    (h1 : st.participants.get sock = some info)
    (h2 : st.meetings.get info.meetingId = some meeting)
    (h3 : meeting.participants.get sock = some requester)
    (h4 : meeting.participants.get targetSocketId = some target)
    (hr : requester.isHost = true) (ht : target.isCoHost = false) :
    kickParticipant st sock targetSocketId =
      ({ meetings :=
           st.meetings.modify info.meetingId (fun _ => meeting.removeParticipant targetSocketId),
         participants := st.participants.delete targetSocketId,
         sockets := st.sockets.filter (fun s => s != targetSocketId) },
        [⟨.room targetSocketId, .kickedFromMeeting⟩,
          ⟨.roomExcept info.meetingId sock,
            .participantKicked targetSocketId
              (JMap.values (meeting.participants.delete targetSocketId))⟩]) := by
  have hif : (!requester.isHost || target.isCoHost) = false := by simp [hr, ht]
  have hroster : (meeting.removeParticipant targetSocketId).participants =
      meeting.participants.delete targetSocketId := by
    unfold Meeting.removeParticipant
    simp only
    split <;> rfl
  unfold kickParticipant
  simp only [h1, h2, h3, h4, hif, Bool.false_eq_true, if_false, hroster]
  split
  · rw [socketDisconnect_of_absent _ _ (by simp [JMap.get_delete])]
    simp
  · next hc =>
    have hnot : targetSocketId ∉ st.sockets := by simpa using hc
    have : st.sockets.filter (fun s => s != targetSocketId) = st.sockets := by
      rw [List.filter_eq_self]
      intro a ha
      have : a ≠ targetSocketId := fun e => hnot (e ▸ ha)
      simpa using this
    rw [this]

theorem Meeting.removeParticipant_gone (m : Meeting) (c : String) :
    (m.removeParticipant c).participants.has c = false ∧
    (m.removeParticipant c).screenShares.has c = false ∧
    c ∉ (m.removeParticipant c).coHosts ∧
    c ∉ (m.removeParticipant c).raisedHands := by
  unfold Meeting.removeParticipant
  by_cases h : m.spotlightedParticipant = some c <;>
    simp [h, JMap.has_delete, JSet.mem_delete]

/-- C11: when the requester is a participant with isHost true and the target
a participant with isCoHost false, kick-participant removes the target from
participants, screenShares, raisedHands and the connection directory, sends
kicked-from-meeting to the target, and emits participant-kicked carrying the
pre-kick roster with the target removed, in the same order and one entry
shorter (one entry when only the host and the target were present). -/
theorem kick_removes_target (st : ServerState) (sock targetSocketId : String)
    (info : ParticipantInfo) (meeting : Meeting) (requester target : Participant)
    (h1 : st.participants.get sock = some info)
    (h2 : st.meetings.get info.meetingId = some meeting)
    (h3 : meeting.participants.get sock = some requester)
    (h4 : meeting.participants.get targetSocketId = some target)
    (hr : requester.isHost = true) (ht : target.isCoHost = false)
    (hn : meeting.participants.keys.Nodup) :
    (kickParticipant st sock targetSocketId).1.meetings.get info.meetingId =
      some (meeting.removeParticipant targetSocketId) ∧
    (meeting.removeParticipant targetSocketId).participants.has targetSocketId = false ∧
    (meeting.removeParticipant targetSocketId).screenShares.has targetSocketId = false ∧
    targetSocketId ∉ (meeting.removeParticipant targetSocketId).raisedHands ∧
    (kickParticipant st sock targetSocketId).1.participants.get targetSocketId = none ∧
    (kickParticipant st sock targetSocketId).2 =
      [⟨.room targetSocketId, .kickedFromMeeting⟩,
        ⟨.roomExcept info.meetingId sock,
          .participantKicked targetSocketId
            ((meeting.participants.filter (fun e => e.1 != targetSocketId)).map Prod.snd)⟩] ∧
    ((meeting.participants.filter (fun e => e.1 != targetSocketId)).map Prod.snd).length + 1 =
      meeting.participants.values.length ∧
    (meeting.participants.values.length = 2 →
      ((meeting.participants.filter (fun e => e.1 != targetSocketId)).map Prod.snd).length = 1) := by
  have hk := kickParticipant_of_allowed st sock targetSocketId info meeting requester target
    h1 h2 h3 h4 hr ht
  have hlen := JMap.length_delete_of_nodup meeting.participants targetSocketId hn
    (JMap.has_of_get _ _ _ h4)
  have hlen' : ((meeting.participants.filter (fun e => e.1 != targetSocketId)).map
      Prod.snd).length + 1 = meeting.participants.values.length := by
    simpa [JMap.delete, JMap.values] using hlen
  obtain ⟨f1, f2, _, f4⟩ := Meeting.removeParticipant_gone meeting targetSocketId
  refine ⟨?_, f1, f2, f4, ?_, ?_, hlen', ?_⟩
  · rw [hk]; simp [JMap.get_modify_self, h2]
  · rw [hk]; simp [JMap.get_delete]
  · rw [hk]; rfl
  · intro h2len; omega

theorem kick_removes_target_witness :
    (kickParticipant duoServer "h" "a").1.meetings.get "M" =
      some (duoMeeting.removeParticipant "a") ∧
    (kickParticipant duoServer "h" "a").1.participants.get "a" = none ∧
    (kickParticipant duoServer "h" "a").2 =
      [⟨.room "a", .kickedFromMeeting⟩,
        ⟨.roomExcept "M" "h",
          .participantKicked "a"
            ((duoMeeting.participants.filter (fun e => e.1 != "a")).map Prod.snd)⟩] ∧
    ((duoMeeting.participants.filter (fun e => e.1 != "a")).map Prod.snd).length = 1 :=
  have h := kick_removes_target duoServer "h" "a" ⟨"M", true⟩ duoMeeting
    { newParticipant "h" "Host" true 0 with isSpotlighted := true }
    (newParticipant "a" "Ann" false 1)
    (by decide) (by decide) (by decide) (by decide) (by decide) (by decide) (by decide)
  ⟨h.1, h.2.2.2.2.1, h.2.2.2.2.2.1, h.2.2.2.2.2.2.2 (by decide)⟩

/-- C12: host departure does not always end the meeting.  A host who kicks
itself is removed from the roster and from the connection directory, its
socket is disconnected, and the meeting stays registered; the same happens
when the host socket has sent join-meeting for its own meeting, or has
created a second meeting, before it disconnects. -/
theorem host_departure_keeps_meeting :
    ((run noTurn ServerState.init
        [("h", .connect), ("h", .joinAsHost "M" "Host" 0), ("h", .kickParticipant "h")]).1.meetings.has
      "M" = true) ∧
    ((run noTurn ServerState.init
        [("h", .connect), ("h", .joinAsHost "M" "Host" 0), ("h", .kickParticipant "h")]).1.sockets =
      []) ∧
    ((run noTurn ServerState.init
        [("h", .connect), ("h", .joinAsHost "M" "Host" 0), ("h", .kickParticipant "h"),
          ("h", .disconnect)]).1.meetings.has "M" = true) ∧
    ((run noTurn ServerState.init
        [("h", .connect), ("h", .joinAsHost "M" "Host" 0), ("h", .joinMeeting "M" "Host" 1),
          ("h", .disconnect)]).1.meetings.has "M" = true) ∧
    ((run noTurn ServerState.init
        [("h", .connect), ("h", .joinAsHost "M" "Host" 0), ("h", .joinAsHost "N" "Host" 1),
          ("h", .disconnect)]).1.meetings.has "M" = true) := by
  decide

/-- C13 does not hold: after the host of `M` disconnects, the entry of guest
`a` still names `M`, which is no longer registered. -/
theorem stale_directory_entry :
    Reachable noTurn endedServer ∧
    endedServer.participants.get "a" = some ⟨"M", false⟩ ∧
    endedServer.meetings.get "M" = none :=
  ⟨⟨endedEvents, rfl⟩, by decide, by decide⟩

/-- C13, amended: each handler maintains the directory entry of the
connection it acts on.  After join-as-host or an admitted join-meeting from
c, the entry of c names a registered meeting that has c among its
participants; after the disconnect of c, and after a successful kick of c, c
has no entry; no action other than join-as-host, join-meeting,
kick-participant and disconnect changes the connection directory.  A
disconnect removes the entry of the disconnecting connection only, so when a
meeting is destroyed by its host's disconnect the entries of its other
participants remain. -/
theorem directory_maintenance (env : TurnEnv) (st : ServerState) (c : String) :
    (∀ (meetingId hostName : String) (now : Nat),
      (joinAsHost st c meetingId hostName now env).1.participants.get c =
        some ⟨meetingId, true⟩ ∧
      ∃ m, (joinAsHost st c meetingId hostName now env).1.meetings.get meetingId = some m ∧
        m.participants.has c = true) ∧
    (∀ (meetingId participantName : String) (now : Nat) (meeting : Meeting),
      st.meetings.get meetingId = some meeting →
      (meeting.isLocked = false ∨ meeting.participants.has c = true) →
      (joinMeeting st c meetingId participantName now).1.participants.get c =
        some ⟨meetingId, false⟩ ∧
      ∃ m, (joinMeeting st c meetingId participantName now).1.meetings.get meetingId = some m ∧
        m.participants.has c = true) ∧
    (socketDisconnect st c).1.participants = st.participants.delete c ∧
    (socketDisconnect st c).1.participants.get c = none ∧
    (∀ k, k ≠ c → (socketDisconnect st c).1.participants.get k = st.participants.get k) ∧
    (∀ (r : String) (info : ParticipantInfo) (meeting : Meeting) (requester target : Participant),
      st.participants.get r = some info → st.meetings.get info.meetingId = some meeting →
      meeting.participants.get r = some requester → meeting.participants.get c = some target →
      requester.isHost = true → target.isCoHost = false →
      (kickParticipant st r c).1.participants.get c = none) ∧
    (∀ a : Action, a.writesDirectory = false →
      (handle env st c a).1.participants = st.participants) := by
  refine ⟨?_, ?_, socketDisconnect_directory st c, ?_, ?_, ?_, ?_⟩
  · intro meetingId hostName now
    unfold joinAsHost
    simp only [JMap.get_set_self, JMap.get_modify_set, true_and]
    exact ⟨_, rfl, by rw [Meeting.addParticipant_has]; simp⟩
  · intro meetingId participantName now meeting hm hc
    have hif : (meeting.isLocked && !meeting.participants.has c) = false := by
      rcases hc with h | h <;> simp [h]
    unfold joinMeeting
    simp only [hm, hif, Bool.false_eq_true, if_false, JMap.get_modify_self, Option.map_some',
      JMap.get_set_self, true_and]
    exact ⟨_, rfl, by rw [Meeting.addParticipant_has]; simp⟩
  · rw [socketDisconnect_directory, JMap.get_delete]; simp
  · intro k hk
    rw [socketDisconnect_directory, JMap.get_delete]; simp [hk]
  · intro r info meeting requester target h1 h2 h3 h4 hr ht
    rw [kickParticipant_of_allowed st r c info meeting requester target h1 h2 h3 h4 hr ht]
    simp [JMap.get_delete]
  · intro a ha
    cases a <;> simp only [Action.writesDirectory] at ha <;>
      simp only [handle, connect, toggleMeetingLock, updateMeetingPermissions, participantReady,
        connectionStateChange, relayOffer, relayAnswer, relayIceCandidate, connectionFailed,
        onAudioLevel, sendReaction, onRaiseHand, onLowerHand, startScreenShare, stopScreenShare,
        onSpotlightParticipant, onRemoveSpotlight, pinParticipant, muteParticipant, makeCohost,
        toggleMic, toggleCamera] <;>
      (repeat' split) <;> first | rfl | exact absurd ha (by simp)

theorem directory_maintenance_witness :
    ((joinMeeting sampleServer "carol" "M" "Carol" 3).1.participants.get "carol" =
        some ⟨"M", false⟩ ∧
      ∃ m, (joinMeeting sampleServer "carol" "M" "Carol" 3).1.meetings.get "M" = some m ∧
        m.participants.has "carol" = true) ∧
    (socketDisconnect sampleServer "carol").1.participants.get "a" =
      sampleServer.participants.get "a" ∧
    (kickParticipant duoServer "h" "a").1.participants.get "a" = none ∧
    (handle noTurn sampleServer "a" .raiseHand).1.participants = sampleServer.participants :=
  ⟨(directory_maintenance noTurn sampleServer "carol").2.1 "M" "Carol" 3 sampleMeeting
      (by decide) (Or.inl (by decide)),
    (directory_maintenance noTurn sampleServer "carol").2.2.2.2.1 "a" (by decide),
    (directory_maintenance noTurn duoServer "a").2.2.2.2.2.1 "h" ⟨"M", true⟩ duoMeeting
      { newParticipant "h" "Host" true 0 with isSpotlighted := true }
      (newParticipant "a" "Ann" false 1)
      (by decide) (by decide) (by decide) (by decide) (by decide) (by decide),
    (directory_maintenance noTurn sampleServer "a").2.2.2.2.2.2 .raiseHand (by decide)⟩

/-- C14 does not hold: on the server whose host has left, the guest `a` still
has an entry naming the destroyed meeting, and its toggle-meeting-lock,
spotlight-participant and make-cohost each emit action-error. -/
theorem stale_action_emits_error :
    endedServer.participants.get "a" = some ⟨"M", false⟩ ∧
    endedServer.meetings.get "M" = none ∧
    handle noTurn endedServer "a" (.toggleMeetingLock true) =
      (endedServer, [⟨.socket "a", .actionError "Only host can lock/unlock the meeting"⟩]) ∧
    handle noTurn endedServer "a" (.spotlightParticipant "a") =
      (endedServer, [⟨.socket "a", .actionError "Insufficient permissions"⟩]) ∧
    handle noTurn endedServer "a" (.makeCohost "a") =
      (endedServer, [⟨.socket "a", .actionError "Only host can make co-hosts"⟩]) := by
  decide

/-- C14, amended: for every connection whose directory entry names a meeting
id that is no longer registered, no meeting-scoped action changes the state;
participant-ready, connection-state-change, audio-level, send-reaction,
raise-hand, lower-hand, start/stop-screen-share, kick-participant, toggle-mic
and toggle-camera emit no notification, while toggle-meeting-lock,
update-meeting-permissions, spotlight-participant, remove-spotlight,
mute-participant and make-cohost emit exactly one notification, action-error
to the requester. -/
theorem stale_meeting_actions (env : TurnEnv) (st : ServerState) (c : String)
    (info : ParticipantInfo) (h1 : st.participants.get c = some info)
    (h2 : st.meetings.get info.meetingId = none) (a : Action) :
    (a.memberScoped = true → handle env st c a = (st, [])) ∧
    (a.hostGated = true →
      ∃ message, handle env st c a = (st, [⟨.socket c, .actionError message⟩])) := by
  constructor
  · intro ha
    cases a <;> simp only [Action.memberScoped, Bool.false_eq_true] at ha <;>
      simp only [handle, participantReady, connectionStateChange, onAudioLevel, sendReaction,
        onRaiseHand, onLowerHand, startScreenShare, stopScreenShare, kickParticipant,
        toggleMic, toggleCamera, h1, h2]
  · intro ha
    cases a <;> simp only [Action.hostGated, Bool.false_eq_true] at ha <;>
      exact ⟨_, by
        simp only [handle, toggleMeetingLock, updateMeetingPermissions,
          onSpotlightParticipant, onRemoveSpotlight, muteParticipant, makeCohost, h1, h2]
        rfl⟩

theorem stale_meeting_actions_witness :
    handle noTurn endedServer "a" .raiseHand = (endedServer, []) ∧
    ∃ message, handle noTurn endedServer "a" .removeSpotlight =
      (endedServer, [⟨.socket "a", .actionError message⟩]) :=
  ⟨(stale_meeting_actions noTurn endedServer "a" ⟨"M", false⟩ (by decide) (by decide)
      .raiseHand).1 (by decide),
    (stale_meeting_actions noTurn endedServer "a" ⟨"M", false⟩ (by decide) (by decide)
      .removeSpotlight).2 (by decide)⟩

/-- C15: disconnect is an idempotent leave.  Handling the disconnect of c a
second time, or after c has been removed by kick-participant, leaves the
whole server state (meeting directory, every meeting, connection directory)
unchanged and emits no notification. -/
theorem disconnect_idempotent (st : ServerState) (c : String) :
    socketDisconnect (socketDisconnect st c).1 c = ((socketDisconnect st c).1, []) ∧
    (∀ (r : String) (info : ParticipantInfo) (meeting : Meeting) (requester target : Participant),
      st.participants.get r = some info → st.meetings.get info.meetingId = some meeting →
      meeting.participants.get r = some requester → meeting.participants.get c = some target →
      requester.isHost = true → target.isCoHost = false →
      socketDisconnect (kickParticipant st r c).1 c = ((kickParticipant st r c).1, [])) := by
  have key : ∀ s : ServerState, s.participants.get c = none →
      s.sockets.filter (fun x => x != c) = s.sockets →
      socketDisconnect s c = (s, []) := by
    intro s hs hf
    rw [socketDisconnect_of_absent s c hs, hf]
  constructor
  · apply key
    · rw [socketDisconnect_directory, JMap.get_delete]; simp
    · rw [socketDisconnect_sockets, List.filter_filter]; simp
  · intro r info meeting requester target h1 h2 h3 h4 hr ht
    rw [kickParticipant_of_allowed st r c info meeting requester target h1 h2 h3 h4 hr ht]
    apply key
    · simp [JMap.get_delete]
    · simp only [List.filter_filter]; simp

theorem disconnect_idempotent_witness :
    socketDisconnect (kickParticipant duoServer "h" "a").1 "a" =
      ((kickParticipant duoServer "h" "a").1, []) :=
  (disconnect_idempotent duoServer "a").2 "h" ⟨"M", true⟩ duoMeeting
    { newParticipant "h" "Host" true 0 with isSpotlighted := true }
    (newParticipant "a" "Ann" false 1)
    (by decide) (by decide) (by decide) (by decide) (by decide) (by decide)

/-- C18: for offer, answer and ice-candidate from any connection s, with any
target and payload, the handler emits exactly one notification, addressed to
the named target, with the same event name, the inbound payload and sender s,
and leaves the server state unchanged. -/
theorem relay_verbatim (env : TurnEnv) (st : ServerState) (s target payload : String) :
    handle env st s (.offer target payload) =
      (st, [⟨.roomExcept target s, .offer payload s⟩]) ∧
    handle env st s (.answer target payload) =
      (st, [⟨.roomExcept target s, .answer payload s⟩]) ∧
    handle env st s (.iceCandidate target payload) =
      (st, [⟨.roomExcept target s, .iceCandidate payload s⟩]) :=
  ⟨rfl, rfl, rfl⟩

/-- C19: after updatePermissions(p) each of chatEnabled, fileSharing and
emojiReactions that is a key of p has the value given in p, each that is not
a key of p keeps its prior value, updatePermissions of the empty object
changes nothing, and nothing but permissions changes. -/
theorem updatePermissions_merge (m : Meeting) (p : PermissionsPatch) :
    (∀ b, p.chatEnabled = some b → (m.updatePermissions p).permissions.chatEnabled = b) ∧
    (∀ b, p.fileSharing = some b → (m.updatePermissions p).permissions.fileSharing = b) ∧
    (∀ b, p.emojiReactions = some b → (m.updatePermissions p).permissions.emojiReactions = b) ∧
    (p.chatEnabled = none →
      (m.updatePermissions p).permissions.chatEnabled = m.permissions.chatEnabled) ∧
    (p.fileSharing = none →
      (m.updatePermissions p).permissions.fileSharing = m.permissions.fileSharing) ∧
    (p.emojiReactions = none →
      (m.updatePermissions p).permissions.emojiReactions = m.permissions.emojiReactions) ∧
    m.updatePermissions ⟨none, none, none⟩ = m ∧
    { m.updatePermissions p with permissions := m.permissions } = m := by
  unfold Meeting.updatePermissions
  refine ⟨?_, ?_, ?_, ?_, ?_, ?_, rfl, rfl⟩ <;> intro h <;> simp_all

theorem updatePermissions_merge_witness :
    (sampleMeeting.updatePermissions ⟨none, some false, none⟩).permissions.fileSharing = false ∧
    (sampleMeeting.updatePermissions ⟨none, some false, none⟩).permissions.chatEnabled =
      sampleMeeting.permissions.chatEnabled ∧
    (sampleMeeting.updatePermissions ⟨some false, none, some false⟩).permissions.chatEnabled =
      false ∧
    (sampleMeeting.updatePermissions ⟨some false, none, some false⟩).permissions.emojiReactions =
      false ∧
    (sampleMeeting.updatePermissions ⟨some false, none, some false⟩).permissions.fileSharing =
      sampleMeeting.permissions.fileSharing ∧
    (sampleMeeting.updatePermissions ⟨none, some false, none⟩).permissions.emojiReactions =
      sampleMeeting.permissions.emojiReactions :=
  ⟨(updatePermissions_merge sampleMeeting ⟨none, some false, none⟩).2.1 false rfl,
    (updatePermissions_merge sampleMeeting ⟨none, some false, none⟩).2.2.2.1 rfl,
    (updatePermissions_merge sampleMeeting ⟨some false, none, some false⟩).1 false rfl,
    (updatePermissions_merge sampleMeeting ⟨some false, none, some false⟩).2.2.1 false rfl,
    (updatePermissions_merge sampleMeeting ⟨some false, none, some false⟩).2.2.2.2.1 rfl,
    (updatePermissions_merge sampleMeeting ⟨none, some false, none⟩).2.2.2.2.2.1 rfl⟩

/-- C20: in a meeting whose permissions.emojiReactions is false, raise-hand
from a member c emits only action-error to c and leaves the server state,
hence raisedHands and every handRaised flag, unchanged. -/
theorem raiseHand_disabled (env : TurnEnv) (st : ServerState) (c : String)
    (info : ParticipantInfo) (meeting : Meeting)
    (h1 : st.participants.get c = some info)
    (h2 : st.meetings.get info.meetingId = some meeting)
    (h3 : meeting.permissions.emojiReactions = false) :
    handle env st c .raiseHand =
      (st, [⟨.socket c, .actionError "Hand raising is disabled by the host"⟩]) := by
  simp only [handle, onRaiseHand, h1, h2, h3, Bool.not_false, if_true]

/-! ## Readiness pairing -/

theorem modify_markReady (S : List String) (y : String) (l : JMap Participant) :
    JMap.modify (markReady S l) y (fun p => { p with isReady := true, connectionState := "ready" }) =
      markReady (y :: S) l := by
  unfold markReady JMap.modify
  rw [List.map_map]
  apply List.map_congr_left
  intro e _
  obtain ⟨k, p⟩ := e
  simp only [Function.comp, List.mem_cons]
  by_cases h2 : k = y
  · subst h2
    by_cases h1 : k ∈ S
    · simp [h1, Participant.markReady]
    · simp [h1, Participant.markReady]
  · by_cases h1 : k ∈ S
    · simp [h1, h2, Participant.markReady]
    · simp [h1, h2]

theorem flatMap_filter_map_congr {α β γ δ : Type} (g : α → β) (f : α → γ) (p : β → Bool)
    (q : γ → Bool) (H : β → List δ) (K : γ → List δ) (l : List α)
    (hq : ∀ e ∈ l, p (g e) = q (f e))
    (hH : ∀ e ∈ l, q (f e) = true → H (g e) = K (f e)) :
    ((l.map g).filter p).flatMap H = ((l.map f).filter q).flatMap K := by
  induction l with
  | nil => rfl
  | cons e t ih =>
    have ih' := ih (fun e' he' => hq e' (List.mem_cons_of_mem _ he'))
      (fun e' he' => hH e' (List.mem_cons_of_mem _ he'))
    have h1 := hq e (List.mem_cons_self _ _)
    have h2 := hH e (List.mem_cons_self _ _)
    cases hp : q (f e) with
    | false =>
      rw [hp] at h1
      simp only [List.map_cons, List.filter_cons, h1, hp, Bool.false_eq_true, if_false]
      exact ih'
    | true =>
      rw [hp] at h1
      simp only [List.map_cons, List.filter_cons, h1, hp, if_true, List.flatMap_cons]
      rw [ih', h2 hp]

theorem ready_emit (y : String) (iceServers : List IceServer) (S : List String)
    (l : JMap Participant) (hid : ∀ e ∈ l, e.2.socketId = e.1)
    (hnr : ∀ e ∈ l, e.2.isReady = false) :
    (((JMap.values (markReady (y :: S) l)).filter (fun p => p.isReady)).filter
        (fun participant => participant.socketId != y)).flatMap (initiatePair y iceServers) =
      emitFor (JMap.keys l) iceServers S y := by
  unfold emitFor JMap.values JMap.keys markReady
  rw [List.map_map, List.filter_filter]
  apply flatMap_filter_map_congr
  · intro e he
    have h1 := hid e he
    have h2 := hnr e he
    simp only [Function.comp, List.mem_cons]
    by_cases hy : e.1 = y
    · simp [hy, Participant.markReady, h1]
    · by_cases hS : e.1 ∈ S
      · simp [hy, hS, Participant.markReady, h1]
      · simp [hy, hS, h2]
  · intro e he hq
    have h1 := hid e he
    simp only [Bool.and_eq_true, decide_eq_true_eq] at hq
    simp [Function.comp, hq.1, Participant.markReady, initiatePair, initiateFor, h1]

theorem run_readyAnnouncements (env : TurnEnv) (l : JMap Participant) (meetingId : String)
    (hid : ∀ e ∈ l, e.2.socketId = e.1) (hnr : ∀ e ∈ l, e.2.isReady = false) :
    ∀ (order S : List String) (st : ServerState) (m : Meeting),
      st.meetings.get meetingId = some m → m.participants = markReady S l →
      (∀ c ∈ order, (st.participants.get c).map (·.meetingId) = some meetingId) →
      (run env st (readyAnnouncements order)).2 =
        readyOut (JMap.keys l) m.iceServers S order := by
  intro order
  induction order with
  | nil => intro S st m _ _ _; rfl
  | cons y rest ih =>
    intro S st m hm hp hdir
    have hy := hdir y (List.mem_cons_self _ _)
    obtain ⟨info, hinfo, hmid⟩ : ∃ info, st.participants.get y = some info ∧
        info.meetingId = meetingId := by
      cases h : st.participants.get y with
      | none => rw [h] at hy; simp at hy
      | some info => rw [h] at hy; exact ⟨info, rfl, by simpa using hy⟩
    have hstep : participantReady st y =
        ({ st with
            meetings := st.meetings.modify meetingId (fun _ => m.setParticipantReady y) },
          emitFor (JMap.keys l) m.iceServers S y) := by
      unfold participantReady
      simp only [hinfo, hmid, hm]
      congr 1
      have := ready_emit y m.iceServers S l hid hnr
      rw [← this, ← modify_markReady, ← hp]
      rfl
    simp only [readyAnnouncements, List.map_cons, run, handle, readyOut]
    rw [hstep]
    simp only
    congr 1
    have := ih (y :: S)
      { st with meetings := st.meetings.modify meetingId (fun _ => m.setParticipantReady y) }
      (m.setParticipantReady y)
      (by simp [JMap.get_modify_self, hm])
      (by rw [← modify_markReady, ← hp]; rfl)
      (fun c hc => hdir c (List.mem_cons_of_mem _ hc))
    simpa [readyAnnouncements, Meeting.setParticipantReady] using this

theorem filter_pair_initiateFor (x y z k : String) (iceServers : List IceServer) :
    (initiateFor z iceServers k).filter (isPairInstruction x y) =
      if ((k == x && z == y) || (k == y && z == x)) = true then initiateFor z iceServers k
      else [] := by
  by_cases h1 : k = x <;> by_cases h2 : z = y <;> by_cases h3 : k = y <;> by_cases h4 : z = x <;>
    simp [initiateFor, isPairInstruction, Address.name, List.filter_cons, h1, h2, h3, h4] <;>
    split_ifs <;> simp_all

theorem filter_pair_emitFor (x y z : String) (roster S : List String)
    (iceServers : List IceServer) :
    (emitFor roster iceServers S z).filter (isPairInstruction x y) =
      (roster.filter (fun k => (decide (k ∈ S) && k != z) &&
        ((k == x && z == y) || (k == y && z == x)))).flatMap (initiateFor z iceServers) := by
  unfold emitFor
  induction roster with
  | nil => rfl
  | cons k t ih =>
    cases c1 : (decide (k ∈ S) && k != z) <;>
      cases c2 : ((k == x && z == y) || (k == y && z == x))
    · simp only [List.filter_cons, c1, c2, Bool.false_eq_true, if_false, Bool.and_self]
      exact ih
    · simp only [List.filter_cons, c1, c2, Bool.false_eq_true, if_false, Bool.false_and]
      exact ih
    · simp only [List.filter_cons, c1, c2, Bool.false_eq_true, if_false, if_true,
        Bool.and_false, List.flatMap_cons, List.filter_append, filter_pair_initiateFor,
        List.nil_append]
      exact ih
    · simp only [List.filter_cons, c1, c2, if_true, Bool.and_self, List.flatMap_cons,
        List.filter_append, filter_pair_initiateFor]
      rw [ih]

/-- An announcement by a socket outside the pair adds no instruction for the pair. -/
theorem pair_emitFor_other (x y z : String) (roster S : List String)
    (iceServers : List IceServer) (hx : z ≠ x) (hy : z ≠ y) :
    (emitFor roster iceServers S z).filter (isPairInstruction x y) = [] := by
  rw [filter_pair_emitFor]
  have : roster.filter (fun k => (decide (k ∈ S) && k != z) &&
      ((k == x && z == y) || (k == y && z == x))) = [] := by
    rw [List.filter_eq_nil_iff]
    intro k _
    simp [hx, hy]
  rw [this]; rfl

/-- An announcement by `x` while `y` is not ready adds no instruction for the pair. -/
theorem pair_emitFor_absent (x y : String) (roster S : List String)
    (iceServers : List IceServer) (hy : y ∉ S) :
    (emitFor roster iceServers S x).filter (isPairInstruction x y) = [] := by
  rw [filter_pair_emitFor]
  have : roster.filter (fun k => (decide (k ∈ S) && k != x) &&
      ((k == x && x == y) || (k == y && x == x))) = [] := by
    rw [List.filter_eq_nil_iff]
    intro k _
    by_cases hk : k = y
    · subst hk; simp [hy]
    · by_cases hkx : k = x
      · simp [hkx]
      · simp [hk, hkx]
  rw [this]; rfl

/-- An announcement by `y` while `x` is ready adds exactly the two instructions
of the pair. -/
theorem pair_emitFor_present (x y : String) (roster S : List String)
    (iceServers : List IceServer) (hxy : x ≠ y) (hS : x ∈ S) (hr : x ∈ roster)
    (hn : roster.Nodup) :
    (emitFor roster iceServers S y).filter (isPairInstruction x y) =
      [⟨.room x, .initiateConnection y true iceServers⟩,
        ⟨.socket y, .initiateConnection x false iceServers⟩] := by
  rw [filter_pair_emitFor]
  have : roster.filter (fun k => (decide (k ∈ S) && k != y) &&
      ((k == x && y == y) || (k == y && y == x))) = roster.filter (fun k => k == x) := by
    apply List.filter_congr
    intro k _
    by_cases hk : k = x
    · subst hk; simp [hS, hxy]
    · have hb : (k == x) = false := by simpa using hk
      have hb' : (y == x) = false := by simpa using fun e : y = x => hxy e.symm
      simp [hb, hb']
  rw [this, List.filter_beq, List.count_eq_one_of_mem hn hr]
  rfl

theorem pair_readyOut_none (x y : String) (roster : List String)
    (iceServers : List IceServer) :
    ∀ (order S : List String), x ∉ order → y ∉ order →
      (readyOut roster iceServers S order).filter (isPairInstruction x y) = [] := by
  intro order
  induction order with
  | nil => intro S _ _; rfl
  | cons z rest ih =>
    intro S hx hy
    have hzx : z ≠ x := fun e => hx (e ▸ List.mem_cons_self _ _)
    have hzy : z ≠ y := fun e => hy (e ▸ List.mem_cons_self _ _)
    simp only [readyOut, List.filter_append,
      pair_emitFor_other x y z roster S iceServers hzx hzy, List.nil_append]
    exact ih (z :: S) (fun h => hx (List.mem_cons_of_mem _ h))
      (fun h => hy (List.mem_cons_of_mem _ h))

theorem pair_readyOut_later (x y : String) (roster : List String)
    (iceServers : List IceServer) (hxy : x ≠ y) (hr : x ∈ roster) (hn : roster.Nodup) :
    ∀ (order S : List String) (j : Nat), order[j]? = some y → order.Nodup → x ∉ order →
      x ∈ S →
      (readyOut roster iceServers S order).filter (isPairInstruction x y) =
        [⟨.room x, .initiateConnection y true iceServers⟩,
          ⟨.socket y, .initiateConnection x false iceServers⟩] := by
  intro order
  induction order with
  | nil => intro S j hj; simp at hj
  | cons z rest ih =>
    intro S j hj hnd hx hS
    have hnd' : rest.Nodup := (List.nodup_cons.1 hnd).2
    have hzrest : z ∉ rest := (List.nodup_cons.1 hnd).1
    have hxrest : x ∉ rest := fun h => hx (List.mem_cons_of_mem _ h)
    have hzx : z ≠ x := fun e => hx (e ▸ List.mem_cons_self _ _)
    cases j with
    | zero =>
      have hz : z = y := by simpa using hj
      subst hz
      simp only [readyOut, List.filter_append,
        pair_emitFor_present x z roster S iceServers hxy hS hr hn,
        pair_readyOut_none x z roster iceServers rest (z :: S) hxrest hzrest, List.append_nil]
    | succ j' =>
      have hj' : rest[j']? = some y := by simpa using hj
      have hy : y ∈ rest := List.getElem?_mem hj'
      have hzy : z ≠ y := fun e => hzrest (e ▸ hy)
      simp only [readyOut, List.filter_append,
        pair_emitFor_other x y z roster S iceServers hzx hzy, List.nil_append]
      exact ih (z :: S) j' hj' hnd' hxrest (List.mem_cons_of_mem _ hS)

/-- Instructions for the pair of `x` and `y` when `x` announces before `y`. -/
theorem pair_readyOut (x y : String) (roster : List String)
    (iceServers : List IceServer) (hr : x ∈ roster) (hn : roster.Nodup) :
    ∀ (order S : List String) (i j : Nat), i < j → order[i]? = some x → order[j]? = some y →
      order.Nodup → y ∉ S →
      (readyOut roster iceServers S order).filter (isPairInstruction x y) =
        [⟨.room x, .initiateConnection y true iceServers⟩,
          ⟨.socket y, .initiateConnection x false iceServers⟩] := by
  intro order
  induction order with
  | nil => intro S i j _ hi; simp at hi
  | cons z rest ih =>
    intro S i j hij hi hj hnd hyS
    have hnd' : rest.Nodup := (List.nodup_cons.1 hnd).2
    have hzrest : z ∉ rest := (List.nodup_cons.1 hnd).1
    obtain ⟨j', rfl⟩ : ∃ j', j = j' + 1 := ⟨j - 1, by omega⟩
    have hj' : rest[j']? = some y := by simpa using hj
    have hy : y ∈ rest := List.getElem?_mem hj'
    have hzy : z ≠ y := fun e => hzrest (e ▸ hy)
    cases i with
    | zero =>
      have hz : z = x := by simpa using hi
      subst hz
      simp only [readyOut, List.filter_append,
        pair_emitFor_absent z y roster S iceServers hyS, List.nil_append]
      exact pair_readyOut_later z y roster iceServers hzy hr hn rest (z :: S) j' hj' hnd'
        hzrest (List.mem_cons_self _ _)
    | succ i' =>
      have hi' : rest[i']? = some x := by simpa using hi
      have hx : x ∈ rest := List.getElem?_mem hi'
      have hzx : z ≠ x := fun e => hzrest (e ▸ hx)
      simp only [readyOut, List.filter_append,
        pair_emitFor_other x y z roster S iceServers hzx hzy, List.nil_append]
      exact ih (z :: S) i' j' (by omega) hi' hj' hnd'
        (fun h => by
          rcases List.mem_cons.1 h with h | h
          · exact hzy h.symm
          · exact hyS h)

theorem length_initiateFor (z k : String) (iceServers : List IceServer) :
    (initiateFor z iceServers k).length = 2 ∧
    ((initiateFor z iceServers k).filter isOffer).length = 1 := by
  simp [initiateFor, isOffer, List.filter_cons]

theorem length_emitFor (roster S : List String) (z : String) (iceServers : List IceServer) :
    (emitFor roster iceServers S z).length =
      2 * (roster.filter (fun k => decide (k ∈ S) && k != z)).length ∧
    ((emitFor roster iceServers S z).filter isOffer).length =
      (roster.filter (fun k => decide (k ∈ S) && k != z)).length := by
  unfold emitFor
  induction (roster.filter (fun k => decide (k ∈ S) && k != z)) with
  | nil => simp
  | cons k t ih =>
    simp only [List.flatMap_cons, List.length_append, List.filter_append, List.length_cons,
      (length_initiateFor z k iceServers).1, (length_initiateFor z k iceServers).2, ih.1, ih.2]
    omega

theorem length_filter_mem (roster S : List String) (z : String) (hn : roster.Nodup)
    (hS : S.Nodup) (hsub : ∀ k ∈ S, k ∈ roster) (hz : z ∉ S) :
    (roster.filter (fun k => decide (k ∈ S) && k != z)).length = S.length := by
  have h1 : roster.filter (fun k => decide (k ∈ S) && k != z) =
      roster.filter (fun k => decide (k ∈ S)) := by
    apply List.filter_congr
    intro k _
    by_cases hk : k ∈ S
    · have : k ≠ z := fun e => hz (e ▸ hk)
      simp [hk, this]
    · simp [hk]
  rw [h1]
  apply List.Perm.length_eq
  rw [List.perm_ext_iff_of_nodup (hn.filter _) hS]
  intro a
  simp only [List.mem_filter, decide_eq_true_eq]
  exact ⟨fun h => h.2, fun h => ⟨hsub a h, h⟩⟩

theorem length_readyOut (roster : List String) (iceServers : List IceServer)
    (hn : roster.Nodup) :
    ∀ (order S : List String), (S ++ order).Nodup → (∀ k ∈ S ++ order, k ∈ roster) →
      (readyOut roster iceServers S order).length + order.length =
        2 * S.length * order.length + order.length * order.length ∧
      2 * ((readyOut roster iceServers S order).filter isOffer).length =
        (readyOut roster iceServers S order).length := by
  intro order
  induction order with
  | nil => intro S _ _; simp [readyOut]
  | cons z rest ih =>
    intro S hnd hsub
    have hS : S.Nodup := (List.nodup_append.1 hnd).1
    have hzS : z ∉ S := by
      intro h
      exact (List.nodup_append.1 hnd).2.2 h (List.mem_cons_self _ _)
    have hlen := length_filter_mem roster S z hn hS
      (fun k hk => hsub k (List.mem_append_left _ hk)) hzS
    have hnd' : ((z :: S) ++ rest).Nodup := by
      have : (S ++ z :: rest).Perm ((z :: S) ++ rest) := by
        simp
      exact this.nodup_iff.1 hnd
    have hsub' : ∀ k ∈ (z :: S) ++ rest, k ∈ roster := by
      intro k hk
      apply hsub
      simp only [List.cons_append, List.mem_cons, List.mem_append] at hk ⊢
      tauto
    obtain ⟨ih1, ih2⟩ := ih (z :: S) hnd' hsub'
    obtain ⟨e1, e2⟩ := length_emitFor roster S z iceServers
    rw [hlen] at e1 e2
    simp only [readyOut, List.length_append, List.filter_append, List.length_cons, e1, e2]
      at ih1 ih2 ⊢
    constructor
    · nlinarith [ih1]
    · omega

theorem markReady_nil (l : JMap Participant) : markReady [] l = l := by
  simp [markReady]

/-- Instructions emitted by a run of announcements on a meeting in which
nobody is ready. -/
theorem run_ready_eq (env : TurnEnv) (st : ServerState) (meetingId : String)
    (meeting : Meeting) (order : List String)
    (hm : st.meetings.get meetingId = some meeting)
    (hdir : ∀ c ∈ order, (st.participants.get c).map (·.meetingId) = some meetingId)
    (hid : ∀ e ∈ meeting.participants, e.2.socketId = e.1)
    (hnr : ∀ e ∈ meeting.participants, e.2.isReady = false) :
    (run env st (readyAnnouncements order)).2 =
      readyOut meeting.participants.keys meeting.iceServers [] order :=
  run_readyAnnouncements env meeting.participants meetingId hid hnr order [] st meeting hm
    (markReady_nil _).symm hdir

/-- C16: in a meeting with n participants none of whom is ready, when each
participant announces participant-ready exactly once, in any order, then for
every pair exactly two initiate-connection instructions are emitted, one to
each side, and exactly one of them has shouldCreateOffer true: the one sent
to the participant that became ready earlier, targeting the later one.  In
total n(n-1) instructions are emitted, n(n-1)/2 of them offers. -/
theorem ready_pairing (env : TurnEnv) (st : ServerState) (meetingId : String)
    (meeting : Meeting) (order : List String)
    (hm : st.meetings.get meetingId = some meeting)
    (hdir : ∀ c ∈ order, (st.participants.get c).map (·.meetingId) = some meetingId)
    (hperm : order.Perm meeting.participants.keys)
    (hn : meeting.participants.keys.Nodup)
    (hid : ∀ e ∈ meeting.participants, e.2.socketId = e.1)
    (hnr : ∀ e ∈ meeting.participants, e.2.isReady = false) :
    (∀ (i j : Nat) (x y : String), i < j → order[i]? = some x → order[j]? = some y →
      (run env st (readyAnnouncements order)).2.filter (isPairInstruction x y) =
        [⟨.room x, .initiateConnection y true meeting.iceServers⟩,
          ⟨.socket y, .initiateConnection x false meeting.iceServers⟩]) ∧
    ((run env st (readyAnnouncements order)).2.filter isOffer).length =
      order.length * (order.length - 1) / 2 ∧
    (run env st (readyAnnouncements order)).2.length = order.length * (order.length - 1) := by
  rw [run_ready_eq env st meetingId meeting order hm hdir hid hnr]
  have hnd : order.Nodup := hperm.nodup_iff.2 hn
  have hmem : ∀ k ∈ order, k ∈ meeting.participants.keys := fun k hk => hperm.subset hk
  obtain ⟨l1, l2⟩ := length_readyOut meeting.participants.keys meeting.iceServers hn order []
    (by simpa using hnd) (by simpa using hmem)
  have hmul : order.length * (order.length - 1) = order.length * order.length - order.length :=
    Nat.mul_sub_one _ _
  simp only [List.length_nil, Nat.mul_zero, Nat.zero_mul, Nat.zero_add] at l1
  refine ⟨?_, ?_, ?_⟩
  · intro i j x y hij hi hj
    exact pair_readyOut x y meeting.participants.keys meeting.iceServers
      (hmem x (List.getElem?_mem hi)) hn order [] i j hij hi hj hnd (by simp)
  · omega
  · omega

theorem ready_pairing_witness :
    (run noTurn sampleServer (readyAnnouncements ["a", "b", "h"])).2.filter
        (isPairInstruction "a" "h") =
      [⟨.room "a", .initiateConnection "h" true sampleMeeting.iceServers⟩,
        ⟨.socket "h", .initiateConnection "a" false sampleMeeting.iceServers⟩] :=
  (ready_pairing noTurn sampleServer "M" sampleMeeting ["a", "b", "h"]
    (by decide) (by decide) (by decide) (by decide) (by decide) (by decide)).1
    0 2 "a" "h" (by decide) (by decide) (by decide)

/-- C17 does not hold: when `a` announces readiness again after `b`, a second
offer is emitted for the pair of `a` and `b`. -/
theorem repeated_ready_second_offer :
    (run noTurn sampleServer (readyAnnouncements ["a", "b", "a"])).2.filter
        (fun n => isPairInstruction "a" "b" n && isOffer n) =
      [⟨.room "a", .initiateConnection "b" true sampleMeeting.iceServers⟩,
        ⟨.room "b", .initiateConnection "a" true sampleMeeting.iceServers⟩] := by
  decide

/-- C17, amended: for every sequence of participant-ready announcements by
members of one meeting in which nobody was ready and no member announces
twice, each pair of announcing members triggers exactly one offer: exactly
one initiate-connection with shouldCreateOffer true is emitted for the pair,
to the member that announced first. -/
theorem ready_once_single_offer (env : TurnEnv) (st : ServerState) (meetingId : String)
    (meeting : Meeting) (order : List String)
    (hm : st.meetings.get meetingId = some meeting)
    (hdir : ∀ c ∈ order, (st.participants.get c).map (·.meetingId) = some meetingId)
    (hnd : order.Nodup)
    (hmem : ∀ c ∈ order, c ∈ meeting.participants.keys)
    (hn : meeting.participants.keys.Nodup)
    (hid : ∀ e ∈ meeting.participants, e.2.socketId = e.1)
    (hnr : ∀ e ∈ meeting.participants, e.2.isReady = false) :
    ∀ (i j : Nat) (x y : String), i < j → order[i]? = some x → order[j]? = some y →
      (run env st (readyAnnouncements order)).2.filter
          (fun n => isPairInstruction x y n && isOffer n) =
        [⟨.room x, .initiateConnection y true meeting.iceServers⟩] := by
  intro i j x y hij hi hj
  rw [run_ready_eq env st meetingId meeting order hm hdir hid hnr]
  have h := pair_readyOut x y meeting.participants.keys meeting.iceServers
    (hmem x (List.getElem?_mem hi)) hn order [] i j hij hi hj hnd (by simp)
  have hf : (readyOut meeting.participants.keys meeting.iceServers [] order).filter
      (fun n => isPairInstruction x y n && isOffer n) =
      ((readyOut meeting.participants.keys meeting.iceServers [] order).filter
        (isPairInstruction x y)).filter isOffer := by
    rw [List.filter_filter]
    apply List.filter_congr
    intro n _
    exact Bool.and_comm _ _
  rw [hf, h]
  simp [List.filter_cons, isOffer]

theorem ready_once_single_offer_witness :
    (run noTurn sampleServer (readyAnnouncements ["b", "a"])).2.filter
        (fun n => isPairInstruction "b" "a" n && isOffer n) =
      [⟨.room "b", .initiateConnection "a" true sampleMeeting.iceServers⟩] :=
  ready_once_single_offer noTurn sampleServer "M" sampleMeeting ["b", "a"]
    (by decide) (by decide) (by decide) (by decide) (by decide) (by decide) (by decide)
    0 1 "b" "a" (by decide) (by decide) (by decide)

theorem raiseHand_disabled_witness :
    handle noTurn reactionsOffServer "a" .raiseHand =
      (reactionsOffServer, [⟨.socket "a", .actionError "Hand raising is disabled by the host"⟩]) :=
  raiseHand_disabled noTurn reactionsOffServer "a" ⟨"M", false⟩
    (duoMeeting.updatePermissions ⟨none, none, some false⟩) (by decide) (by decide) (by decide)

/-- A disconnect of a connection whose directory entry carries isHost true
leaves the meeting it names unregistered. -/
theorem host_disconnect_unregisters (st : ServerState) (h : String) (info : ParticipantInfo)
    (h1 : st.participants.get h = some info) (h2 : info.isHost = true) :
    (socketDisconnect st h).1.meetings.get info.meetingId = none := by
  unfold socketDisconnect onDisconnect
  simp only [h1, h2, if_true]
  split
  · next hm => exact hm
  · simp [JMap.get_delete]

/-! ## Authorization -/

theorem Meeting.canPerformHostAction_iff (m : Meeting) (c : String) :
    m.canPerformHostAction c = true ↔
      ∃ p, m.participants.get c = some p ∧ (p.isHost = true ∨ p.isCoHost = true) := by
  unfold Meeting.canPerformHostAction
  cases h : m.participants.get c with
  | none => simp
  | some p => simp

theorem Meeting.canMakeCoHost_iff (m : Meeting) (c : String) :
    m.canMakeCoHost c = true ↔ ∃ p, m.participants.get c = some p ∧ p.isHost = true := by
  unfold Meeting.canMakeCoHost
  cases h : m.participants.get c with
  | none => simp
  | some p => simp

/-- C21: for toggle-meeting-lock, update-meeting-permissions,
spotlight-participant, remove-spotlight and mute-participant, a requester who
is a member of an existing meeting but neither host nor co-host
(canPerformHostAction is false, that is, not (participant exists and (isHost
or isCoHost))) leaves the state unchanged and gets exactly one notification,
action-error, sent to the requester only. -/
theorem host_gated_denied (env : TurnEnv) (st : ServerState) (c : String)
    (info : ParticipantInfo) (meeting : Meeting)
    (h1 : st.participants.get c = some info)
    (h2 : st.meetings.get info.meetingId = some meeting)
    (h3 : ¬ ∃ p, meeting.participants.get c = some p ∧ (p.isHost = true ∨ p.isCoHost = true)) :
    meeting.canPerformHostAction c = false ∧
    (∀ isLocked, handle env st c (.toggleMeetingLock isLocked) =
      (st, [⟨.socket c, .actionError "Only host can lock/unlock the meeting"⟩])) ∧
    (∀ permissions, handle env st c (.updateMeetingPermissions permissions) =
      (st, [⟨.socket c, .actionError "Only host can update meeting permissions"⟩])) ∧
    (∀ target, handle env st c (.spotlightParticipant target) =
      (st, [⟨.socket c, .actionError "Insufficient permissions"⟩])) ∧
    handle env st c .removeSpotlight =
      (st, [⟨.socket c, .actionError "Insufficient permissions"⟩]) ∧
    (∀ target, handle env st c (.muteParticipant target) =
      (st, [⟨.socket c, .actionError "Insufficient permissions"⟩])) := by
  have hc : meeting.canPerformHostAction c = false := by
    cases h : meeting.canPerformHostAction c with
    | false => rfl
    | true => exact absurd ((Meeting.canPerformHostAction_iff _ _).1 h) h3
  refine ⟨hc, ?_, ?_, ?_, ?_, ?_⟩
  · intro isLocked
    simp only [handle, toggleMeetingLock, h1, h2, hc, Bool.not_false, if_true]
  · intro permissions
    simp only [handle, updateMeetingPermissions, h1, h2, hc, Bool.not_false, if_true]
  · intro target
    simp only [handle, onSpotlightParticipant, h1, h2, hc, Bool.not_false, if_true]
  · simp only [handle, onRemoveSpotlight, h1, h2, hc, Bool.not_false, if_true]
  · intro target
    simp only [handle, muteParticipant, h1, h2, hc, Bool.not_false, if_true]

theorem host_gated_denied_witness :
    sampleMeeting.canPerformHostAction "a" = false ∧
    handle noTurn sampleServer "a" .removeSpotlight =
      (sampleServer, [⟨.socket "a", .actionError "Insufficient permissions"⟩]) :=
  have h := host_gated_denied noTurn sampleServer "a" ⟨"M", false⟩ sampleMeeting
    (by decide) (by decide) (by decide)
  ⟨h.1, h.2.2.2.2.1⟩

/-- C22: co-hosts cannot create co-hosts and co-host status is never
self-granted.  A make-cohost from a requester who is not a participant with
isHost true of the meeting its directory entry names (a co-host included)
leaves the whole state unchanged, so no isCoHost flag and no coHosts set
changes, and emits only action-error to the requester; a make-cohost by the
host targeting the host itself leaves the meeting as it was. -/
theorem makeCohost_guard (env : TurnEnv) (st : ServerState) (c : String) :
    (st.participants.get c = none →
      ∀ target, handle env st c (.makeCohost target) = (st, [])) ∧
    (∀ info target, st.participants.get c = some info →
      (¬ ∃ meeting p, st.meetings.get info.meetingId = some meeting ∧
          meeting.participants.get c = some p ∧ p.isHost = true) →
      handle env st c (.makeCohost target) =
        (st, [⟨.socket c, .actionError "Only host can make co-hosts"⟩])) ∧
    (∀ info meeting p, st.participants.get c = some info →
      st.meetings.get info.meetingId = some meeting →
      meeting.participants.get c = some p → p.isHost = true →
      meeting.makeCoHost c = meeting ∧
      (handle env st c (.makeCohost c)).1.meetings.get info.meetingId = some meeting ∧
      (handle env st c (.makeCohost c)).1.participants = st.participants) := by
  refine ⟨?_, ?_, ?_⟩
  · intro h1 target
    simp only [handle, makeCohost, h1]
  · intro info target h1 hno
    cases h2 : st.meetings.get info.meetingId with
    | none => simp only [handle, makeCohost, h1, h2]
    | some meeting =>
      have hc : meeting.canMakeCoHost c = false := by
        cases h : meeting.canMakeCoHost c with
        | false => rfl
        | true =>
          obtain ⟨p, hp, hh⟩ := (Meeting.canMakeCoHost_iff _ _).1 h
          exact absurd ⟨meeting, p, h2, hp, hh⟩ hno
      simp only [handle, makeCohost, h1, h2, hc, Bool.not_false, if_true]
  · intro info meeting p h1 h2 hp hh
    have hc : meeting.canMakeCoHost c = true :=
      (Meeting.canMakeCoHost_iff _ _).2 ⟨p, hp, hh⟩
    have hm : meeting.makeCoHost c = meeting := by
      unfold Meeting.makeCoHost
      simp only [hp, hh, Bool.not_true, Bool.false_eq_true, if_false]
    refine ⟨hm, ?_, ?_⟩
    · simp only [handle, makeCohost, h1, h2, hc, Bool.not_true, Bool.false_eq_true, if_false,
        hm, JMap.get_modify_self, Option.map_some']
    · simp only [handle, makeCohost, h1, h2, hc, Bool.not_true, Bool.false_eq_true, if_false]

theorem makeCohost_guard_witness :
    handle noTurn sampleServer "carol" (.makeCohost "a") = (sampleServer, []) ∧
    handle noTurn coHostServer "a" (.makeCohost "b") =
      (coHostServer, [⟨.socket "a", .actionError "Only host can make co-hosts"⟩]) ∧
    (sampleMeeting.makeCoHost "h" = sampleMeeting ∧
      (handle noTurn sampleServer "h" (.makeCohost "h")).1.meetings.get "M" =
        some sampleMeeting ∧
      (handle noTurn sampleServer "h" (.makeCohost "h")).1.participants =
        sampleServer.participants) :=
  ⟨(makeCohost_guard noTurn sampleServer "carol").1 (by decide) "a",
    (makeCohost_guard noTurn coHostServer "a").2.1 ⟨"M", false⟩ "b" (by decide) (by
      rintro ⟨meeting, p, hm, hp, hh⟩
      have e : coHostServer.meetings.get "M" = some (sampleMeeting.makeCoHost "a") := by decide
      have hm' : sampleMeeting.makeCoHost "a" = meeting := Option.some.inj (e.symm.trans hm)
      subst hm'
      have e2 : ((sampleMeeting.makeCoHost "a").participants.get "a").map (·.isHost) =
          some false := by decide
      rw [hp] at e2
      simp [hh] at e2),
    (makeCohost_guard noTurn sampleServer "h").2.2 ⟨"M", true⟩ sampleMeeting
      { newParticipant "h" "Host" true 0 with isSpotlighted := true }
      (by decide) (by decide) (by decide) (by decide)⟩

/-! ## What the operations keep of a participant record -/

theorem Kept.kept_refl (p : Participant) : Kept p p :=
  ⟨rfl, rfl, rfl, fun h => Or.inl h⟩

theorem Kept.kept_trans {p q r : Participant} (h1 : Kept p q) (h2 : Kept q r) : Kept p r := by
  obtain ⟨a1, a2, a3, a4⟩ := h1
  obtain ⟨b1, b2, b3, b4⟩ := h2
  refine ⟨b1.trans a1, b2.trans a2, b3.trans a3, ?_⟩
  intro h
  rcases b4 h with h' | h'
  · exact a4 h'
  · exact Or.inr (a3 ▸ h')

theorem RosterKept.roster_refl (l : JMap Participant) : RosterKept l l :=
  fun _ p' h => ⟨p', h, Kept.kept_refl p'⟩

theorem RosterKept.roster_trans {l1 l2 l3 : JMap Participant} (h1 : RosterKept l1 l2)
    (h2 : RosterKept l2 l3) : RosterKept l1 l3 := by
  intro c p3 h
  obtain ⟨p2, hp2, k2⟩ := h2 c p3 h
  obtain ⟨p1, hp1, k1⟩ := h1 c p2 hp2
  exact ⟨p1, hp1, k1.kept_trans k2⟩

theorem rosterKept_modify (l : JMap Participant) (k : String) (f : Participant → Participant)
    (hf : ∀ p, l.get k = some p → Kept p (f p)) : RosterKept l (l.modify k f) := by
  intro c p' h
  rw [JMap.get_modify] at h
  by_cases hc : c = k
  · subst hc
    rw [if_pos rfl] at h
    cases hg : l.get c with
    | none => rw [hg] at h; simp at h
    | some p =>
      rw [hg] at h
      have : f p = p' := by simpa using h
      exact ⟨p, rfl, this ▸ hf p hg⟩
  · rw [if_neg hc] at h
    exact ⟨p', h, Kept.kept_refl p'⟩

theorem rosterKept_delete (l : JMap Participant) (k : String) : RosterKept l (l.delete k) := by
  intro c p' h
  rw [JMap.get_delete] at h
  by_cases hc : c = k
  · rw [if_pos hc] at h; simp at h
  · rw [if_neg hc] at h
    exact ⟨p', h, Kept.kept_refl p'⟩

theorem JMap.get_set_cases {α : Type} (l : JMap α) (k c : String) (v p' : α)
    (h : JMap.get (l.set k v) c = some p') :
    (c = k ∧ p' = v) ∨ (c ≠ k ∧ l.get c = some p') := by
  by_cases hc : c = k
  · subst hc
    rw [JMap.get_set_self] at h
    exact Or.inl ⟨rfl, (Option.some.inj h).symm⟩
  · rw [JMap.get_set_ne _ _ _ _ hc] at h
    exact Or.inr ⟨hc, h⟩

theorem JMap.nodup_keys_delete {α : Type} (l : JMap α) (k : String) (h : l.keys.Nodup) :
    (JMap.keys (l.delete k)).Nodup := by
  rw [JMap.keys_delete]
  exact h.filter _

theorem JMap.get_of_mem_nodup {α : Type} (l : JMap α) (e : String × α) (hn : l.keys.Nodup)
    (he : e ∈ l) : l.get e.1 = some e.2 := by
  induction l with
  | nil => simp at he
  | cons x t ih =>
    have hn' : (JMap.keys t).Nodup := by
      simp only [JMap.keys, List.map_cons, List.nodup_cons] at hn; exact hn.2
    have hnot : x.1 ∉ JMap.keys t := by
      simp only [JMap.keys, List.map_cons, List.nodup_cons] at hn; exact hn.1
    rw [JMap.get_cons]
    rcases List.mem_cons.1 he with h | h
    · subst h; simp
    · have hne : x.1 ≠ e.1 := fun hx => hnot (hx ▸ JMap.mem_keys_of_mem t e h)
      rw [if_neg hne]
      exact ih hn' h

theorem rosterKept_clearedRoster (m : Meeting) : RosterKept m.participants (clearedRoster m) := by
  unfold clearedRoster
  split
  · exact rosterKept_modify _ _ _ (fun p _ => ⟨rfl, rfl, rfl, fun h => Or.inl h⟩)
  · exact RosterKept.roster_refl _

namespace Meeting

theorem rosterKept_spotlightParticipant (m : Meeting) (s : String) :
    RosterKept m.participants (m.spotlightParticipant s).participants := by
  rw [spotlightParticipant_eq]
  split
  · apply (rosterKept_clearedRoster m).roster_trans
    dsimp only
    apply rosterKept_modify
    intro p _
    exact ⟨rfl, rfl, rfl, fun h => Or.inl h⟩
  · exact rosterKept_clearedRoster m

theorem rosterKept_withAudioLevel (m : Meeting) (s : String) (v : ℚ) :
    RosterKept m.participants (withAudioLevel m s v).participants := by
  unfold withAudioLevel
  dsimp only
  apply rosterKept_modify
  intro p _
  exact ⟨rfl, rfl, rfl, fun h => Or.inl h⟩

theorem addParticipant_roster (m : Meeting) (id name : String) (isHost : Bool) (now : Nat)
    (c : String) (p' : Participant)
    (h : (m.addParticipant id name isHost now).1.participants.get c = some p') :
    (c = id ∧ p'.socketId = id ∧ p'.name = name ∧ p'.isHost = isHost ∧ p'.isCoHost = false) ∨
    (c ≠ id ∧ m.participants.get c = some p') := by
  rw [addParticipant_eq] at h
  split at h
  · dsimp only at h
    rw [JMap.get_modify] at h
    by_cases hc : c = id
    · subst hc
      rw [if_pos rfl, JMap.get_set_self] at h
      have : p' = { newParticipant c name isHost now with isSpotlighted := true } := by
        simpa using h.symm
      subst this
      exact Or.inl ⟨rfl, rfl, rfl, rfl, rfl⟩
    · rw [if_neg hc, JMap.get_set_ne _ _ _ _ hc] at h
      exact Or.inr ⟨hc, h⟩
  · dsimp only at h
    rcases JMap.get_set_cases _ _ _ _ _ h with ⟨hc, hp⟩ | ⟨hc, hp⟩
    · subst hp
      exact Or.inl ⟨hc, rfl, rfl, rfl, rfl⟩
    · exact Or.inr ⟨hc, hp⟩

theorem addParticipant_keys_nodup (m : Meeting) (id name : String) (isHost : Bool) (now : Nat)
    (h : m.participants.keys.Nodup) :
    (JMap.keys (m.addParticipant id name isHost now).1.participants).Nodup := by
  rw [addParticipant_eq]
  split
  · dsimp only
    rw [JMap.keys_modify]
    exact JMap.nodup_keys_set _ _ _ h
  · exact JMap.nodup_keys_set _ _ _ h

theorem addParticipant_hostId (m : Meeting) (id name : String) (isHost : Bool) (now : Nat) :
    (m.addParticipant id name isHost now).1.hostId = m.hostId := by
  rw [addParticipant_eq]
  split <;> rfl

end Meeting

namespace Meeting

theorem removeParticipant_participants (m : Meeting) (c : String) :
    (m.removeParticipant c).participants = m.participants.delete c := by
  unfold removeParticipant
  dsimp only
  split <;> rfl

theorem removeParticipant_hostId (m : Meeting) (c : String) :
    (m.removeParticipant c).hostId = m.hostId := by
  unfold removeParticipant
  dsimp only
  split <;> rfl

theorem spotlightParticipant_hostId (m : Meeting) (s : String) :
    (m.spotlightParticipant s).hostId = m.hostId := by
  rw [spotlightParticipant_eq]
  split <;> rfl

theorem removeSpotlight_hostId (m : Meeting) : m.removeSpotlight.hostId = m.hostId := by
  rw [removeSpotlight_eq]
  split <;> rfl

theorem handleAudioActivity_hostId (m : Meeting) (s : String) (v : ℚ) :
    (m.handleAudioActivity s v).1.hostId = m.hostId := by
  rw [handleAudioActivity_eq]
  split
  · exact spotlightParticipant_hostId _ _
  · split <;> rfl

theorem makeCoHost_hostId (m : Meeting) (s : String) : (m.makeCoHost s).hostId = m.hostId := by
  unfold makeCoHost
  split
  · split <;> rfl
  · rfl

theorem removeCoHost_hostId (m : Meeting) (s : String) :
    (m.removeCoHost s).hostId = m.hostId := by
  unfold removeCoHost
  split <;> rfl

theorem rosterKept_removeSpotlight (m : Meeting) :
    RosterKept m.participants m.removeSpotlight.participants := by
  rw [removeSpotlight_eq]
  split
  · exact rosterKept_clearedRoster m
  · exact RosterKept.roster_refl _

theorem rosterKept_handleAudioActivity (m : Meeting) (s : String) (v : ℚ) :
    RosterKept m.participants (m.handleAudioActivity s v).1.participants := by
  rw [handleAudioActivity_eq]
  split
  · exact (rosterKept_withAudioLevel m s v).roster_trans (rosterKept_spotlightParticipant _ _)
  · split
    · exact rosterKept_withAudioLevel m s v
    · exact RosterKept.roster_refl _

theorem rosterKept_makeCoHost (m : Meeting) (s : String) :
    RosterKept m.participants (m.makeCoHost s).participants := by
  unfold makeCoHost
  split
  · next p hp =>
    split
    · next hh =>
      dsimp only
      apply rosterKept_modify
      intro q hq
      have hpq : p = q := Option.some.inj (hp.symm.trans hq)
      subst hpq
      exact ⟨rfl, rfl, rfl, fun _ => Or.inr (by simpa using hh)⟩
    · exact RosterKept.roster_refl _
  · exact RosterKept.roster_refl _

theorem rosterKept_removeCoHost (m : Meeting) (s : String) :
    RosterKept m.participants (m.removeCoHost s).participants := by
  unfold removeCoHost
  split
  · dsimp only
    apply rosterKept_modify
    intro q _
    exact ⟨rfl, rfl, rfl, fun h => absurd h (by simp)⟩
  · exact RosterKept.roster_refl _

end Meeting

/-- Every method call keeps the meeting's hostId. -/
theorem MeetingOp.apply_hostId (m : Meeting) (op : MeetingOp) :
    (op.apply m).hostId = m.hostId := by
  cases op with
  | addParticipant id name isHost now => exact Meeting.addParticipant_hostId _ _ _ _ _
  | removeParticipant c => exact Meeting.removeParticipant_hostId _ _
  | makeCoHost c => exact Meeting.makeCoHost_hostId _ _
  | removeCoHost c => exact Meeting.removeCoHost_hostId _ _
  | spotlightParticipant c => exact Meeting.spotlightParticipant_hostId _ _
  | removeSpotlight => exact Meeting.removeSpotlight_hostId _
  | handleAudioActivity c v => exact Meeting.handleAudioActivity_hostId _ _ _
  | _ => rfl

/-- Every method call other than `addParticipant` continues the records of the
roster. -/
theorem MeetingOp.apply_roster (m : Meeting) (op : MeetingOp)
    (hne : ∀ id name isHost now, op ≠ .addParticipant id name isHost now) :
    RosterKept m.participants (op.apply m).participants := by
  cases op with
  | addParticipant id name isHost now => exact absurd rfl (hne id name isHost now)
  | removeParticipant c =>
    show RosterKept _ (m.removeParticipant c).participants
    rw [Meeting.removeParticipant_participants]
    exact rosterKept_delete _ _
  | makeCoHost c => exact Meeting.rosterKept_makeCoHost _ _
  | removeCoHost c => exact Meeting.rosterKept_removeCoHost _ _
  | spotlightParticipant c => exact Meeting.rosterKept_spotlightParticipant _ _
  | removeSpotlight => exact Meeting.rosterKept_removeSpotlight _
  | handleAudioActivity c v => exact Meeting.rosterKept_handleAudioActivity _ _ _
  | lockMeeting => exact RosterKept.roster_refl _
  | unlockMeeting => exact RosterKept.roster_refl _
  | updatePermissions p => exact RosterKept.roster_refl _
  | setParticipantReady c =>
    simp only [MeetingOp.apply, Meeting.setParticipantReady,
      Meeting.updateParticipantConnectionState, Meeting.addScreenShare,
      Meeting.removeScreenShare, Meeting.raiseHand, Meeting.lowerHand]
    apply rosterKept_modify; intro p _; exact ⟨rfl, rfl, rfl, fun h => Or.inl h⟩
  | updateParticipantConnectionState c state =>
    simp only [MeetingOp.apply, Meeting.setParticipantReady,
      Meeting.updateParticipantConnectionState, Meeting.addScreenShare,
      Meeting.removeScreenShare, Meeting.raiseHand, Meeting.lowerHand]
    apply rosterKept_modify; intro p _; exact ⟨rfl, rfl, rfl, fun h => Or.inl h⟩
  | addScreenShare c streamId now =>
    simp only [MeetingOp.apply, Meeting.setParticipantReady,
      Meeting.updateParticipantConnectionState, Meeting.addScreenShare,
      Meeting.removeScreenShare, Meeting.raiseHand, Meeting.lowerHand]
    apply rosterKept_modify; intro p _; exact ⟨rfl, rfl, rfl, fun h => Or.inl h⟩
  | removeScreenShare c =>
    simp only [MeetingOp.apply, Meeting.setParticipantReady,
      Meeting.updateParticipantConnectionState, Meeting.addScreenShare,
      Meeting.removeScreenShare, Meeting.raiseHand, Meeting.lowerHand]
    apply rosterKept_modify; intro p _; exact ⟨rfl, rfl, rfl, fun h => Or.inl h⟩
  | raiseHand c =>
    simp only [MeetingOp.apply, Meeting.setParticipantReady,
      Meeting.updateParticipantConnectionState, Meeting.addScreenShare,
      Meeting.removeScreenShare, Meeting.raiseHand, Meeting.lowerHand]
    apply rosterKept_modify; intro p _; exact ⟨rfl, rfl, rfl, fun h => Or.inl h⟩
  | lowerHand c =>
    simp only [MeetingOp.apply, Meeting.setParticipantReady,
      Meeting.updateParticipantConnectionState, Meeting.addScreenShare,
      Meeting.removeScreenShare, Meeting.raiseHand, Meeting.lowerHand]
    apply rosterKept_modify; intro p _; exact ⟨rfl, rfl, rfl, fun h => Or.inl h⟩

/-- Every method call keeps the roster keys unique. -/
theorem MeetingOp.apply_keys_nodup (m : Meeting) (op : MeetingOp)
    (h : m.participants.keys.Nodup) : (JMap.keys (op.apply m).participants).Nodup := by
  cases op with
  | addParticipant id name isHost now => exact Meeting.addParticipant_keys_nodup _ _ _ _ _ h
  | removeParticipant c =>
    show (JMap.keys (m.removeParticipant c).participants).Nodup
    rw [Meeting.removeParticipant_participants]
    exact JMap.nodup_keys_delete _ _ h
  | makeCoHost c =>
    show (JMap.keys (m.makeCoHost c).participants).Nodup
    unfold Meeting.makeCoHost
    split
    · split
      · dsimp only; rw [JMap.keys_modify]; exact h
      · exact h
    · exact h
  | removeCoHost c =>
    show (JMap.keys (m.removeCoHost c).participants).Nodup
    unfold Meeting.removeCoHost
    split
    · dsimp only; rw [JMap.keys_modify]; exact h
    · exact h
  | spotlightParticipant c =>
    show (JMap.keys (m.spotlightParticipant c).participants).Nodup
    rw [Meeting.spotlightParticipant_keys]; exact h
  | removeSpotlight =>
    show (JMap.keys m.removeSpotlight.participants).Nodup
    rw [Meeting.removeSpotlight_eq]
    split
    · dsimp only; rw [Meeting.keys_clearedRoster]; exact h
    · exact h
  | handleAudioActivity c v =>
    show (JMap.keys (m.handleAudioActivity c v).1.participants).Nodup
    rw [Meeting.handleAudioActivity_eq]
    split
    · dsimp only
      rw [Meeting.spotlightParticipant_keys]
      simp only [withAudioLevel, JMap.keys_modify]; exact h
    · split
      · simp only [withAudioLevel, JMap.keys_modify]; exact h
      · exact h
  | lockMeeting => exact h
  | unlockMeeting => exact h
  | updatePermissions p => exact h
  | setParticipantReady c =>
    simp only [MeetingOp.apply, Meeting.setParticipantReady,
      Meeting.updateParticipantConnectionState, Meeting.addScreenShare,
      Meeting.removeScreenShare, Meeting.raiseHand, Meeting.lowerHand]
    rw [JMap.keys_modify]; exact h
  | updateParticipantConnectionState c state =>
    simp only [MeetingOp.apply, Meeting.setParticipantReady,
      Meeting.updateParticipantConnectionState, Meeting.addScreenShare,
      Meeting.removeScreenShare, Meeting.raiseHand, Meeting.lowerHand]
    rw [JMap.keys_modify]; exact h
  | addScreenShare c streamId now =>
    simp only [MeetingOp.apply, Meeting.setParticipantReady,
      Meeting.updateParticipantConnectionState, Meeting.addScreenShare,
      Meeting.removeScreenShare, Meeting.raiseHand, Meeting.lowerHand]
    rw [JMap.keys_modify]; exact h
  | removeScreenShare c =>
    simp only [MeetingOp.apply, Meeting.setParticipantReady,
      Meeting.updateParticipantConnectionState, Meeting.addScreenShare,
      Meeting.removeScreenShare, Meeting.raiseHand, Meeting.lowerHand]
    rw [JMap.keys_modify]; exact h
  | raiseHand c =>
    simp only [MeetingOp.apply, Meeting.setParticipantReady,
      Meeting.updateParticipantConnectionState, Meeting.addScreenShare,
      Meeting.removeScreenShare, Meeting.raiseHand, Meeting.lowerHand]
    rw [JMap.keys_modify]; exact h
  | lowerHand c =>
    simp only [MeetingOp.apply, Meeting.setParticipantReady,
      Meeting.updateParticipantConnectionState, Meeting.addScreenShare,
      Meeting.removeScreenShare, Meeting.raiseHand, Meeting.lowerHand]
    rw [JMap.keys_modify]; exact h

/-! ## How a handler changes the registered meetings -/

theorem Effect.effect_hostId (m : Meeting) (eff : Effect) :
    (Effect.apply m eff).hostId = m.hostId := by
  cases eff with
  | method op => exact MeetingOp.apply_hostId m op
  | _ => rfl

theorem Effect.effect_keys_nodup (m : Meeting) (eff : Effect) (h : m.participants.keys.Nodup) :
    (JMap.keys (Effect.apply m eff).participants).Nodup := by
  cases eff with
  | method op => exact MeetingOp.apply_keys_nodup m op h
  | toggleMuted c => simp only [Effect.apply, JMap.keys_modify]; exact h
  | setMuted c b => simp only [Effect.apply, JMap.keys_modify]; exact h
  | setCameraOff c b => simp only [Effect.apply, JMap.keys_modify]; exact h

theorem Effect.effect_roster (m : Meeting) (eff : Effect)
    (hne : ∀ id name isHost now, eff ≠ .method (.addParticipant id name isHost now)) :
    RosterKept m.participants (Effect.apply m eff).participants := by
  cases eff with
  | method op =>
    exact MeetingOp.apply_roster m op (fun id name isHost now e => hne id name isHost now (e ▸ rfl))
  | toggleMuted c =>
    simp only [Effect.apply]
    apply rosterKept_modify; intro p _; exact ⟨rfl, rfl, rfl, fun h => Or.inl h⟩
  | setMuted c b =>
    simp only [Effect.apply]
    apply rosterKept_modify; intro p _; exact ⟨rfl, rfl, rfl, fun h => Or.inl h⟩
  | setCameraOff c b =>
    simp only [Effect.apply]
    apply rosterKept_modify; intro p _; exact ⟨rfl, rfl, rfl, fun h => Or.inl h⟩

theorem Effect.add_or_not (eff : Effect) :
    (∃ id name isHost now, eff = .method (.addParticipant id name isHost now)) ∨
    (∀ id name isHost now, eff ≠ .method (.addParticipant id name isHost now)) := by
  cases eff with
  | method op =>
    cases op with
    | addParticipant id name isHost now => exact Or.inl ⟨id, name, isHost, now, rfl⟩
    | _ => right; intro id name isHost now h; cases h
  | _ => right; intro id name isHost now h; cases h

theorem step_modify (env : TurnEnv) (st : ServerState) (sock : String) (a : Action)
    (k : String) (m' : Meeting) (mid : String) (meeting : Meeting) (eff : Effect)
    (hm : st.meetings.get mid = some meeting) (ha : eff.allowedFor sock a)
    (h : JMap.get (st.meetings.modify mid (fun _ => Effect.apply meeting eff)) k = some m') :
    MeetingsStep env st sock a k m' := by
  rw [JMap.get_modify] at h
  by_cases hk : k = mid
  · subst hk
    rw [if_pos rfl, hm] at h
    exact Or.inr (Or.inl ⟨meeting, eff, hm, (Option.some.inj h).symm, ha⟩)
  · rw [if_neg hk] at h
    exact Or.inl h

theorem get_delete_modify {α : Type} (l : JMap α) (mid k : String) (f : α → α) (v : α)
    (h : JMap.get (JMap.delete (l.modify mid f) mid) k = some v) : l.get k = some v := by
  rw [JMap.get_delete] at h
  by_cases hk : k = mid
  · rw [if_pos hk] at h; simp at h
  · rw [if_neg hk, JMap.get_modify_ne _ _ _ _ hk] at h
    exact h

/-- The meeting registered under any identifier after a handler is the one
registered before, the result of an allowed effect on it, or the meeting just
created by `join-as-host`. -/
theorem handle_meetings (env : TurnEnv) (st : ServerState) (sock : String) (a : Action)
    (k : String) (m' : Meeting) (h : (handle env st sock a).1.meetings.get k = some m') :
    MeetingsStep env st sock a k m' := by
  cases a with
  | connect => exact Or.inl h
  | offer target offer => exact Or.inl h
  | answer target answer => exact Or.inl h
  | iceCandidate target candidate => exact Or.inl h
  | connectionFailed target => exact Or.inl h
  | pinParticipant target =>
    simp only [handle, pinParticipant] at h
    split at h <;> exact Or.inl h
  | sendReaction emoji timestamp =>
    simp only [handle, sendReaction] at h
    repeat' (split at h)
    all_goals exact Or.inl h
  | joinAsHost meetingId hostName now =>
    simp only [handle, joinAsHost] at h
    by_cases hk : k = meetingId
    · subst hk
      rw [JMap.get_modify_set] at h
      exact Or.inr (Or.inr ⟨hostName, now, rfl, (Option.some.inj h).symm⟩)
    · rw [JMap.get_modify_ne _ _ _ _ hk, JMap.get_set_ne _ _ _ _ hk] at h
      exact Or.inl h
  | joinMeeting meetingId participantName now =>
    simp only [handle, joinMeeting] at h
    repeat' (split at h)
    all_goals first
      | exact Or.inl h
      | exact step_modify env st sock _ k m' _ _
          (.method (.addParticipant sock participantName false now)) (by assumption)
          ⟨rfl, rfl, rfl⟩ h
  | toggleMeetingLock isLocked =>
    simp only [handle, toggleMeetingLock] at h
    repeat' (split at h)
    all_goals first
      | exact Or.inl h
      | exact step_modify env st sock _ k m' _ _ (.method .lockMeeting) (by assumption)
          trivial h
      | exact step_modify env st sock _ k m' _ _ (.method .unlockMeeting) (by assumption)
          trivial h
  | updateMeetingPermissions permissions =>
    simp only [handle, updateMeetingPermissions] at h
    repeat' (split at h)
    all_goals first
      | exact Or.inl h
      | exact step_modify env st sock _ k m' _ _ (.method (.updatePermissions permissions))
          (by assumption) trivial h
  | participantReady =>
    simp only [handle, participantReady] at h
    repeat' (split at h)
    all_goals first
      | exact Or.inl h
      | exact step_modify env st sock _ k m' _ _ (.method (.setParticipantReady sock))
          (by assumption) trivial h
  | connectionStateChange target state =>
    simp only [handle, connectionStateChange] at h
    repeat' (split at h)
    all_goals first
      | exact Or.inl h
      | exact step_modify env st sock _ k m' _ _
          (.method (.updateParticipantConnectionState sock state)) (by assumption) trivial h
  | audioLevel level =>
    simp only [handle, onAudioLevel] at h
    repeat' (split at h)
    all_goals first
      | exact Or.inl h
      | exact step_modify env st sock _ k m' _ _ (.method (.handleAudioActivity sock level))
          (by assumption) trivial h
  | raiseHand =>
    simp only [handle, onRaiseHand] at h
    repeat' (split at h)
    all_goals first
      | exact Or.inl h
      | exact step_modify env st sock _ k m' _ _ (.method (.raiseHand sock))
          (by assumption) trivial h
  | lowerHand =>
    simp only [handle, onLowerHand] at h
    repeat' (split at h)
    all_goals first
      | exact Or.inl h
      | exact step_modify env st sock _ k m' _ _ (.method (.lowerHand sock))
          (by assumption) trivial h
  | startScreenShare streamId now =>
    simp only [handle, startScreenShare] at h
    repeat' (split at h)
    all_goals first
      | exact Or.inl h
      | exact step_modify env st sock _ k m' _ _ (.method (.addScreenShare sock streamId now))
          (by assumption) trivial h
  | stopScreenShare =>
    simp only [handle, stopScreenShare] at h
    repeat' (split at h)
    all_goals first
      | exact Or.inl h
      | exact step_modify env st sock _ k m' _ _ (.method (.removeScreenShare sock))
          (by assumption) trivial h
  | spotlightParticipant target =>
    simp only [handle, onSpotlightParticipant] at h
    repeat' (split at h)
    all_goals first
      | exact Or.inl h
      | exact step_modify env st sock _ k m' _ _ (.method (.spotlightParticipant target))
          (by assumption) trivial h
  | removeSpotlight =>
    simp only [handle, onRemoveSpotlight] at h
    repeat' (split at h)
    all_goals first
      | exact Or.inl h
      | exact step_modify env st sock _ k m' _ _ (.method .removeSpotlight)
          (by assumption) trivial h
  | muteParticipant target =>
    simp only [handle, muteParticipant] at h
    repeat' (split at h)
    all_goals first
      | exact Or.inl h
      | exact step_modify env st sock _ k m' _ _ (.toggleMuted target) (by assumption) trivial h
  | makeCohost target =>
    simp only [handle, makeCohost] at h
    repeat' (split at h)
    all_goals first
      | exact Or.inl h
      | exact step_modify env st sock _ k m' _ _ (.method (.makeCoHost target))
          (by assumption) trivial h
  | toggleMic isMuted =>
    simp only [handle, toggleMic] at h
    repeat' (split at h)
    all_goals first
      | exact Or.inl h
      | exact step_modify env st sock _ k m' _ _ (.setMuted sock isMuted) (by assumption)
          trivial h
  | toggleCamera isCameraOff =>
    simp only [handle, toggleCamera] at h
    repeat' (split at h)
    all_goals first
      | exact Or.inl h
      | exact step_modify env st sock _ k m' _ _ (.setCameraOff sock isCameraOff)
          (by assumption) trivial h
  | kickParticipant target =>
    simp only [handle] at h
    cases h1 : st.participants.get sock with
    | none => simp only [kickParticipant, h1] at h; exact Or.inl h
    | some info =>
      cases h2 : st.meetings.get info.meetingId with
      | none => simp only [kickParticipant, h1, h2] at h; exact Or.inl h
      | some meeting =>
        cases h3 : meeting.participants.get sock with
        | none => simp only [kickParticipant, h1, h2, h3] at h; exact Or.inl h
        | some requester =>
          cases h4 : meeting.participants.get target with
          | none => simp only [kickParticipant, h1, h2, h3, h4] at h; exact Or.inl h
          | some tgt =>
            by_cases hc : requester.isHost = true ∧ tgt.isCoHost = false
            · rw [kickParticipant_of_allowed st sock target info meeting requester tgt
                h1 h2 h3 h4 hc.1 hc.2] at h
              exact step_modify env st sock _ k m' _ _ (.method (.removeParticipant target))
                h2 trivial h
            · have hif : (!requester.isHost || tgt.isCoHost) = true := by
                cases hr : requester.isHost <;> cases ht : tgt.isCoHost <;> simp_all
              simp only [kickParticipant, h1, h2, h3, h4, hif, if_true] at h
              exact Or.inl h
  | disconnect =>
    simp only [handle, socketDisconnect, onDisconnect] at h
    repeat' (split at h)
    all_goals first
      | exact Or.inl h
      | exact Or.inl (get_delete_modify _ _ _ _ _ h)
      | exact step_modify env st sock _ k m' _ _ (.method (.removeParticipant sock))
          (by assumption) trivial h

/-! ## Host, name and role invariants -/

theorem hostInv_effect (m : Meeting) (eff : Effect) (sock : String) (a : Action)
    (h : HostInv m) (ha : eff.allowedFor sock a) : HostInv (Effect.apply m eff) := by
  refine ⟨Effect.effect_keys_nodup m eff h.1, ?_⟩
  intro c p' hp' hh
  rw [Effect.effect_hostId]
  rcases Effect.add_or_not eff with ⟨id, name, isHost, now, rfl⟩ | hne
  · obtain ⟨_, hfalse, _⟩ := ha
    rcases Meeting.addParticipant_roster m id name isHost now c p' hp' with
      ⟨_, _, _, hi, _⟩ | ⟨_, hold⟩
    · rw [hi, hfalse] at hh; exact absurd hh (by simp)
    · exact h.2 c p' hold hh
  · obtain ⟨p, hp, hk⟩ := Effect.effect_roster m eff hne c p' hp'
    exact h.2 c p hp (hk.2.2.1 ▸ hh)

theorem hostInv_created (k sock hostName : String) (now : Nat) (env : TurnEnv) :
    HostInv ((Meeting.new k sock hostName now env).addParticipant sock hostName true now).1 := by
  refine ⟨Meeting.addParticipant_keys_nodup _ _ _ _ _ (by simp [Meeting.new, JMap.keys]), ?_⟩
  intro c p' hp' _
  rw [Meeting.addParticipant_hostId]
  rcases Meeting.addParticipant_roster _ sock hostName true now c p' hp' with ⟨hc, _⟩ | ⟨_, hold⟩
  · exact hc
  · simp [Meeting.new, JMap.get] at hold

theorem hostInv_handle (env : TurnEnv) (st : ServerState) (sock : String) (a : Action)
    (h : ∀ k m, st.meetings.get k = some m → HostInv m) :
    ∀ k m, (handle env st sock a).1.meetings.get k = some m → HostInv m := by
  intro k m' hm'
  rcases handle_meetings env st sock a k m' hm' with h1 | ⟨m, eff, hm, rfl, ha⟩ |
    ⟨hostName, now, _, rfl⟩
  · exact h k m' h1
  · exact hostInv_effect m eff sock a (h k m hm) ha
  · exact hostInv_created _ _ _ _ _

theorem hostInv_run (env : TurnEnv) (events : List (String × Action)) :
    ∀ st : ServerState, (∀ k m, st.meetings.get k = some m → HostInv m) →
      ∀ k m, (run env st events).1.meetings.get k = some m → HostInv m := by
  induction events with
  | nil => intro st h; exact h
  | cons e rest ih =>
    intro st h
    obtain ⟨sock, a⟩ := e
    simp only [run]
    exact ih _ (hostInv_handle env st sock a h)

theorem hostInv_reachable (env : TurnEnv) (st : ServerState) (h : Reachable env st) :
    ∀ k m, st.meetings.get k = some m → HostInv m := by
  obtain ⟨events, rfl⟩ := h
  apply hostInv_run
  intro k m hm
  simp [ServerState.init, JMap.get] at hm

/-- Handling any action other than a join-as-host naming the identifier keeps
the hostId of the meeting registered under it. -/
theorem hostId_stable (env : TurnEnv) (st : ServerState) (sock : String) (a : Action)
    (k : String) (m m' : Meeting) (hm : st.meetings.get k = some m)
    (hm' : (handle env st sock a).1.meetings.get k = some m')
    (hne : ∀ hostName now, a ≠ .joinAsHost k hostName now) : m'.hostId = m.hostId := by
  rcases handle_meetings env st sock a k m' hm' with h1 | ⟨m1, eff, hm1, rfl, _⟩ |
    ⟨hostName, now, ha, _⟩
  · rw [Option.some.inj (hm.symm.trans h1)]
  · rw [Effect.effect_hostId, Option.some.inj (hm.symm.trans hm1)]
  · exact absurd ha (hne hostName now)

/-- C25: in every state reachable by handling inbound actions, in every
registered meeting every participant whose isHost flag is true has the
connection id equal to the meeting's hostId, so at most one participant of
the meeting has isHost true. -/
theorem host_flag_only_host (env : TurnEnv) (st : ServerState) (h : Reachable env st)
    (k : String) (m : Meeting) (hm : st.meetings.get k = some m) :
    (∀ e ∈ m.participants, e.2.isHost = true → e.1 = m.hostId) ∧
    (m.participants.values.filter (fun p => p.isHost)).length ≤ 1 := by
  obtain ⟨hn, hh⟩ := hostInv_reachable env st h k m hm
  have he : ∀ e ∈ m.participants, e.2.isHost = true → e.1 = m.hostId :=
    fun e hmem hi => hh e.1 e.2 (JMap.get_of_mem_nodup _ e hn hmem) hi
  exact ⟨he, JMap.filter_values_length_le_one m.participants (fun p => p.isHost) m.hostId hn he⟩

theorem host_flag_only_host_witness :
    (∀ e ∈ duoMeeting.participants, e.2.isHost = true → e.1 = duoMeeting.hostId) ∧
    (duoMeeting.participants.values.filter (fun p => p.isHost)).length ≤ 1 :=
  host_flag_only_host noTurn duoServer ⟨_, rfl⟩ "M" duoMeeting (by decide)

/-- C23: the host of a registered meeting is not immutable.  A join-as-host
naming a registered meeting from another connection replaces the meeting:
afterwards the meeting registered under `M` has the new connection as hostId
and as only participant. -/
theorem second_host_replaces_meeting :
    ((run noTurn ServerState.init duoEvents).1.meetings.get "M").map (·.hostId) = some "h" ∧
    ((run noTurn ServerState.init duoEvents).1.meetings.get "M").map
      (fun m => m.participants.keys) = some ["h", "a"] ∧
    ((handle noTurn (run noTurn ServerState.init duoEvents).1 "x"
      (.joinAsHost "M" "Mallory" 2)).1.meetings.get "M").map (·.hostId) = some "x" ∧
    ((handle noTurn (run noTurn ServerState.init duoEvents).1 "x"
      (.joinAsHost "M" "Mallory" 2)).1.meetings.get "M").map
      (fun m => m.participants.keys) = some ["x"] := by
  decide

/-- C24 does not hold: a second join-meeting from `a` with another name
replaces the record, so the name of participant `a` changes. -/
theorem rejoin_changes_name :
    (((run noTurn ServerState.init duoEvents).1.meetings.get "M").bind
      (fun m => m.participants.get "a")).map (·.name) = some "Ann" ∧
    (((handle noTurn (run noTurn ServerState.init duoEvents).1 "a"
      (.joinMeeting "M" "Bob" 2)).1.meetings.get "M").bind
      (fun m => m.participants.get "a")).map (·.name) = some "Bob" := by
  decide

/-- C24, amended: a participant's name changes only when that connection
joins again.  For every state, every inbound action other than a join-as-host
or join-meeting sent by c itself, and every connection c that is a
participant of the meeting registered under the same identifier both before
and after the action is handled, the name of c is the same before and
after. -/
theorem name_stable (env : TurnEnv) (st : ServerState) (sock : String) (a : Action)
    (k c : String) (m m' : Meeting) (p p' : Participant)
    (hm : st.meetings.get k = some m)
    (hm' : (handle env st sock a).1.meetings.get k = some m')
    (hp : m.participants.get c = some p) (hp' : m'.participants.get c = some p')
    (hj : ¬ (sock = c ∧ a.isJoin = true)) : p'.name = p.name := by
  rcases handle_meetings env st sock a k m' hm' with h1 | ⟨m1, eff, hm1, rfl, ha⟩ |
    ⟨hostName, now, ha, rfl⟩
  · have : m = m' := Option.some.inj (hm.symm.trans h1)
    subst this
    rw [Option.some.inj (hp.symm.trans hp')]
  · have : m = m1 := Option.some.inj (hm.symm.trans hm1)
    subst this
    rcases Effect.add_or_not eff with ⟨id, name, isHost, now, rfl⟩ | hne
    · obtain ⟨hid, _, hjoin⟩ := ha
      rcases Meeting.addParticipant_roster m id name isHost now c p' hp' with ⟨hc, _⟩ | ⟨_, hold⟩
      · exact absurd ⟨hid.symm.trans hc.symm, hjoin⟩ hj
      · rw [Option.some.inj (hp.symm.trans hold)]
    · obtain ⟨q, hq, hk⟩ := Effect.effect_roster m eff hne c p' hp'
      rw [hk.2.1, Option.some.inj (hp.symm.trans hq)]
  · rcases Meeting.addParticipant_roster _ sock hostName true now c p' hp' with ⟨hc, _⟩ | ⟨_, hold⟩
    · exact absurd ⟨hc.symm, by rw [ha]; rfl⟩ hj
    · simp [Meeting.new, JMap.get] at hold

theorem name_stable_witness :
    (newParticipant "a" "Ann" false 1).name = (newParticipant "a" "Ann" false 1).name :=
  name_stable noTurn duoServer "h" (.muteParticipant "a") "M" "a" duoMeeting
    (Effect.apply duoMeeting (.toggleMuted "a"))
    (newParticipant "a" "Ann" false 1)
    { newParticipant "a" "Ann" false 1 with isMuted := true }
    (by decide) (by decide) (by decide) (by decide) (by decide)

/-! ## Roles and flags under sequences of method calls -/

theorem roleInv_apply (m : Meeting) (op : MeetingOp) (h : RoleInv m) : RoleInv (op.apply m) := by
  refine ⟨MeetingOp.apply_keys_nodup m op h.1, ?_⟩
  intro c p' hp' hboth
  by_cases hadd : ∃ id name isHost now, op = .addParticipant id name isHost now
  · obtain ⟨id, name, isHost, now, rfl⟩ := hadd
    rcases Meeting.addParticipant_roster m id name isHost now c p' hp' with
      ⟨_, _, _, _, hco⟩ | ⟨_, hold⟩
    · rw [hco] at hboth; exact absurd hboth.2 (by simp)
    · exact h.2 c p' hold hboth
  · obtain ⟨p, hp, hk⟩ := MeetingOp.apply_roster m op
      (fun id name isHost now e => hadd ⟨id, name, isHost, now, e⟩) c p' hp'
    have hhost : p.isHost = true := hk.2.2.1 ▸ hboth.1
    rcases hk.2.2.2 hboth.2 with hco | hnh
    · exact h.2 c p hp ⟨hhost, hco⟩
    · rw [hhost] at hnh; exact absurd hnh (by simp)

theorem roleInv_runOps (ops : List MeetingOp) :
    ∀ m : Meeting, RoleInv m → RoleInv (runOps m ops) := by
  induction ops with
  | nil => intro m h; exact h
  | cons op rest ih =>
    intro m h
    simp only [runOps, List.foldl_cons]
    exact ih _ (roleInv_apply m op h)

/-- C26: starting from a newly constructed Meeting, after any finite sequence
of Meeting operations with arbitrary arguments, no participant has both
isHost and isCoHost true. -/
theorem host_never_cohost (id hostId hostName : String) (now : Nat) (env : TurnEnv)
    (ops : List MeetingOp) :
    ∀ e ∈ (runOps (Meeting.new id hostId hostName now env) ops).participants,
      ¬ (e.2.isHost = true ∧ e.2.isCoHost = true) := by
  have h0 : RoleInv (Meeting.new id hostId hostName now env) :=
    ⟨by simp [Meeting.new, JMap.keys], fun c p hp => by simp [Meeting.new, JMap.get] at hp⟩
  obtain ⟨hn, hr⟩ := roleInv_runOps ops _ h0
  intro e he
  exact hr e.1 e.2 (JMap.get_of_mem_nodup _ e hn he)

theorem host_never_cohost_witness :
    ("a", { newParticipant "a" "Ann" false 1 with isCoHost := true }) ∈
      (runOps (Meeting.new "M" "h" "Host" 0 noTurn)
        [.addParticipant "h" "Host" true 0, .addParticipant "a" "Ann" false 1,
          .makeCoHost "a", .makeCoHost "h"]).participants ∧
    ¬ (({ newParticipant "a" "Ann" false 1 with isCoHost := true } : Participant).isHost = true ∧
      ({ newParticipant "a" "Ann" false 1 with isCoHost := true } : Participant).isCoHost =
        true) :=
  ⟨by decide,
    host_never_cohost "M" "h" "Host" 0 noTurn
      [.addParticipant "h" "Host" true 0, .addParticipant "a" "Ann" false 1,
        .makeCoHost "a", .makeCoHost "h"]
      ("a", { newParticipant "a" "Ann" false 1 with isCoHost := true }) (by decide)⟩

/-- C28: the coHosts set and the isCoHost flags can disagree.  When
addParticipant is called again for a co-host, the id stays in coHosts while
the new record has isCoHost false; through the handlers, a co-host that sends
join-meeting again. -/
theorem readd_cohost_disagrees :
    "a" ∈ (runOps freshMeeting
      [.addParticipant "a" "Ann" false 1, .makeCoHost "a",
        .addParticipant "a" "Ann" false 2]).coHosts ∧
    ((runOps freshMeeting
      [.addParticipant "a" "Ann" false 1, .makeCoHost "a",
        .addParticipant "a" "Ann" false 2]).participants.get "a").map (·.isCoHost) =
      some false ∧
    ((handle noTurn coHostServer "a" (.joinMeeting "M" "Ann" 5)).1.meetings.get "M").map
      (fun m => (decide ("a" ∈ m.coHosts), (m.participants.get "a").map (·.isCoHost))) =
      some (true, some false) := by
  decide

/-- C29: a non-null spotlightedParticipant need not be flagged.  After
spotlightParticipant for an id that is not a participant, the previous
spotlighted participant has isSpotlighted false while spotlightedParticipant
still holds its id; the spotlight-participant handler reaches this with any
unknown target and announces the unknown id as spotlighted. -/
theorem unknown_spotlight_disagrees :
    sampleMeeting.spotlightedParticipant = some "h" ∧
    (sampleMeeting.participants.get "h").map (·.isSpotlighted) = some true ∧
    (sampleMeeting.spotlightParticipant "ghost").spotlightedParticipant = some "h" ∧
    ((sampleMeeting.spotlightParticipant "ghost").participants.get "h").map (·.isSpotlighted) =
      some false ∧
    ((handle noTurn sampleServer "h" (.spotlightParticipant "ghost")).1.meetings.get "M").map
      (fun m => (m.spotlightedParticipant, (m.participants.get "h").map (·.isSpotlighted))) =
      some (some "h", some false) ∧
    ((handle noTurn sampleServer "h" (.spotlightParticipant "ghost")).2.map
      (fun n => match n.event with
        | .participantSpotlighted s _ _ => s
        | _ => none)) = [some "ghost"] := by
  decide

/-! ## Client grid pagination -/

theorem renderVideoGrid_totalGridPages (s : GridState) (totalParticipants : Nat) :
    (renderVideoGrid s true totalParticipants).totalGridPages = ceilPages totalParticipants := by
  simp [renderVideoGrid]

theorem ceilPages_spec (totalParticipants : Nat) :
    (totalParticipants : Int) ≤ ceilPages totalParticipants * 25 ∧
    ceilPages totalParticipants * 25 < (totalParticipants : Int) + 25 := by
  unfold ceilPages participantsPerPage
  omega

theorem renderVideoGrid_valid (s : GridState) (totalParticipants : Nat)
    (hn : 0 < totalParticipants) (hp : 0 ≤ s.currentGridPage) :
    0 ≤ (renderVideoGrid s true totalParticipants).currentGridPage ∧
    (renderVideoGrid s true totalParticipants).currentGridPage ≤
      (renderVideoGrid s true totalParticipants).totalGridPages - 1 := by
  simp only [renderVideoGrid, Bool.not_true, Bool.false_eq_true, if_false]
  unfold ceilPages participantsPerPage
  omega

/-- C30: renderVideoGrid does not always leave currentGridPage valid.  With no
participants (the view toggle before the meeting is joined) it sets
totalGridPages to 0 and currentGridPage to -1, the slice would start at index
-25, and a later render with three participants keeps currentGridPage at
-1. -/
theorem empty_grid_negative_page :
    (renderVideoGrid GridState.init true 0).totalGridPages = 0 ∧
    (renderVideoGrid GridState.init true 0).currentGridPage = -1 ∧
    (toggleView GridState.init true 0).currentGridPage = -1 ∧
    startIndex (renderVideoGrid GridState.init true 0) = -25 ∧
    (renderVideoGrid (renderVideoGrid GridState.init true 0) true 3).totalGridPages = 1 ∧
    (renderVideoGrid (renderVideoGrid GridState.init true 0) true 3).currentGridPage = -1 := by
  decide

end Call
